import Mathlib

/-!
# DieCastTracker: a shallow embedding of the browser-side controllers

The page controllers of the repository (`src/pages/home/home.js`,
`src/static/script.js`, `src/pages/add-field/add-field.js`,
`src/pages/add-model/add-model.js`, `src/static/add_model.js`,
`src/pages/preorders/preorders.js`) are embedded as pure functions on an explicit
state.  The DOM elements a controller reads or writes are fields of the state, the
observable side effects (`alert`, `fetch`, downloads, console errors) are appended to a
log, and the answer of the backend to a `fetch` is an argument of the function that
awaits it.

Modelling conventions.

* A JavaScript string is a list of characters.  `length` counts UTF-16 code units,
  as the `.length` of the source does.
* A record is the list of its own properties in enumeration order.  A read `row[column]`
  of a key the record lacks follows the prototype chain: it gives the member of
  `Object.prototype` of that name, if there is one, and `undefined` otherwise.
* Numbers are the integers, printed in decimal.
* `String.prototype.toLowerCase` is a parameter of the functions that call it: the
  case tables are part of the language runtime, and no theorem depends on them.  On the
  preorders page the runtime also prints amounts in the `en-IN` locale and words the
  message of a `TypeError`; the three services are the fields of `Runtime`.
* An input of type `text` stores the string assigned to it without its line feeds and
  carriage returns, which the value sanitization of that input type removes.
* Every element that the source looks up by its id is on the page.
* A method that the source calls without awaiting it is run to its end where it is
  called, with the answer to its own request as a further argument.
-/

namespace DieCastTracker

/-! ## Strings -/

/-- JavaScript string values. -/
abbrev JSString := List Char

/-- Number of UTF-16 code units of one character. -/
def utf16Units (c : Char) : Nat :=
  if c.toNat < 0x10000 then 1 else 2

/-- The `.length` of a string: its number of UTF-16 code units. -/
def jsLength (s : JSString) : Nat :=
  (s.map utf16Units).sum

/-- White space and line terminators, the characters `trim` strips. -/
def isWhiteSpace (c : Char) : Bool :=
  let n := c.toNat
  n == 0x09 || n == 0x0A || n == 0x0B || n == 0x0C || n == 0x0D || n == 0x20 ||
  n == 0xA0 || n == 0x1680 || (0x2000 ≤ n && n ≤ 0x200A) || n == 0x2028 ||
  n == 0x2029 || n == 0x202F || n == 0x205F || n == 0x3000 || n == 0xFEFF

/-- Strip leading white space. -/
def trimStart (s : JSString) : JSString :=
  s.dropWhile isWhiteSpace

/-- Strip trailing white space. -/
def trimEnd (s : JSString) : JSString :=
  (s.reverse.dropWhile isWhiteSpace).reverse

/-- The method `String.prototype.trim`. -/
def trim (s : JSString) : JSString :=
  trimEnd (trimStart s)

/-- The method `String.prototype.includes`: `needle` occurs in `s` as a contiguous run. -/
def includes (s needle : JSString) : Bool :=
  decide (needle <:+: s)

/-- Lower-casing of the ASCII letters, one instance of the case mapping. -/
def asciiLower (s : JSString) : JSString :=
  s.map Char.toLower

/-- Errors a JavaScript function can throw. -/
inductive JSError where
  | typeError
  | error (message : JSString)
  deriving DecidableEq, Repr

deriving instance DecidableEq for Except

/-! ## Records -/

/-- Scalar field values of a record: string, number or null. -/
inductive Value where
  | str (s : JSString)
  | num (n : Int)
  | null
  deriving DecidableEq, Repr

/-- Decimal form of an integer, as `Number.prototype.toString` prints it. -/
def numberToString (n : Int) : JSString :=
  (toString n).toList

/-- The call `value.toString()`: there is no such method on `null`. -/
def Value.toString : Value → Except JSError JSString
  | .str s => .ok s
  | .num n => .ok (numberToString n)
  | .null => .error .typeError

/-- String form of a value as the table shows it; null shows as the empty string. -/
def Value.stringForm : Value → JSString
  | .str s => s
  | .num n => numberToString n
  | .null => []

/-- A record: its own properties in enumeration order. -/
abbrev Record := List (JSString × Value)

/-- The call `Object.keys(row)`. -/
def keys (row : Record) : List JSString :=
  row.map Prod.fst

/-- The call `Object.values(row)`. -/
def values (row : Record) : List Value :=
  row.map Prod.snd

/-- The own property `column` of `row`; `none` when the record has no such key.  This is
what `row[column]` reads for every name under which `Object.prototype` has no member, the
fixed names of the preorders page among them; `readProp` is the read for any name. -/
def getProp (row : Record) (column : JSString) : Option Value :=
  match row with
  | [] => none
  | (k, v) :: rest => if k = column then some v else getProp rest column

/-- Names of the methods that every record inherits from `Object.prototype`, other than
`constructor`; each is a built-in function of that name. -/
def prototypeMethods : List JSString :=
  ["__defineGetter__".toList, "__defineSetter__".toList, "hasOwnProperty".toList,
   "__lookupGetter__".toList, "__lookupSetter__".toList, "isPrototypeOf".toList,
   "propertyIsEnumerable".toList, "toString".toList, "valueOf".toList,
   "toLocaleString".toList]

/-- The name is that of a member of `Object.prototype`: the accessor `__proto__`, the
property `constructor` or one of the methods. -/
def isInherited (column : JSString) : Bool :=
  decide (column = "__proto__".toList) || decide (column = "constructor".toList) ||
    decide (column ∈ prototypeMethods)

/-- What a property read gives: a value of the record itself, a built-in function
inherited from `Object.prototype`, the object `Object.prototype` (which the inherited
accessor `__proto__` returns), or `undefined`. -/
inductive Read where
  | own (value : Value)
  | method (name : JSString)
  | prototype
  | undefined
  deriving DecidableEq, Repr

/-- Property access `row[column]` for any column name.  An own property comes first, also
one named `__proto__`, which `JSON.parse` creates as a data property. -/
def readProp (row : Record) (column : JSString) : Read :=
  match getProp row column with
  | some v => .own v
  | none =>
    if column = "__proto__".toList then .prototype
    else if column = "constructor".toList then .method "Object".toList
    else if column ∈ prototypeMethods then .method column
    else .undefined

/-- Source text of a built-in function, which `toString` and `String` give for it, as
the V8 engine prints it. -/
def nativeSource (name : JSString) : JSString :=
  "function ".toList ++ name ++ "() \x7b [native code] \x7d".toList

/-- The text `String(Object.prototype)`. -/
def objectText : JSString :=
  "[object Object]".toList

/-- Remove line feeds and carriage returns: what an input of type `text` does to a value
assigned to it. -/
def stripLineBreaks (s : JSString) : JSString :=
  s.filter fun c => !(c == '\n' || c == '\r')

/-- A record none of whose fields is null. -/
def noNull (row : Record) : Prop :=
  ∀ v ∈ values row, v ≠ Value.null

instance (row : Record) : Decidable (noNull row) := by
  unfold noNull
  infer_instance

/-! ## State of the home page controller -/

/-- Body of a JSON request. -/
inductive Body where
  | updateModel (serial_number : Option Value) (updates : List (JSString × JSString))
  | deleteModel (serial_number : Option Value)
  | addField (field_name : JSString)
  | addModel (model_name series subseries : JSString)
  | preorder (seller models eta total_price po_amount on_arrival_amount delivery_status : Value)
  deriving DecidableEq, Repr

/-- Observable side effects, in the order they happen. -/
inductive Effect where
  | alert (message : JSString)
  | fetch (method url : JSString) (body : Option Body)
  | consoleError (message : JSString)
  | download (filename csv : JSString)
  | confirm (message : JSString)
  deriving DecidableEq, Repr

/-- One generated input of the edit form. -/
structure EditInput where
  id : JSString
  name : JSString
  value : JSString
  deriving DecidableEq, Repr

/-- The fields of `DieCastTracker` together with the page elements it touches. -/
structure Tracker where
  currentData : List Record := []
  filteredData : List Record := []
  columns : List JSString := []
  currentEditingRow : Option Record := none
  currentDeletingRow : Option Record := none
  /-- Element `loading` is displayed. -/
  loadingShown : Bool := false
  /-- Element `error-message`: its text and whether it is displayed. -/
  errorText : JSString := []
  errorShown : Bool := false
  /-- Element `clear-search` is displayed. -/
  clearSearchShown : Bool := false
  /-- Value of `search-input`. -/
  searchInput : JSString := []
  /-- Text of `total-models` and of `filtered-count`. -/
  totalModels : Nat := 0
  filteredCount : Nat := 0
  /-- Element `data-table` and element `no-data` are displayed. -/
  tableShown : Bool := false
  noDataShown : Bool := false
  /-- Columns the header was built from, and the cell texts of the body. -/
  tableColumns : List JSString := []
  tableRows : List (List JSString) := []
  /-- Edit modal: hidden flag and generated inputs. -/
  editModalHidden : Bool := true
  editFields : List EditInput := []
  /-- Delete modal: hidden flag and value of `delete-confirm-input`. -/
  deleteModalHidden : Bool := true
  deleteConfirmInput : JSString := []
  /-- Side effects so far, oldest first. -/
  log : List Effect := []
  deriving DecidableEq, Repr

/-- State after a call, and the error it threw, if any. -/
structure Run where
  state : Tracker
  thrown : Option JSError := none
  deriving DecidableEq, Repr

/-- State after a call of a method of some controller, and the error it threw, if any.
For a method that awaits a request it sent, `pending` is the state of the page at that
`await`, which lasts for as long as the request is in flight. -/
structure Ran (σ : Type) where
  state : σ
  thrown : Option JSError := none
  pending : Option σ := none

/-- Count of `fetch` calls in a log. -/
def fetchCount (log : List Effect) : Nat :=
  (log.filter fun e => match e with
    | .fetch _ _ _ => true
    | _ => false).length

/-! ## Rendering -/

/-- Method `formatCellValue` on a property read; `none` is `undefined`. -/
def formatCellValue (value : Option Value) : JSString :=
  match value with
  | none => []
  | some .null => []
  | some (.str s) => s
  | some (.num n) => numberToString n

/-- Method `formatCellValue` on what a property read gives.  A built-in function is not
of type `object` and shows as its source text; `Object.prototype` is, and
`JSON.stringify` gives `{}` for it. -/
def Read.formatCellValue : Read → JSString
  | .own v => DieCastTracker.formatCellValue (some v)
  | .undefined => DieCastTracker.formatCellValue none
  | .method name => nativeSource name
  | .prototype => "\x7b\x7d".toList

/-- Method `updateFilteredCount`. -/
def updateFilteredCount (st : Tracker) : Tracker :=
  { st with filteredCount := st.filteredData.length }

/-- Method `renderTable(data, columns)`; `columns = none` is the default `null`. -/
def renderTable (data : List Record) (columns : Option (List JSString)) (st : Tracker) :
    Tracker :=
  match data with
  | [] => { st with tableShown := false, noDataShown := true }
  | first :: _ =>
    let cols := match columns with
      | some cs => cs
      | none => keys first
    { st with
      tableShown := true
      noDataShown := false
      tableColumns := cols
      tableRows := data.map fun row => cols.map fun c => (readProp row c).formatCellValue }

/-! ## Search -/

/-- The call `values.some(p)` for a callback that may throw. -/
def someValue (p : Value → Except JSError Bool) : List Value → Except JSError Bool
  | [] => .ok false
  | v :: vs =>
    match p v with
    | .error e => .error e
    | .ok true => .ok true
    | .ok false => someValue p vs

/-- The call `items.filter(p)` for a callback that may throw. -/
def filterRecords (p : Record → Except JSError Bool) : List Record → Except JSError (List Record)
  | [] => .ok []
  | r :: rs =>
    match p r with
    | .error e => .error e
    | .ok b =>
      match filterRecords p rs with
      | .error e => .error e
      | .ok out => .ok (if b then r :: out else out)

/-- The callback of `handleSearch`:
`value.toString().toLowerCase().includes(query.toLowerCase())`. -/
def valueMatches (toLowerCase : JSString → JSString) (query : JSString) (value : Value) :
    Except JSError Bool :=
  match value.toString with
  | .error e => .error e
  | .ok s => .ok (includes (toLowerCase s) (toLowerCase query))

/-- Method `handleSearch(query)`. -/
def handleSearch (toLowerCase : JSString → JSString) (query : JSString) (st : Tracker) : Run :=
  if trim query = [] then
    let st1 := { st with filteredData := st.currentData, clearSearchShown := false }
    let st2 := updateFilteredCount st1
    { state := renderTable st2.filteredData none st2 }
  else
    let st1 := { st with clearSearchShown := true }
    match filterRecords (fun item => someValue (valueMatches toLowerCase query) (values item))
        st1.currentData with
    | .error e => { state := st1, thrown := some e }
    | .ok out =>
      let st2 := updateFilteredCount { st1 with filteredData := out }
      { state := renderTable st2.filteredData none st2 }

/-- Method `clearSearch`. -/
def clearSearch (st : Tracker) : Tracker :=
  let st1 := { st with searchInput := [], clearSearchShown := false,
                       filteredData := st.currentData }
  let st2 := updateFilteredCount st1
  renderTable st2.filteredData none st2

/-- The filter the specification describes: a record is kept when the lower-cased
query occurs in the lower-cased string form of one of its field values. -/
def specMatches (toLowerCase : JSString → JSString) (query : JSString) (r : Record) : Bool :=
  (values r).any fun v => includes (toLowerCase v.stringForm) (toLowerCase query)

/-! ## Loading -/

/-- Answer of the backend to a mutating request: `success: true` with its message,
`success: false` with its error, or a transport or parse failure with its message. -/
inductive ApiResponse where
  | success (message : JSString)
  | failure (error : JSString)
  | thrown (message : JSString)
  deriving DecidableEq, Repr

/-- Answer of the backend to `GET /api/data`. -/
inductive DataResponse where
  | success (data : List Record) (columns : Option (List JSString))
      (total_records : Option Nat)
  | failure (message : Option JSString)
  | thrown (message : JSString)
  deriving DecidableEq, Repr

/-- Method `showLoading`. -/
def showLoading (st : Tracker) : Tracker :=
  { st with loadingShown := true, tableShown := false, noDataShown := false }

/-- Method `hideLoading`. -/
def hideLoading (st : Tracker) : Tracker :=
  { st with loadingShown := false }

/-- Method `showError`. -/
def showError (message : JSString) (st : Tracker) : Tracker :=
  { st with errorText := message, errorShown := true, tableShown := false,
            noDataShown := false }

/-- Method `hideError`. -/
def hideError (st : Tracker) : Tracker :=
  { st with errorShown := false }

/-- Method `updateStats`: `result.total_records || 0`, then the filtered count. -/
def updateStats (total_records : Option Nat) (st : Tracker) : Tracker :=
  updateFilteredCount { st with totalModels := total_records.getD 0 }

/-- The `catch` branch of `loadData`. -/
def loadDataFailed (message : JSString) (st : Tracker) : Tracker :=
  let st1 := { st with log := st.log ++ [.consoleError message] }
  hideLoading (showError ("Failed to load data: ".toList ++ message) st1)

/-- Method `loadData`, given the answer to its request: the state while the request is
in flight, and the state in which the method ends. -/
def loadDataRun (resp : DataResponse) (st : Tracker) : Ran Tracker :=
  let st1 := hideError (showLoading st)
  let st2 := { st1 with log := st1.log ++ [.fetch "GET".toList "/api/data".toList none] }
  { pending := some st2
    state :=
      match resp with
      | .success data columns total =>
        let st3 := { st2 with currentData := data, filteredData := data,
                              columns := columns.getD [] }
        let st4 := updateStats total st3
        hideLoading (renderTable st4.filteredData columns st4)
      | .failure message =>
        loadDataFailed (match message with
          | some m => if m = [] then "Failed to load data".toList else m
          | none => "Failed to load data".toList) st2
      | .thrown message => loadDataFailed message st2 }

/-- The state in which `loadData` ends. -/
def loadData (resp : DataResponse) (st : Tracker) : Tracker :=
  (loadDataRun resp st).state

/-- The effects one run of `loadData` adds to the log. -/
def loadDataEffects (resp : DataResponse) : List Effect :=
  .fetch "GET".toList "/api/data".toList none ::
    match resp with
    | .success _ _ _ => []
    | .failure (some m) => [.consoleError (if m = [] then "Failed to load data".toList else m)]
    | .failure none => [.consoleError "Failed to load data".toList]
    | .thrown message => [.consoleError message]

/-! ## CSV export -/

/-- The call `s.replace(/"/g, '""')`: every double quote becomes two. -/
def doubleQuotes : JSString → JSString
  | [] => []
  | c :: cs => if c = '"' then '"' :: '"' :: doubleQuotes cs else c :: doubleQuotes cs

/-- The expression `value?.toString().replace(/"/g, '""')`; `none` is `undefined`. -/
def escapedValue (value : Option Value) : Option JSString :=
  match value with
  | none => none
  | some .null => none
  | some (.str s) => some (doubleQuotes s)
  | some (.num n) => some (doubleQuotes (numberToString n))

/-- One cell of a data row: the escaped value, or `''` when that is `undefined` or empty,
between double quotes. -/
def csvCell (value : Option Value) : JSString :=
  let inner := match escapedValue value with
    | none => []
    | some s => if s = [] then [] else s
  '"' :: inner ++ ['"']

/-- One cell of a data row for what a property read gives. -/
def Read.csvCell : Read → JSString
  | .own v => DieCastTracker.csvCell (some v)
  | .undefined => DieCastTracker.csvCell none
  | .method name => '"' :: doubleQuotes (nativeSource name) ++ ['"']
  | .prototype => '"' :: doubleQuotes objectText ++ ['"']

/-- The call `cells.join(sep)`. -/
def join (sep : JSString) (parts : List JSString) : JSString :=
  sep.intercalate parts

/-- The constant `csv` of `exportCSV`: `csvContent` receives the header, then one line per
filtered record, and is joined by line feeds.  The columns are the keys of `first`. -/
def csvText (first : Record) (filteredData : List Record) : JSString :=
  let columns := keys first
  let header := join ",".toList (columns.map fun col => '"' :: col ++ ['"'])
  let csvContent := filteredData.foldl
    (fun content row =>
      content ++ [join ",".toList (columns.map fun col => (readProp row col).csvCell)])
    [header]
  join "\n".toList csvContent

/-- Method `exportCSV`; `isoDate` is the date part of `new Date().toISOString()`.  The
anchor element has its `download` property in every browser that runs this code. -/
def exportCSV (isoDate : JSString) (st : Tracker) : Tracker :=
  match st.filteredData with
  | [] => { st with log := st.log ++ [.alert "No data to export".toList] }
  | first :: _ =>
    { st with log := st.log ++
        [.download ("diecast_collection_".toList ++ isoDate ++ ".csv".toList)
          (csvText first st.filteredData)] }

/-- String form of a property read as the table shows it: `undefined` and null are the
empty string. -/
def stringForm (value : Option Value) : JSString :=
  match value with
  | none => []
  | some v => v.stringForm

/-- String form of what a property read gives: null and `undefined` are the empty string,
and an inherited member is its text. -/
def Read.stringForm : Read → JSString
  | .own v => v.stringForm
  | .undefined => []
  | .method name => nativeSource name
  | .prototype => objectText

/-- The CSV text the specification describes: the header of quoted column names, then for
each record the quoted cells, each the string form of the value read under the column
with its quotes doubled. -/
def specCsv (columns : List JSString) (records : List Record) : JSString :=
  let quote := fun (s : JSString) => "\"".toList ++ s ++ "\"".toList
  let line := fun (cells : List JSString) => ",".toList.intercalate cells
  "\n".toList.intercalate
    (line (columns.map quote) ::
      records.map fun r =>
        line (columns.map fun c => quote (doubleQuotes (readProp r c).stringForm)))

/-! ## Reading CSV back -/

/-- Where a CSV reader stands: before a record, before a field, inside a bare field, inside
a quoted field, or just after a double quote met inside a quoted field. -/
inductive CsvState where
  | recordStart
  | fieldStart
  | bare
  | quoted
  | quoteSeen
  deriving DecidableEq, Repr

/-- A CSV reader with the standard quoting rules (RFC 4180): fields are separated by commas
and records by line feeds; a field between double quotes may hold commas, line feeds and
doubled double quotes, each pair standing for one; a double quote elsewhere is malformed,
and so is any character other than a comma or a line feed after a closing quote.  `field`,
`row` and `rows` hold what was read so far, newest first. -/
def parseCsvFrom : CsvState → JSString → List JSString → List (List JSString) → JSString →
    Option (List (List JSString))
  | .recordStart, _, _, rows, [] => some rows.reverse
  | .quoted, _, _, _, [] => none
  | _, field, row, rows, [] => some ((field.reverse :: row).reverse :: rows).reverse
  | .quoted, field, row, rows, c :: cs =>
    if c = '"' then parseCsvFrom .quoteSeen field row rows cs
    else parseCsvFrom .quoted (c :: field) row rows cs
  | .quoteSeen, field, row, rows, c :: cs =>
    if c = '"' then parseCsvFrom .quoted ('"' :: field) row rows cs
    else if c = ',' then parseCsvFrom .fieldStart [] (field.reverse :: row) rows cs
    else if c = '\n' then
      parseCsvFrom .recordStart [] [] ((field.reverse :: row).reverse :: rows) cs
    else none
  | .bare, field, row, rows, c :: cs =>
    if c = '"' then none
    else if c = ',' then parseCsvFrom .fieldStart [] (field.reverse :: row) rows cs
    else if c = '\n' then
      parseCsvFrom .recordStart [] [] ((field.reverse :: row).reverse :: rows) cs
    else parseCsvFrom .bare (c :: field) row rows cs
  | _, _, row, rows, c :: cs =>
    if c = '"' then parseCsvFrom .quoted [] row rows cs
    else if c = ',' then parseCsvFrom .fieldStart [] ([] :: row) rows cs
    else if c = '\n' then parseCsvFrom .recordStart [] [] (([] :: row).reverse :: rows) cs
    else parseCsvFrom .bare [c] row rows cs

/-- A reader state in which a field may begin. -/
def CsvState.opens (state : CsvState) : Prop :=
  state = .recordStart ∨ state = .fieldStart

/-- Read a whole CSV text into its records; `none` when the text is malformed. -/
def parseCsv (text : JSString) : Option (List (List JSString)) :=
  parseCsvFrom .recordStart [] [] [] text

/-- What reading an export back should give: the column names, then for each record the
string forms of the values read under those columns. -/
def expectedTable (columns : List JSString) (records : List Record) :
    List (List JSString) :=
  columns :: records.map fun r => columns.map fun c => (readProp r c).stringForm

/-- One line of CSV for a list of cell texts: each text with its quotes doubled, between
double quotes, the cells joined by commas. -/
def csvLine (cells : List JSString) : JSString :=
  ",".toList.intercalate (cells.map fun s => '"' :: doubleQuotes s ++ ['"'])

/-- The CSV text of a table of cell texts: its lines joined by line feeds. -/
def csvEncode (table : List (List JSString)) : JSString :=
  "\n".toList.intercalate (table.map csvLine)

/-- What reading an export back would give if every record came back whole: the column
names, then for each record the string forms of all its values. -/
def wholeRecords (columns : List JSString) (records : List Record) : List (List JSString) :=
  columns :: records.map fun r => (values r).map Value.stringForm

/-! ## Edit modal -/

/-- The set built by `new Set(items)`, as `Array.from` lists it: each item once, in order
of first occurrence. -/
def setFrom (items : List JSString) : List JSString :=
  items.foldl (fun seen c => if c ∈ seen then seen else seen ++ [c]) []

/-- A column name is blank: empty, or white space only. -/
def isBlank (name : JSString) : Bool :=
  decide (name = []) || decide (trim name = [])

/-- The call `column.replace(/\s+/g, '_')`: each run of white space becomes one
underscore.  `inRun` tells that the character before was white space. -/
def replaceSpaceRunsFrom (inRun : Bool) : JSString → JSString
  | [] => []
  | c :: cs =>
    if isWhiteSpace c then
      if inRun then replaceSpaceRunsFrom true cs else '_' :: replaceSpaceRunsFrom true cs
    else c :: replaceSpaceRunsFrom false cs

/-- The call `column.replace(/\s+/g, '_')`. -/
def replaceSpaceRuns (s : JSString) : JSString :=
  replaceSpaceRunsFrom false s

/-- A character of the class `[\w\-]`: an ASCII letter, a digit, an underscore or a hyphen. -/
def isWordOrHyphen (c : Char) : Bool :=
  let n := c.toNat
  (0x61 ≤ n && n ≤ 0x7A) || (0x41 ≤ n && n ≤ 0x5A) || (0x30 ≤ n && n ≤ 0x39) ||
    n == 0x5F || n == 0x2D

/-- The derived element id: `'edit-' + column.replace(/\s+/g, '_').replace(/[^\w\-]/g, '')`. -/
def safeId (column : JSString) : JSString :=
  "edit-".toList ++ (replaceSpaceRuns column).filter isWordOrHyphen

/-- Value an edit input is filled with: `''` for a null, missing or empty value, otherwise
`String(value)`. -/
def prefill (value : Option Value) : JSString :=
  match value with
  | none => []
  | some .null => []
  | some (.str s) => s
  | some (.num n) => numberToString n

/-- The value `showEditModal` assigns to an input, for what the read of the column gives:
an inherited member is neither null, `undefined` nor `''`, and goes through `String`. -/
def Read.prefill : Read → JSString
  | .own v => DieCastTracker.prefill (some v)
  | .undefined => DieCastTracker.prefill none
  | .method name => nativeSource name
  | .prototype => objectText

/-- The inputs `showEditModal` generates for `row`.  Each is of type `text`, so the value
it holds is the assigned one without its line breaks. -/
def editInputs (columns : List JSString) (row : Record) : List EditInput :=
  let columnsToShow := (setFrom (columns ++ keys row)).filter fun col => !isBlank col
  columnsToShow.filterMap fun column =>
    if column = "S.No".toList || isBlank column then none
    else some { id := safeId column, name := column,
                value := stripLineBreaks (readProp row column).prefill }

/-- Method `showEditModal`. -/
def showEditModal (row : Record) (st : Tracker) : Tracker :=
  { st with editFields := editInputs st.columns row, editModalHidden := false }

/-- Method `editModel`. -/
def editModel (row : Record) (st : Tracker) : Tracker :=
  showEditModal row { st with currentEditingRow := some row }

/-- Method `closeEditModal`. -/
def closeEditModal (st : Tracker) : Tracker :=
  { st with editModalHidden := true, currentEditingRow := none }

/-- The entries of `new FormData(form)` for the edit form: name and value of each input. -/
def formEntries (fields : List EditInput) : List (JSString × JSString) :=
  fields.map fun f => (f.name, f.value)

/-- Assignment of an own property of an object with string values: a new key goes last. -/
def setOwn (obj : List (JSString × JSString)) (key value : JSString) :
    List (JSString × JSString) :=
  match obj with
  | [] => [(key, value)]
  | (k, v) :: rest => if k = key then (k, value) :: rest else (k, v) :: setOwn rest key value

/-- Assignment `obj[key] = value` on an object literal with string values.  Under the key
`__proto__` the assignment calls the inherited setter, which ignores a string: the object
gets no property.  The list is in order of insertion. -/
def setProp (obj : List (JSString × JSString)) (key value : JSString) :
    List (JSString × JSString) :=
  if key = "__proto__".toList then obj else setOwn obj key value

/-- The old value of the diff: `String(row[name] ?? '').trim()`. -/
def oldValue (row : Record) (name : JSString) : JSString :=
  trim (match readProp row name with
    | .undefined => []
    | .own .null => []
    | .own (.str s) => s
    | .own (.num n) => numberToString n
    | .method fn => nativeSource fn
    | .prototype => objectText)

/-- One turn of the loop of `handleEditSubmit` over the form entries. -/
def diffStep (row : Record) (updates : List (JSString × JSString))
    (entry : JSString × JSString) : List (JSString × JSString) :=
  if entry.1 = "S.No".toList || decide (entry.1 = []) || decide (trim entry.1 = []) then updates
  else
    let newValue := trim entry.2
    if newValue ≠ oldValue row entry.1 then setProp updates entry.1 newValue else updates

/-- The object `updates` that `handleEditSubmit` computes from the form entries. -/
def computeUpdates (row : Record) (entries : List (JSString × JSString)) :
    List (JSString × JSString) :=
  entries.foldl (diffStep row) []

/-- Method `handleEditSubmit`, given the form entries, the answer to the update request and
the answer to the reload that follows a success. -/
def handleEditSubmit (entries : List (JSString × JSString)) (resp : ApiResponse)
    (reload : DataResponse) (st : Tracker) : Tracker :=
  match st.currentEditingRow with
  | none => st
  | some row =>
    let updates := computeUpdates row entries
    if updates.length = 0 then
      { st with log := st.log ++ [.alert "No changes to save".toList] }
    else
      let st1 : Tracker := { st with log := st.log ++
        [.fetch "PUT".toList "/api/update-model".toList
          (some (.updateModel (getProp row "S.No".toList) updates))] }
      match resp with
      | .success message =>
        let st2 : Tracker :=
          { st1 with log := st1.log ++ [.alert ("Success: ".toList ++ message)] }
        loadData reload (closeEditModal st2)
      | .failure error =>
        { st1 with log := st1.log ++ [.alert ("Error: ".toList ++ error)] }
      | .thrown message =>
        { st1 with log := st1.log ++
            [.consoleError message, .alert ("Failed to update model: ".toList ++ message)] }

/-! ## Delete confirmation -/

/-- Method `showDeleteModal`; the summary markup written to `delete-model-info` is not
part of the state. -/
def showDeleteModal (st : Tracker) : Tracker :=
  { st with deleteConfirmInput := [], deleteModalHidden := false }

/-- Method `deleteModel`. -/
def deleteModel (row : Record) (st : Tracker) : Tracker :=
  showDeleteModal { st with currentDeletingRow := some row }

/-- Method `closeDeleteModal`. -/
def closeDeleteModal (st : Tracker) : Tracker :=
  { st with deleteModalHidden := true, currentDeletingRow := none, deleteConfirmInput := [] }

/-- The request `confirmDelete` sends for `row`. -/
def deleteRequest (row : Record) : Effect :=
  .fetch "DELETE".toList "/api/delete-model".toList
    (some (.deleteModel (getProp row "S.No".toList)))

/-- Method `confirmDelete`, given the answer to the delete request and the answer to the
reload that follows a success.  The typed confirmation is `st.deleteConfirmInput`. -/
def confirmDelete (resp : ApiResponse) (reload : DataResponse) (st : Tracker) : Tracker :=
  match st.currentDeletingRow with
  | none => st
  | some row =>
    if st.deleteConfirmInput ≠ "DELETE".toList then
      { st with log := st.log ++ [.alert "Please type DELETE to confirm".toList] }
    else
      let st1 : Tracker := { st with log := st.log ++ [deleteRequest row] }
      match resp with
      | .success message =>
        let st2 : Tracker :=
          { st1 with log := st1.log ++ [.alert ("Success: ".toList ++ message)] }
        loadData reload (closeDeleteModal st2)
      | .failure error =>
        { st1 with log := st1.log ++ [.alert ("Error: ".toList ++ error)] }
      | .thrown message =>
        { st1 with log := st1.log ++
            [.consoleError message, .alert ("Failed to delete model: ".toList ++ message)] }

/-- A log holds a `DELETE` request to `/api/delete-model`. -/
def sendsDelete (log : List Effect) : Bool :=
  log.any fun e => match e with
    | .fetch method url _ => method = "DELETE".toList && url = "/api/delete-model".toList
    | _ => false

/-! ## Add-field form -/

/-- The page elements `AddFieldForm` touches, and its side effects. -/
structure AddFieldForm where
  /-- Value of the input `field-name`. -/
  fieldName : JSString := []
  /-- Element `success-message`: text and `hidden` class. -/
  successText : JSString := []
  successHidden : Bool := true
  /-- Element `error-message`: text and `hidden` class. -/
  errorText : JSString := []
  errorHidden : Bool := true
  /-- Field names shown in `current-fields`. -/
  currentFields : List JSString := []
  log : List Effect := []
  deriving DecidableEq, Repr

/-- Method `AddFieldForm.showSuccess`. -/
def AddFieldForm.showSuccess (message : JSString) (form : AddFieldForm) : AddFieldForm :=
  { form with successText := message, successHidden := false }

/-- Method `AddFieldForm.showError`. -/
def AddFieldForm.showError (message : JSString) (form : AddFieldForm) : AddFieldForm :=
  { form with errorText := message, errorHidden := false }

/-- Method `AddFieldForm.loadCurrentFields`, given the answer to its request. -/
def AddFieldForm.loadCurrentFields (resp : DataResponse) (form : AddFieldForm) :
    AddFieldForm :=
  let form1 : AddFieldForm :=
    { form with log := form.log ++ [.fetch "GET".toList "/api/data".toList none] }
  match resp with
  | .success _ (some columns) _ => { form1 with currentFields := columns }
  | .success _ none _ => form1
  | .failure _ => form1
  | .thrown message => { form1 with log := form1.log ++ [.consoleError message] }

/-- The effects one run of `loadCurrentFields` adds to the log. -/
def loadCurrentFieldsEffects (resp : DataResponse) : List Effect :=
  .fetch "GET".toList "/api/data".toList none ::
    match resp with
    | .thrown message => [.consoleError message]
    | _ => []

/-- The array `invalidChars` of `handleSubmit`. -/
def invalidChars : List Char :=
  ['/', '\\', '?', '*', '[', ']', ':', ';']

/-- The text `invalidChars.join(', ')`. -/
def invalidCharsText : JSString :=
  ", ".toList.intercalate (invalidChars.map fun c => [c])

/-- The request `handleSubmit` sends for a field name. -/
def addFieldRequest (fieldName : JSString) : Effect :=
  .fetch "POST".toList "/api/add-field".toList (some (.addField fieldName))

/-- Method `AddFieldForm.handleSubmit`, given the answer to the add-field request and the
answer to the reload of the field list that a success schedules. -/
def AddFieldForm.handleSubmit (resp : ApiResponse) (reload : DataResponse)
    (form : AddFieldForm) : AddFieldForm :=
  let fieldName := trim form.fieldName
  let form1 : AddFieldForm := { form with successHidden := true, errorHidden := true }
  if fieldName = [] then
    form1.showError "Field name cannot be empty!".toList
  else if jsLength fieldName > 50 then
    form1.showError "Field name is too long (maximum 50 characters)".toList
  else if invalidChars.any fun char => includes fieldName [char] then
    form1.showError ("Field name contains invalid characters: ".toList ++ invalidCharsText)
  else
    let form2 : AddFieldForm := { form1 with log := form1.log ++ [addFieldRequest fieldName] }
    match resp with
    | .success message =>
      let form3 : AddFieldForm := { form2.showSuccess message with fieldName := [] }
      form3.loadCurrentFields reload
    | .failure error =>
      form2.showError (if error = [] then "Failed to add field".toList else error)
    | .thrown message =>
      let form3 : AddFieldForm := { form2 with log := form2.log ++ [.consoleError message] }
      form3.showError ("Failed to add field: ".toList ++ message)

/-- A log holds a `POST` request to `/api/add-field`. -/
def sendsAddField (log : List Effect) : Bool :=
  log.any fun e => match e with
    | .fetch method url _ => method = "POST".toList && url = "/api/add-field".toList
    | _ => false

/-- An ASCII letter, a digit or a space. -/
def isLetterDigitSpace (c : Char) : Bool :=
  let n := c.toNat
  (0x61 ≤ n && n ≤ 0x7A) || (0x41 ≤ n && n ≤ 0x5A) || (0x30 ≤ n && n ≤ 0x39) || n == 0x20

/-! ## Effects of one call -/

/-- The effects a call added to the log: what `after` holds beyond `before`. -/
def issued (before after : List Effect) : List Effect :=
  after.drop before.length

/-- An entry of the edit form enters the update set of `row`: its name is neither `S.No`
nor blank, its trimmed value differs from the old value of the diff, and its name is not
`__proto__`, under which an assignment creates no property. -/
def entryChanged (row : Record) (entry : JSString × JSString) : Bool :=
  decide (entry.1 ≠ "S.No".toList) && !isBlank entry.1 &&
    decide (trim entry.2 ≠ oldValue row entry.1) && decide (entry.1 ≠ "__proto__".toList)

/-- A string holds a line feed or a carriage return. -/
def hasLineBreak (s : JSString) : Bool :=
  s.any fun c => c == '\n' || c == '\r'

/-! ## Column sets and identifiers, as the specification words them -/

/-- Each distinct name once, in order of first occurrence. -/
def firstOccurrences : List JSString → List JSString
  | [] => []
  | a :: l => a :: (firstOccurrences l).filter fun c => decide (c ≠ a)

/-- Replace each maximal run of white space by one underscore: a white-space character
directly followed by another one is dropped, the last one of a run becomes the underscore,
and every other character is kept. -/
def collapseSpaceRuns : JSString → JSString
  | [] => []
  | [c] => if isWhiteSpace c then ['_'] else [c]
  | c :: d :: rest =>
    if isWhiteSpace c then
      if isWhiteSpace d then collapseSpaceRuns (d :: rest)
      else '_' :: collapseSpaceRuns (d :: rest)
    else c :: collapseSpaceRuns (d :: rest)

/-- An ASCII letter, a digit, an underscore or a hyphen, spelled out. -/
def isIdChar (c : Char) : Prop :=
  ('a' ≤ c ∧ c ≤ 'z') ∨ ('A' ≤ c ∧ c ≤ 'Z') ∨ ('0' ≤ c ∧ c ≤ '9') ∨ c = '_' ∨ c = '-'

/-! ## Add-model form -/

/-- One `option` element of a select: its value and its text. -/
structure SelectOption where
  value : JSString
  text : JSString
  deriving DecidableEq, Repr

/-- The field `dropdownOptions.series`: series names with their subseries, in order. -/
abbrev SeriesMap := List (JSString × List JSString)

/-- Property read `series[name]`; `none` is `undefined`. -/
def SeriesMap.get (series : SeriesMap) (name : JSString) : Option (List JSString) :=
  match series with
  | [] => none
  | (k, subs) :: rest => if k = name then some subs else SeriesMap.get rest name

/-- The field of `AddModelForm` and the page elements it touches. -/
structure AddModelForm where
  /-- The loaded options; `none` is the initial `null`. -/
  dropdownOptions : Option SeriesMap := none
  /-- Options of the select `series`. -/
  seriesOptions : List SelectOption := []
  /-- Options of the select `subseries`, and its `disabled` flag. -/
  subseriesOptions : List SelectOption := []
  subseriesDisabled : Bool := true
  /-- Values of the controls `model_name`, `series` and `subseries`. -/
  modelName : JSString := []
  series : JSString := []
  subseries : JSString := []
  successText : JSString := []
  successHidden : Bool := true
  errorText : JSString := []
  errorHidden : Bool := true
  /-- Markup and `disabled` flag of the button `submit-btn`. -/
  submitHtml : JSString := []
  submitDisabled : Bool := false
  log : List Effect := []
  deriving DecidableEq, Repr

/-- Answer of the backend to `GET /api/dropdown-options`. -/
inductive DropdownResponse where
  | success (series : SeriesMap)
  | failure (error : JSString)
  | thrown (message : JSString)
  deriving DecidableEq, Repr

/-- Method `AddModelForm.showSuccess`; the timer that hides the message later is not
part of the state. -/
def AddModelForm.showSuccess (message : JSString) (form : AddModelForm) : AddModelForm :=
  { form with successText := message, successHidden := false, errorHidden := true }

/-- Method `AddModelForm.showError`. -/
def AddModelForm.showError (message : JSString) (form : AddModelForm) : AddModelForm :=
  { form with errorText := message, errorHidden := false, successHidden := true }

/-- Method `AddModelForm.populateSeriesDropdown`. -/
def AddModelForm.populateSeriesDropdown (seriesData : SeriesMap) (form : AddModelForm) :
    AddModelForm :=
  { form with seriesOptions :=
      { value := [], text := "Select Series...".toList } ::
        seriesData.map fun entry => { value := entry.1, text := entry.1 } }

/-- Method `AddModelForm.loadDropdownOptions`, given the answer to its request. -/
def AddModelForm.loadDropdownOptions (resp : DropdownResponse) (form : AddModelForm) :
    AddModelForm :=
  let form1 : AddModelForm :=
    { form with log := form.log ++ [.fetch "GET".toList "/api/dropdown-options".toList none] }
  let failed := fun (message : JSString) =>
    AddModelForm.showError ("Failed to load dropdown options: ".toList ++ message)
      { form1 with log := form1.log ++ [.consoleError message] }
  match resp with
  | .success series =>
    AddModelForm.populateSeriesDropdown series { form1 with dropdownOptions := some series }
  | .failure error =>
    failed (if error = [] then "Failed to load dropdown options".toList else error)
  | .thrown message => failed message

/-- Method `AddModelForm.handleSeriesChange`.  Reading `.series` of the initial `null`
throws, and so does `forEach` on the `undefined` that an unknown series name gives. -/
def AddModelForm.handleSeriesChange (selectedSeries : JSString) (form : AddModelForm) :
    Ran AddModelForm :=
  if selectedSeries = [] then
    { state := { form with
        subseriesOptions := [{ value := [], text := "Select Series first...".toList }]
        subseriesDisabled := true } }
  else
    match form.dropdownOptions with
    | none => { state := form, thrown := some .typeError }
    | some series =>
      let form1 : AddModelForm :=
        { form with subseriesOptions := [{ value := [], text := "Select Subseries...".toList }] }
      match series.get selectedSeries with
      | none => { state := form1, thrown := some .typeError }
      | some subseries =>
        { state := { form1 with
            subseriesOptions := form1.subseriesOptions ++
              subseries.map fun sub => { value := sub, text := sub }
            subseriesDisabled := false } }

/-- Method `AddModelForm.resetForm`: the form controls go back to their empty defaults. -/
def AddModelForm.resetForm (form : AddModelForm) : AddModelForm :=
  { form with
    modelName := [], series := [], subseries := []
    subseriesOptions := [{ value := [], text := "Select Series first...".toList }]
    subseriesDisabled := true
    errorHidden := true }

/-- The value `formData.get('subseries')`: a disabled control is not part of the form
data, and `none` is the `null` read then. -/
def AddModelForm.submittedSubseries (form : AddModelForm) : Option JSString :=
  if form.subseriesDisabled then none else some form.subseries

/-- The request `handleSubmit` sends. -/
def addModelRequest (model_name series subseries : JSString) : Effect :=
  .fetch "POST".toList "/api/add-model".toList (some (.addModel model_name series subseries))

/-- Method `AddModelForm.handleSubmit`, given the answer to the add-model request. -/
def AddModelForm.handleSubmit (resp : ApiResponse) (form : AddModelForm) : AddModelForm :=
  let model_name := trim form.modelName
  let series := form.series
  match form.submittedSubseries with
  | none => form.showError "Please fill in all required fields.".toList
  | some subseries =>
    if model_name = [] ∨ series = [] ∨ subseries = [] then
      form.showError "Please fill in all required fields.".toList
    else
      let originalText := form.submitHtml
      let form1 : AddModelForm :=
        { form with
          submitHtml := "<i class=\"fas fa-spinner fa-spin\"></i> Adding...".toList
          submitDisabled := true
          log := form.log ++ [addModelRequest model_name series subseries] }
      let failed := fun (message : JSString) =>
        AddModelForm.showError ("Failed to add model: ".toList ++ message)
          { form1 with log := form1.log ++ [.consoleError message] }
      let form2 : AddModelForm :=
        match resp with
        | .success message => (form1.showSuccess message).resetForm
        | .failure error => failed (if error = [] then "Failed to add model".toList else error)
        | .thrown message => failed message
      { form2 with submitHtml := originalText, submitDisabled := false }

/-- A log holds a `POST` request to `/api/add-model`. -/
def sendsAddModel (log : List Effect) : Bool :=
  log.any fun e => match e with
    | .fetch method url _ => method = "POST".toList && url = "/api/add-model".toList
    | _ => false

/-! ## Preorders page: values and runtime -/

/-- Services of the language runtime that the preorders page calls. -/
structure Runtime where
  /-- `String.prototype.toLowerCase`. -/
  toLowerCase : JSString → JSString
  /-- The text `parseFloat(value).toLocaleString('en-IN', …)` with at most two fraction
  digits, and `'0'` when `parseFloat(value)` is not a number. -/
  localeAmount : Value → JSString
  /-- The `message` of a `TypeError`. -/
  typeErrorMessage : JSString

/-- The `message` of a thrown error. -/
def Runtime.messageOf (rt : Runtime) : JSError → JSString
  | .typeError => rt.typeErrorMessage
  | .error message => message

/-- A decimal digit. -/
def isDigit (c : Char) : Bool :=
  0x30 ≤ c.toNat && c.toNat ≤ 0x39

/-- One runtime, for closed examples: ASCII lower-casing, and amounts printed as their
digits, which is their `en-IN` form for whole amounts below one thousand. -/
def asciiRuntime : Runtime where
  toLowerCase := asciiLower
  localeAmount := fun v =>
    match v with
    | .num n => numberToString n
    | .str s => if s ≠ [] ∧ s.all isDigit then s else "0".toList
    | .null => "0".toList
  typeErrorMessage := "not a function".toList

/-- A value is truthy: not `undefined`, not null, not the empty string, not zero. -/
def truthy : Option Value → Bool
  | none => false
  | some .null => false
  | some (.str s) => decide (s ≠ [])
  | some (.num n) => decide (n ≠ 0)

/-- The expression `value || fallback`. -/
def orDefault (value : Option Value) (fallback : Value) : Value :=
  match value with
  | some v => if truthy (some v) then v else fallback
  | none => fallback

/-- The text of `${value}` in a template literal. -/
def templateText : Option Value → JSString
  | none => "undefined".toList
  | some .null => "null".toList
  | some (.str s) => s
  | some (.num n) => numberToString n

/-- Value of a digit character in `parseInt`: `0`-`9`, then letters from ten on. -/
def digitOf (c : Char) : Option Nat :=
  let n := c.toNat
  if 0x30 ≤ n ∧ n ≤ 0x39 then some (n - 0x30)
  else if 0x61 ≤ n ∧ n ≤ 0x7A then some (n - 0x61 + 10)
  else if 0x41 ≤ n ∧ n ≤ 0x5A then some (n - 0x41 + 10)
  else none

/-- The leading digits of `s` in the given radix. -/
def leadingDigits (radix : Nat) : JSString → List Nat
  | [] => []
  | c :: cs =>
    match digitOf c with
    | some d => if d < radix then d :: leadingDigits radix cs else []
    | none => []

/-- The function `parseInt`: leading white space, a sign, then digits; `none` is `NaN`.
With `hexPrefix` (no radix argument) a prefix `0x` selects radix 16. -/
def parseIntWith (radix : Nat) (hexPrefix : Bool) (s : JSString) : Option Int :=
  let s1 := trimStart s
  let signed : Bool × JSString :=
    match s1 with
    | '-' :: r => (true, r)
    | '+' :: r => (false, r)
    | _ => (false, s1)
  let based : Nat × JSString :=
    if hexPrefix then
      match signed.2 with
      | '0' :: 'x' :: r => (16, r)
      | '0' :: 'X' :: r => (16, r)
      | _ => (radix, signed.2)
    else (radix, signed.2)
  let digits := leadingDigits based.1 based.2
  if digits = [] then none
  else
    let magnitude : Nat := digits.foldl (fun acc d => acc * based.1 + d) 0
    some (if signed.1 then -(magnitude : Int) else (magnitude : Int))

/-- The call `parseInt(s)`. -/
def parseInt (s : JSString) : Option Int :=
  parseIntWith 10 true s

/-- The call `parseInt(s, 10)`. -/
def parseInt10 (s : JSString) : Option Int :=
  parseIntWith 10 false s

/-- The comparison `pSerial === serial` of `find`, for `serial` a number or `NaN`. -/
def sameSerial (serial : Option Int) (p : Record) : Bool :=
  match getProp p "S.No".toList, serial with
  | some (.str s), some n => decide (parseInt10 s = some n)
  | some (.num m), some n => decide (m = n)
  | _, _ => false

/-- Method `formatAmount`. -/
def formatAmount (rt : Runtime) (value : Option Value) : JSString :=
  match value with
  | some (.num n) => rt.localeAmount (.num n)
  | some (.str s) => if s = [] then "0".toList else rt.localeAmount (.str s)
  | _ => "0".toList

/-- Method `getStatusClass`; a number has no `toLowerCase`. -/
def getStatusClass (rt : Runtime) (status : Value) : Except JSError JSString :=
  match status with
  | .str s =>
    let statusLower := rt.toLowerCase s
    if statusLower = "delivered".toList then .ok "status-delivered".toList
    else if statusLower = "shipped".toList then .ok "status-shipped".toList
    else .ok "status-pending".toList
  | _ => .error .typeError

/-! ## Preorders page: the ETA cell -/

/-- The call `s.substring(0, n)`, counted in UTF-16 code units, for a cut that falls
between two characters.  When a character of two units straddles the cut, `substring`
keeps its first unit, which no list of characters can hold; the list returned here then
stops before that character. -/
def takeUnits : Nat → JSString → JSString
  | _, [] => []
  | n, c :: cs => if utf16Units c ≤ n then c :: takeUnits (n - utf16Units c) cs else []

/-- The test `etaMonth.match(/^\d{4}-\d{2}$/)`. -/
def matchesYearMonth : JSString → Bool
  | [a, b, c, d, h, e, f] =>
    isDigit a && isDigit b && isDigit c && isDigit d && h == '-' && isDigit e && isDigit f
  | _ => false

/-- The call `s.split(sep)` for a one-character separator. -/
def splitOn (sep : Char) : JSString → List JSString
  | [] => [[]]
  | c :: cs =>
    if c = sep then [] :: splitOn sep cs
    else
      match splitOn sep cs with
      | [] => [[c]]
      | part :: parts => (c :: part) :: parts

/-- The array `monthNames`. -/
def monthNames : List JSString :=
  ["Jan".toList, "Feb".toList, "Mar".toList, "Apr".toList, "May".toList, "Jun".toList,
   "Jul".toList, "Aug".toList, "Sep".toList, "Oct".toList, "Nov".toList, "Dec".toList]

/-- The element `monthNames[parseInt(month) - 1]`; `none` is `undefined`. -/
def monthName (month : Option JSString) : Option JSString :=
  match month with
  | none => none
  | some m =>
    match parseInt m with
    | some n => if 1 ≤ n then monthNames.get? (n - 1).toNat else none
    | none => none

/-- The text of `${part}` for an array element that may be `undefined`. -/
def partText : Option JSString → JSString
  | none => "undefined".toList
  | some s => s

/-- The constant `etaMonth`: the first seven code units of an ETA of seven or more. -/
def etaMonth (eta : JSString) : JSString :=
  if jsLength eta ≥ 7 then takeUnits 7 eta else eta

/-- The ETA cell of a row: `N/A` for a falsy ETA, `<month name> <year>` when `etaMonth`
matches, otherwise `etaMonth`; a number has no `match`. -/
def etaText (eta : Option Value) : Except JSError JSString :=
  match eta with
  | some (.str s) =>
    if s = [] then .ok "N/A".toList
    else if matchesYearMonth (etaMonth s) then
      let parts := splitOn '-' (etaMonth s)
      .ok (partText (monthName (parts.get? 1)) ++ " ".toList ++ partText (parts.get? 0))
    else .ok (etaMonth s)
  | some (.num n) => if n = 0 then .ok "N/A".toList else .error .typeError
  | _ => .ok "N/A".toList

/-! ## Preorders page: state and rendering -/

/-- One row of the preorders table as `renderPreorders` writes it: the texts that the
template puts into the cells, and the class, the `data-serial` attribute, the shown value
and the `disabled` flag of the status dropdown.  The row is assigned through `innerHTML`
without escaping, so a text shows as written only when it holds no markup (`<`, `&`). -/
structure PreorderRow where
  serial : JSString
  seller : JSString
  models : JSString
  eta : JSString
  totalPrice : JSString
  poAmount : JSString
  onArrival : JSString
  dropdownClass : JSString
  dataSerial : JSString
  dropdownValue : JSString
  dropdownDisabled : Bool := false
  deriving DecidableEq, Repr

/-- A text holds a character that starts markup in HTML: `<` or `&`.  A text without
them, written into a cell through `innerHTML`, shows as written. -/
def holdsMarkup (s : JSString) : Bool :=
  s.any fun c => c == '<' || c == '&'

/-- A statistics snapshot as the backend sends it; a missing field is `none`. -/
structure Stats where
  total_preorders : Option Value := none
  total_value : Option Value := none
  total_po_amount : Option Value := none
  total_on_arrival : Option Value := none
  payment_done : Option Value := none
  payment_remaining : Option Value := none
  deriving DecidableEq, Repr

/-- The six values of the statistics panel, as texts. -/
structure StatsPanel where
  totalPreorders : JSString
  totalValue : JSString
  poAmount : JSString
  onArrival : JSString
  paymentDone : JSString
  paymentRemaining : JSString
  deriving DecidableEq, Repr

/-- The field of `PreordersManager` and the page elements it touches. -/
structure Preorders where
  preorders : List Record := []
  /-- Rows of `preorders-tbody`; no row stands for the placeholder line. -/
  tbody : List PreorderRow := []
  /-- Content of `statistics-section`, once rendered. -/
  statsPanel : Option StatsPanel := none
  successText : JSString := []
  successHidden : Bool := true
  errorText : JSString := []
  errorHidden : Bool := true
  /-- The modal `preorder-modal` and its title. -/
  modalHidden : Bool := true
  modalTitle : JSString := []
  /-- Values of the hidden field `edit-serial` and of the form controls. -/
  editSerial : JSString := []
  seller : JSString := []
  models : JSString := []
  eta : JSString := []
  totalPrice : JSString := []
  poAmount : JSString := []
  onArrivalAmount : JSString := []
  deliveryStatus : JSString := []
  /-- Markup and `disabled` flag of the button `submit-btn`. -/
  submitHtml : JSString := []
  submitDisabled : Bool := false
  log : List Effect := []
  deriving DecidableEq, Repr

/-- Method `PreordersManager.showSuccess`; the timer that hides the message later is not
part of the state. -/
def Preorders.showSuccess (message : JSString) (st : Preorders) : Preorders :=
  { st with successText := message, successHidden := false, errorHidden := true }

/-- Method `PreordersManager.showError`. -/
def Preorders.showError (message : JSString) (st : Preorders) : Preorders :=
  { st with errorText := message, errorHidden := false, successHidden := true }

/-- A money cell: `value ? '₹' + this.formatAmount(value) : 'N/A'`. -/
def moneyCell (rt : Runtime) (value : Option Value) : JSString :=
  if truthy value then "₹".toList ++ formatAmount rt value else "N/A".toList

/-- The option the status dropdown shows: the one marked `selected`, and the first option
when the status is none of the three. -/
def shownStatus (status : Value) : JSString :=
  if status = .str "Pending".toList then "Pending".toList
  else if status = .str "Shipped".toList then "Shipped".toList
  else if status = .str "Delivered".toList then "Delivered".toList
  else "Pending".toList

/-- The row that `renderPreorders` builds for one preorder. -/
def renderRow (rt : Runtime) (preorder : Record) : Except JSError PreorderRow :=
  let status := orDefault (getProp preorder "Delivery Status".toList) (.str "Pending".toList)
  match getStatusClass rt status with
  | .error e => .error e
  | .ok statusClass =>
    match etaText (getProp preorder "ETA".toList) with
    | .error e => .error e
    | .ok eta =>
      .ok
        { serial := templateText (some (orDefault (getProp preorder "S.No".toList)
            (.str "N/A".toList)))
          seller := templateText (some (orDefault (getProp preorder "Seller".toList)
            (.str "N/A".toList)))
          models := templateText (some (orDefault (getProp preorder "Models".toList)
            (.str "N/A".toList)))
          eta := eta
          totalPrice := moneyCell rt (getProp preorder "Total Price".toList)
          poAmount := moneyCell rt (getProp preorder "PO Amount".toList)
          onArrival := moneyCell rt (getProp preorder "On Arrival Amount".toList)
          dropdownClass := "status-dropdown ".toList ++ statusClass
          dataSerial := templateText (getProp preorder "S.No".toList)
          dropdownValue := shownStatus status
          dropdownDisabled := false }

/-- The rows for a list of preorders; the first error aborts the whole rendering. -/
def renderRows (rt : Runtime) : List Record → Except JSError (List PreorderRow)
  | [] => .ok []
  | p :: ps =>
    match renderRow rt p with
    | .error e => .error e
    | .ok row =>
      match renderRows rt ps with
      | .error e => .error e
      | .ok rows => .ok (row :: rows)

/-- Method `renderPreorders`: the body of the table is replaced once every row is built. -/
def renderPreorders (rt : Runtime) (st : Preorders) : Ran Preorders :=
  match renderRows rt st.preorders with
  | .error e => { state := st, thrown := some e }
  | .ok rows => { state := { st with tbody := rows } }

/-- The all-zero snapshot that `loadStatistics` substitutes. -/
def zeroStats : Stats where
  total_preorders := some (.num 0)
  total_value := some (.num 0)
  total_po_amount := some (.num 0)
  total_on_arrival := some (.num 0)
  payment_done := some (.num 0)
  payment_remaining := some (.num 0)

/-- The panel that `renderStatistics` writes for a snapshot. -/
def statsPanelOf (rt : Runtime) (stats : Stats) : StatsPanel where
  totalPreorders := templateText (some (orDefault stats.total_preorders (.num 0)))
  totalValue := "₹".toList ++ formatAmount rt (some (orDefault stats.total_value (.num 0)))
  poAmount := "₹".toList ++ formatAmount rt (some (orDefault stats.total_po_amount (.num 0)))
  onArrival := "₹".toList ++ formatAmount rt (some (orDefault stats.total_on_arrival (.num 0)))
  paymentDone := "₹".toList ++ formatAmount rt (some (orDefault stats.payment_done (.num 0)))
  paymentRemaining :=
    "₹".toList ++ formatAmount rt (some (orDefault stats.payment_remaining (.num 0)))

/-- Method `renderStatistics`; `none` is a missing snapshot. -/
def renderStatistics (rt : Runtime) (stats : Option Stats) (st : Preorders) : Preorders :=
  { st with statsPanel := some (statsPanelOf rt (stats.getD zeroStats)) }

/-! ## Preorders page: loading -/

/-- Answer of the backend to `GET /api/preorders`. -/
inductive PreordersResponse where
  | success (data : List Record)
  | failure (error : JSString)
  | thrown (message : JSString)
  deriving DecidableEq, Repr

/-- Answer of the backend to `GET /api/preorders/statistics`. -/
inductive StatsResponse where
  | success (statistics : Option Stats)
  | failure (error : JSString)
  | thrown (message : JSString)
  deriving DecidableEq, Repr

/-- The `catch` branch of `loadPreorders`. -/
def loadPreordersFailed (message : JSString) (st : Preorders) : Preorders :=
  Preorders.showError ("Failed to load preorders: ".toList ++ message)
    { st with log := st.log ++ [.consoleError message] }

/-- Method `loadPreorders`, given the answer to its request. -/
def loadPreorders (rt : Runtime) (resp : PreordersResponse) (st : Preorders) : Preorders :=
  let st1 : Preorders :=
    { st with log := st.log ++ [.fetch "GET".toList "/api/preorders".toList none] }
  match resp with
  | .success data =>
    let ran := renderPreorders rt { st1 with preorders := data }
    match ran.thrown with
    | none => ran.state
    | some e => loadPreordersFailed (rt.messageOf e) ran.state
  | .failure error =>
    loadPreordersFailed (if error = [] then "Failed to load preorders".toList else error) st1
  | .thrown message => loadPreordersFailed message st1

/-- Method `loadStatistics`, given the answer to its request. -/
def loadStatistics (rt : Runtime) (resp : StatsResponse) (st : Preorders) : Preorders :=
  let st1 : Preorders :=
    { st with log := st.log ++ [.fetch "GET".toList "/api/preorders/statistics".toList none] }
  match resp with
  | .success statistics => renderStatistics rt statistics st1
  | .failure error =>
    renderStatistics rt (some zeroStats) { st1 with log := st1.log ++ [.consoleError error] }
  | .thrown message =>
    renderStatistics rt (some zeroStats) { st1 with log := st1.log ++ [.consoleError message] }

/-! ## Preorders page: the form -/

/-- The call `form.reset()`: the controls go back to their defaults, taken to be empty. -/
def Preorders.resetForm (st : Preorders) : Preorders :=
  { st with seller := [], models := [], eta := [], totalPrice := [], poAmount := [],
            onArrivalAmount := [], deliveryStatus := [] }

/-- Method `closeModal`. -/
def closeModal (st : Preorders) : Preorders :=
  { st.resetForm with modalHidden := true, editSerial := [] }

/-- Method `openModal`.  `none` is the call without a serial; `some none` is `NaN`. -/
def openModal (serialNumber : Option (Option Int)) (st : Preorders) : Preorders :=
  match serialNumber with
  | none =>
    { ({ st with modalTitle := "Add Preorder".toList, editSerial := [] } : Preorders).resetForm
      with modalHidden := false }
  | some serialNum =>
    match st.preorders.find? (sameSerial serialNum) with
    | some preorder =>
      let field := fun (key : JSString) (fallback : JSString) =>
        templateText (some (orDefault (getProp preorder key) (.str fallback)))
      { st with
        modalTitle := "Edit Preorder".toList
        editSerial := match serialNum with
          | some n => numberToString n
          | none => "NaN".toList
        seller := field "Seller".toList []
        models := field "Models".toList []
        eta := field "ETA".toList []
        totalPrice := field "Total Price".toList []
        poAmount := field "PO Amount".toList []
        onArrivalAmount := field "On Arrival Amount".toList []
        deliveryStatus := field "Delivery Status".toList "Pending".toList
        modalHidden := false }
    | none =>
      Preorders.showError "Preorder not found!".toList
        { st with log := st.log ++ [.consoleError "Preorder not found for serial number:".toList] }

/-- Method `editPreorder`, called with the `data-serial` attribute of the row. -/
def editPreorder (serialNumber : JSString) (st : Preorders) : Preorders :=
  openModal (some (parseInt serialNumber)) st

/-- The expression `formData.get(name) || null` as a JSON value. -/
def textOrNull (value : JSString) : Value :=
  if value = [] then .null else .str value

/-- The object `data` of `handleSubmit`. -/
def submitBody (st : Preorders) : Body :=
  .preorder (.str (trim st.seller)) (.str (trim st.models)) (textOrNull st.eta)
    (textOrNull st.totalPrice) (textOrNull st.poAmount) (textOrNull st.onArrivalAmount)
    (.str (if st.deliveryStatus = [] then "Pending".toList else st.deliveryStatus))

/-- The request `handleSubmit` sends: an update of the serial in `edit-serial`, or a
creation when that field is empty. -/
def submitRequest (st : Preorders) : Effect :=
  if st.editSerial = [] then
    .fetch "POST".toList "/api/preorders".toList (some (submitBody st))
  else
    .fetch "PUT".toList ("/api/preorders/".toList ++ st.editSerial) (some (submitBody st))

/-- The `catch` branch of the save, of the status update and of the deletion. -/
def requestFailed (what message : JSString) (st : Preorders) : Preorders :=
  Preorders.showError (what ++ message) { st with log := st.log ++ [.consoleError message] }

/-- Method `PreordersManager.handleSubmit`, given the answer to the save request and the
answers to the two reloads that follow a success. -/
def Preorders.handleSubmit (rt : Runtime) (resp : ApiResponse) (reloadList : PreordersResponse)
    (reloadStats : StatsResponse) (st : Preorders) : Preorders :=
  if trim st.seller = [] ∨ trim st.models = [] then
    st.showError "Please fill in all required fields (Seller and Models).".toList
  else
    let originalText := st.submitHtml
    let st1 : Preorders :=
      { st with
        submitHtml := "<i class=\"fas fa-spinner fa-spin\"></i> Saving...".toList
        submitDisabled := true
        log := st.log ++ [submitRequest st] }
    let st2 : Preorders :=
      match resp with
      | .success message =>
        loadStatistics rt reloadStats
          (loadPreorders rt reloadList (closeModal (st1.showSuccess message)))
      | .failure error =>
        requestFailed "Failed to save preorder: ".toList
          (if error = [] then "Failed to save preorder".toList else error) st1
      | .thrown message => requestFailed "Failed to save preorder: ".toList message st1
    { st2 with submitHtml := originalText, submitDisabled := false }

/-- A request that carries a body. -/
def hasBody : Effect → Bool
  | .fetch _ _ (some _) => true
  | _ => false

/-! ## Preorders page: status change -/

/-- The element `document.querySelector('select[data-serial="…"]')`: the first row whose
dropdown has that attribute, with its index. -/
def findDropdown (dataSerial : JSString) : List PreorderRow → Option (Nat × PreorderRow)
  | [] => none
  | row :: rows =>
    if row.dataSerial = dataSerial then some (0, row)
    else
      match findDropdown dataSerial rows with
      | some (i, found) => some (i + 1, found)
      | none => none

/-- Change the row at an index. -/
def modifyRow (f : PreorderRow → PreorderRow) : Nat → List PreorderRow → List PreorderRow
  | _, [] => []
  | 0, row :: rows => f row :: rows
  | i + 1, row :: rows => row :: modifyRow f i rows

/-- The request `updateStatus` sends for a preorder. -/
def statusRequest (serial : Int) (preorder : Record) (newStatus : JSString) : Effect :=
  .fetch "PUT".toList ("/api/preorders/".toList ++ numberToString serial)
    (some (.preorder
      (orDefault (getProp preorder "Seller".toList) (.str []))
      (orDefault (getProp preorder "Models".toList) (.str []))
      (orDefault (getProp preorder "ETA".toList) .null)
      (orDefault (getProp preorder "Total Price".toList) .null)
      (orDefault (getProp preorder "PO Amount".toList) .null)
      (orDefault (getProp preorder "On Arrival Amount".toList) .null)
      (.str newStatus)))

/-- The state of `updateStatus` while its request is in flight: the dropdown at `index`
is disabled and the request is in the log. -/
def statusInFlight (index : Nat) (serial : Int) (preorder : Record) (newStatus : JSString)
    (st : Preorders) : Preorders :=
  { st with
    tbody := modifyRow (fun row => { row with dropdownDisabled := true }) index st.tbody
    log := st.log ++ [statusRequest serial preorder newStatus] }

/-- What `updateStatus` does once its request has settled; `originalValue` is the value
the dropdown had when `updateStatus` read it.  The `finally` block acts on the dropdown
before the reloads of a success replace the rows. -/
def statusSettled (rt : Runtime) (index : Nat) (originalValue newStatus : JSString)
    (resp : ApiResponse) (reloadList : PreordersResponse) (reloadStats : StatsResponse)
    (st : Preorders) : Preorders :=
  let enable := fun (s : Preorders) =>
    { s with tbody := modifyRow (fun row => { row with dropdownDisabled := false }) index s.tbody }
  let failed := fun (message : JSString) =>
    let s1 := requestFailed "Failed to update status: ".toList message st
    enable { s1 with
      tbody := modifyRow (fun row => { row with dropdownValue := originalValue }) index s1.tbody }
  match resp with
  | .success _ =>
    match getStatusClass rt (.str newStatus) with
    | .error e => failed (rt.messageOf e)
    | .ok statusClass =>
      let restyle := fun (row : PreorderRow) =>
        { row with dropdownClass := "status-dropdown ".toList ++ statusClass }
      let s1 : Preorders := { st with tbody := modifyRow restyle index st.tbody }
      loadStatistics rt reloadStats (loadPreorders rt reloadList (enable s1))
  | .failure error => failed (if error = [] then "Failed to update status".toList else error)
  | .thrown message => failed message

/-- Method `updateStatus`, called with the `data-serial` attribute and the value of the
dropdown, given the answer to the update request and the answers to the two reloads that
follow a success.  A dropdown that is not found makes `dropdown.value` throw. -/
def updateStatus (rt : Runtime) (serialNumber newStatus : JSString) (resp : ApiResponse)
    (reloadList : PreordersResponse) (reloadStats : StatsResponse) (st : Preorders) :
    Ran Preorders :=
  let serial := parseInt serialNumber
  match st.preorders.find? (sameSerial serial), serial with
  | some preorder, some n =>
    match findDropdown (numberToString n) st.tbody with
    | none => { state := st, thrown := some .typeError }
    | some (index, dropdown) =>
      let originalValue := dropdown.dropdownValue
      let inFlight := statusInFlight index n preorder newStatus st
      { pending := some inFlight
        state := statusSettled rt index originalValue newStatus resp reloadList reloadStats
          inFlight }
  | _, _ => { state := st.showError "Preorder not found!".toList }

/-- The `change` event of the status dropdown of the row at `index`: the dropdown shows
the option the user picked, and its handler calls
`updateStatus(this.dataset.serial, this.value)`. -/
def selectStatus (rt : Runtime) (index : Nat) (picked : JSString) (resp : ApiResponse)
    (reloadList : PreordersResponse) (reloadStats : StatsResponse) (st : Preorders) :
    Ran Preorders :=
  match st.tbody.get? index with
  | none => { state := st }
  | some row =>
    updateStatus rt row.dataSerial picked resp reloadList reloadStats
      { st with tbody := modifyRow (fun r => { r with dropdownValue := picked }) index st.tbody }

/-- The value the status dropdown of the row at `index` shows. -/
def shownAt (index : Nat) (st : Preorders) : Option JSString :=
  (st.tbody.get? index).map fun row => row.dropdownValue

/-! ## Preorders page: effects of the reloads -/

/-- The effects one run of `loadPreorders` adds to the log. -/
def loadPreordersEffects (rt : Runtime) (resp : PreordersResponse) : List Effect :=
  .fetch "GET".toList "/api/preorders".toList none ::
    match resp with
    | .success data =>
      match renderRows rt data with
      | .error e => [.consoleError (rt.messageOf e)]
      | .ok _ => []
    | .failure error =>
      [.consoleError (if error = [] then "Failed to load preorders".toList else error)]
    | .thrown message => [.consoleError message]

/-- The effects one run of `loadStatistics` adds to the log. -/
def loadStatisticsEffects (resp : StatsResponse) : List Effect :=
  .fetch "GET".toList "/api/preorders/statistics".toList none ::
    match resp with
    | .success _ => []
    | .failure error => [.consoleError error]
    | .thrown message => [.consoleError message]

/-- The two digits of a number below one hundred. -/
def twoDigits (n : Nat) : JSString :=
  [Char.ofNat (0x30 + n / 10), Char.ofNat (0x30 + n % 10)]

/-- The delivery status of a preorder is text, or is missing or falsy: it is not a number
other than zero, on which `getStatusClass` would throw. -/
def textStatus (preorder : Record) : Bool :=
  match getProp preorder "Delivery Status".toList with
  | some (.num n) => decide (n = 0)
  | _ => true

/-! ## CSV export: the cells of each line -/

/-- The cells that `exportCSV` joins into lines: the quoted column names of the first
record, then for each record the cell of each of those columns. -/
def csvCells (first : Record) (filteredData : List Record) : List (List JSString) :=
  ((keys first).map fun col => '"' :: col ++ ['"']) ::
    filteredData.map fun row => (keys first).map fun col => (readProp row col).csvCell

/-- A log holds a download. -/
def downloads (log : List Effect) : Bool :=
  log.any fun e => match e with
    | .download _ _ => true
    | _ => false

/-! ## Cell values of any type -/

/-- A JavaScript value of any type, as `formatCellValue` may receive it; `ω` is the type
of objects and arrays, and a function is given by its source text. -/
inductive AnyValue (ω : Type) where
  | undefined
  | null
  | boolean (b : Bool)
  | number (n : Int)
  | string (s : JSString)
  | object (o : ω)
  | function (source : JSString)

/-- Method `formatCellValue` on a value of any type; `stringify` is `JSON.stringify` on
objects. -/
def formatAnyCellValue {ω : Type} (stringify : ω → JSString) : AnyValue ω → JSString
  | .undefined => []
  | .null => []
  | .object o => stringify o
  | .boolean b => if b then "true".toList else "false".toList
  | .number n => numberToString n
  | .string s => s
  | .function source => source

/-- An own value of a record, or `undefined`, as a value of any type. -/
def AnyValue.ofProp {ω : Type} : Option Value → AnyValue ω
  | none => .undefined
  | some .null => .null
  | some (.str s) => .string s
  | some (.num n) => .number n

/-- What a property read gives as a value of any type; `proto` is the object
`Object.prototype`. -/
def Read.toAny {ω : Type} (proto : ω) : Read → AnyValue ω
  | .own v => AnyValue.ofProp (some v)
  | .undefined => .undefined
  | .method name => .function (nativeSource name)
  | .prototype => .object proto

/-! ## Preorders page: deletion -/

/-- The text `String(serial)` of a number; `none` is `NaN`. -/
def serialText (serial : Option Int) : JSString :=
  match serial with
  | some n => numberToString n
  | none => "NaN".toList

/-- The message of the first `confirm` of `deletePreorder`. -/
def deleteQuestion (serial : Option Int) (preorder : Record) : JSString :=
  "Are you sure you want to delete preorder #".toList ++ serialText serial ++
    "?\n\nSeller: ".toList ++ templateText (getProp preorder "Seller".toList) ++
    "\nModels: ".toList ++ templateText (getProp preorder "Models".toList) ++
    "\n\nThis action cannot be undone.".toList

/-- The message of the second `confirm` of `deletePreorder`. -/
def finalQuestion : JSString :=
  "Final confirmation: Type \"DELETE\" to confirm deletion.".toList

/-- The request `deletePreorder` sends. -/
def deletePreorderRequest (serial : Option Int) : Effect :=
  .fetch "DELETE".toList ("/api/preorders/".toList ++ serialText serial) none

/-- Method `deletePreorder`, called with the `data-serial` attribute of the row.
`accept1` and `accept2` are what the two `confirm` dialogs return: `true` for OK, `false`
for Cancel; a `confirm` dialog has no text field.  The answer to the delete request and
the answers to the two reloads that follow a success are further arguments. -/
def deletePreorder (rt : Runtime) (serialNumber : JSString) (accept1 accept2 : Bool)
    (resp : ApiResponse) (reloadList : PreordersResponse) (reloadStats : StatsResponse)
    (st : Preorders) : Preorders :=
  let serial := parseInt serialNumber
  match st.preorders.find?
      (fun p => decide (templateText (getProp p "S.No".toList) = serialText serial)) with
  | none => st
  | some preorder =>
    let st1 : Preorders := { st with log := st.log ++ [.confirm (deleteQuestion serial preorder)] }
    if !accept1 then st1
    else
      let st2 : Preorders := { st1 with log := st1.log ++ [.confirm finalQuestion] }
      if !accept2 then st2
      else
        let st3 : Preorders := { st2 with log := st2.log ++ [deletePreorderRequest serial] }
        match resp with
        | .success message =>
          loadStatistics rt reloadStats (loadPreorders rt reloadList (st3.showSuccess message))
        | .failure error =>
          requestFailed "Failed to delete preorder: ".toList
            (if error = [] then "Failed to delete preorder".toList else error) st3
        | .thrown message => requestFailed "Failed to delete preorder: ".toList message st3

/-- A log holds a `DELETE` request. -/
def sendsDeleteRequest (log : List Effect) : Bool :=
  log.any fun e => match e with
    | .fetch method _ _ => method = "DELETE".toList
    | _ => false

/-! ## Preorders page: what a status change sends -/

/-- How a stored field value goes into the body of a status update: a truthy value is
sent as it is, and a missing, null or empty-string value is sent as the fallback. -/
def sentAs (stored : Option Value) (fallback sent : Value) : Prop :=
  (truthy stored = true → stored = some sent) ∧
  (stored = none ∨ stored = some .null ∨ stored = some (.str []) → sent = fallback)

/-! ## Search: proofs -/

theorem renderTable_filteredData (data : List Record) (columns : Option (List JSString))
    (st : Tracker) : (renderTable data columns st).filteredData = st.filteredData := by
  unfold renderTable
  cases data <;> rfl

theorem renderTable_currentData (data : List Record) (columns : Option (List JSString))
    (st : Tracker) : (renderTable data columns st).currentData = st.currentData := by
  unfold renderTable
  cases data <;> rfl

theorem renderTable_log (data : List Record) (columns : Option (List JSString))
    (st : Tracker) : (renderTable data columns st).log = st.log := by
  unfold renderTable
  cases data <;> rfl

theorem valueMatches_of_ne_null (lower : JSString → JSString) (q : JSString) (v : Value)
    (hv : v ≠ Value.null) :
    valueMatches lower q v = .ok (includes (lower v.stringForm) (lower q)) := by
  cases v with
  | str s => rfl
  | num n => rfl
  | null => exact absurd rfl hv

theorem someValue_of_ne_null (lower : JSString → JSString) (q : JSString) (vs : List Value)
    (hvs : ∀ v ∈ vs, v ≠ Value.null) :
    someValue (valueMatches lower q) vs
      = .ok (vs.any fun v => includes (lower v.stringForm) (lower q)) := by
  induction vs with
  | nil => rfl
  | cons v vs ih =>
    have hv := valueMatches_of_ne_null lower q v (hvs v (List.mem_cons_self v vs))
    have ih1 := ih fun w hw => hvs w (List.mem_cons_of_mem v hw)
    cases hb : includes (lower v.stringForm) (lower q) with
    | true => simp [someValue, hv, hb]
    | false => simp [someValue, hv, hb, ih1]

theorem filterRecords_of_total (p : Record → Except JSError Bool) (f : Record → Bool)
    (rs : List Record) (h : ∀ r ∈ rs, p r = .ok (f r)) :
    filterRecords p rs = .ok (rs.filter f) := by
  induction rs with
  | nil => rfl
  | cons r rs ih =>
    have hr := h r (List.mem_cons_self r rs)
    have ih1 := ih fun w hw => h w (List.mem_cons_of_mem r hw)
    cases hb : f r with
    | true => simp [filterRecords, hr, ih1, hb]
    | false => simp [filterRecords, hr, ih1, hb]

theorem filterRecords_noNull (lower : JSString → JSString) (q : JSString) (rs : List Record)
    (h : ∀ r ∈ rs, noNull r) :
    filterRecords (fun item => someValue (valueMatches lower q) (values item)) rs
      = .ok (rs.filter (specMatches lower q)) :=
  filterRecords_of_total _ _ rs fun r hr => someValue_of_ne_null lower q (values r) (h r hr)

/-- What `handleSearch` leaves in `filteredData`, in terms of the cache alone. -/
theorem handleSearch_filteredData_eq (lower : JSString → JSString) (q : JSString)
    (st : Tracker) :
    (handleSearch lower q st).state.filteredData =
      if trim q = [] then st.currentData
      else match filterRecords (fun item => someValue (valueMatches lower q) (values item))
          st.currentData with
        | .error _ => st.filteredData
        | .ok out => out := by
  unfold handleSearch
  by_cases hq : trim q = []
  · simp [hq, renderTable_filteredData, updateFilteredCount]
  · simp only [hq, if_false]
    cases filterRecords (fun item => someValue (valueMatches lower q) (values item))
        st.currentData with
    | error e => rfl
    | ok out => simp [renderTable_filteredData, updateFilteredCount]

theorem handleSearch_currentData (lower : JSString → JSString) (q : JSString)
    (st : Tracker) : (handleSearch lower q st).state.currentData = st.currentData := by
  unfold handleSearch
  by_cases hq : trim q = []
  · simp [hq, renderTable_currentData, updateFilteredCount]
  · simp only [hq, if_false]
    cases filterRecords (fun item => someValue (valueMatches lower q) (values item))
        st.currentData with
    | error e => rfl
    | ok out => simp [renderTable_currentData, updateFilteredCount]

theorem handleSearch_log (lower : JSString → JSString) (q : JSString)
    (st : Tracker) : (handleSearch lower q st).state.log = st.log := by
  unfold handleSearch
  by_cases hq : trim q = []
  · simp [hq, renderTable_log, updateFilteredCount]
  · simp only [hq, if_false]
    cases filterRecords (fun item => someValue (valueMatches lower q) (values item))
        st.currentData with
    | error e => rfl
    | ok out => simp [renderTable_log, updateFilteredCount]

theorem handleSearch_thrown_of_noNull (lower : JSString → JSString) (q : JSString)
    (st : Tracker) (h : ∀ r ∈ st.currentData, noNull r) :
    (handleSearch lower q st).thrown = none := by
  unfold handleSearch
  by_cases hq : trim q = []
  · simp [hq]
  · simp only [hq, if_false]
    rw [filterRecords_noNull lower q st.currentData h]

/-- C1 (as amended): on a cache whose field values are strings or numbers,
`handleSearch(q)` completes, and for a query that is not blank `filteredData` is the list
of the cached records, in cache order, one of whose field values contains the lower-cased
query in its lower-cased string form; for a blank query it is the whole cache. -/
theorem handleSearch_filters_cache (lower : JSString → JSString) (q : JSString)
    (st : Tracker) (h : ∀ r ∈ st.currentData, noNull r) :
    (handleSearch lower q st).thrown = none ∧
    (handleSearch lower q st).state.filteredData =
      if trim q = [] then st.currentData
      else st.currentData.filter (specMatches lower q) := by
  refine ⟨handleSearch_thrown_of_noNull lower q st h, ?_⟩
  rw [handleSearch_filteredData_eq, filterRecords_noNull lower q st.currentData h]

theorem handleSearch_filters_cache_witness :
    (∀ r ∈ [[("Model".toList, Value.str "Mustang".toList), ("Year".toList, Value.num 1967)],
            [("Model".toList, Value.str "Civic".toList), ("Year".toList, Value.num 1992)]],
      noNull r) ∧
    (handleSearch asciiLower "mus".toList
        { currentData := [[("Model".toList, .str "Mustang".toList), ("Year".toList, .num 1967)],
                          [("Model".toList, .str "Civic".toList), ("Year".toList, .num 1992)]] }
      ).state.filteredData
      = [[("Model".toList, .str "Mustang".toList), ("Year".toList, .num 1967)]] :=
  ⟨by decide,
   (handleSearch_filters_cache asciiLower "mus".toList
      { currentData := [[("Model".toList, .str "Mustang".toList), ("Year".toList, .num 1967)],
                        [("Model".toList, .str "Civic".toList), ("Year".toList, .num 1992)]] }
      (by decide)).2.trans (by decide)⟩

/-- C1 (counterexample): for the one-record cache `{A: "x"}` and the query `" "`, no field
value contains the query, and yet `handleSearch` keeps the record. -/
theorem handleSearch_blank_query_counterexample :
    (∀ r ∈ [[("A".toList, Value.str "x".toList)]], noNull r) ∧
    (handleSearch asciiLower " ".toList
        { currentData := [[("A".toList, .str "x".toList)]] }).state.filteredData
      ≠ [[("A".toList, Value.str "x".toList)]].filter (specMatches asciiLower " ".toList) := by
  decide

/-- C9: `handleSearch("")` sets `filteredData` to the cache, the same records in the same
order, completes without an error and leaves `currentData` unchanged. -/
theorem handleSearch_empty_query (lower : JSString → JSString) (st : Tracker) :
    (handleSearch lower [] st).state.filteredData = st.currentData ∧
    (handleSearch lower [] st).state.currentData = st.currentData ∧
    (handleSearch lower [] st).thrown = none := by
  refine ⟨?_, handleSearch_currentData lower [] st, ?_⟩
  · rw [handleSearch_filteredData_eq]
    simp [trim, trimStart, trimEnd]
  · unfold handleSearch
    simp [trim, trimStart, trimEnd]

/-- C10: search is idempotent: a second `handleSearch(q)` right after the first leaves
`filteredData` as the first call left it. -/
theorem handleSearch_idempotent (lower : JSString → JSString) (q : JSString) (st : Tracker) :
    (handleSearch lower q (handleSearch lower q st).state).state.filteredData
      = (handleSearch lower q st).state.filteredData := by
  rw [handleSearch_filteredData_eq lower q (handleSearch lower q st).state,
    handleSearch_currentData, handleSearch_filteredData_eq lower q st]
  by_cases hq : trim q = []
  · simp [hq]
  · simp only [hq, if_false]
    cases filterRecords (fun item => someValue (valueMatches lower q) (values item))
        st.currentData with
    | error e => rfl
    | ok out => rfl

/-! ## CSV export: proofs -/

theorem foldl_push_eq_map {α β : Type} (f : α → β) (l : List α) (init : List β) :
    l.foldl (fun content row => content ++ [f row]) init = init ++ l.map f := by
  induction l generalizing init with
  | nil => simp
  | cons a l ih => simp [ih]

theorem csvCell_eq (v : Option Value) :
    csvCell v = "\"".toList ++ doubleQuotes (stringForm v) ++ "\"".toList := by
  have key : ∀ s : JSString, (if s = [] then [] else s) = s := by
    intro s
    by_cases hs : s = [] <;> simp [hs]
  cases v with
  | none => rfl
  | some w =>
    cases w with
    | str s => simp [csvCell, escapedValue, stringForm, Value.stringForm, key]
    | num n => simp [csvCell, escapedValue, stringForm, Value.stringForm, key]
    | null => rfl

theorem readCsvCell_eq (r : Read) :
    r.csvCell = "\"".toList ++ doubleQuotes r.stringForm ++ "\"".toList := by
  cases r with
  | own v => exact csvCell_eq (some v)
  | undefined => exact csvCell_eq none
  | method name => rfl
  | prototype => rfl

theorem csvText_eq_specCsv (first : Record) (filteredData : List Record) :
    csvText first filteredData = specCsv (keys first) filteredData := by
  unfold csvText specCsv join
  simp only [foldl_push_eq_map, readCsvCell_eq]
  rfl

theorem exportCSV_log_cons (isoDate : JSString) (st : Tracker) (first : Record)
    (rest : List Record) (hfd : st.filteredData = first :: rest) :
    (exportCSV isoDate st).log = st.log ++
      [.download ("diecast_collection_".toList ++ isoDate ++ ".csv".toList)
        (specCsv (keys first) (first :: rest))] := by
  simp only [exportCSV, hfd, csvText_eq_specCsv]

/-- C3: for a non-empty `filteredData`, the text `exportCSV` hands to the download is built
from `filteredData` alone: the quoted column names of its first record joined by commas,
then one line per filtered record, in order, of the quoted cells, each the string form of
the value with every double quote doubled; the lines are joined by line feeds.  The value
`He said "hi", ok` gives the cell `"He said ""hi"", ok"`. -/
theorem exportCSV_builds_csv (isoDate : JSString) (st : Tracker) (h : st.filteredData ≠ []) :
    (exportCSV isoDate st).log = st.log ++
      [.download ("diecast_collection_".toList ++ isoDate ++ ".csv".toList)
        (specCsv (keys (st.filteredData.head h)) st.filteredData)] ∧
    csvCell (some (.str "He said \"hi\", ok".toList)) = "\"He said \"\"hi\"\", ok\"".toList := by
  refine ⟨?_, by decide⟩
  obtain ⟨first, rest, hfd⟩ := List.exists_cons_of_ne_nil h
  have hhead : st.filteredData.head h = first := by simp [hfd]
  rw [hhead, exportCSV_log_cons isoDate st first rest hfd, hfd]

theorem exportCSV_builds_csv_witness :
    (exportCSV "2024-05-01".toList
        { currentData := [[("Model".toList, .str "He said \"hi\", ok".toList)],
                          [("Model".toList, .str "Civic".toList)]],
          filteredData := [[("Model".toList, .str "He said \"hi\", ok".toList)]] }).log
      = [.download "diecast_collection_2024-05-01.csv".toList
          "\"Model\"\n\"He said \"\"hi\"\", ok\"".toList] :=
  (exportCSV_builds_csv "2024-05-01".toList
      { currentData := [[("Model".toList, .str "He said \"hi\", ok".toList)],
                        [("Model".toList, .str "Civic".toList)]],
        filteredData := [[("Model".toList, .str "He said \"hi\", ok".toList)]] }
      (by decide)).1.trans (by decide)

/-- The header line does not double quotes: for the one-record view `{'a"b': 'x'}` the
exported text is `"a"b"`, a line feed, `"x"`, and reading it back with the standard
quoting rules fails instead of giving the header `a"b` and the row `x`. -/
theorem exportCSV_header_quote_breaks_roundtrip :
    csvText [("a\"b".toList, .str "x".toList)] [[("a\"b".toList, .str "x".toList)]]
      = "\"a\"b\"\n\"x\"".toList ∧
    parseCsv (csvText [("a\"b".toList, .str "x".toList)] [[("a\"b".toList, .str "x".toList)]])
      = none ∧
    parseCsv (csvText [("a\"b".toList, .str "x".toList)] [[("a\"b".toList, .str "x".toList)]])
      ≠ some (expectedTable ["a\"b".toList] [[("a\"b".toList, .str "x".toList)]]) := by
  decide

/-! ## Edit diff: proofs -/

theorem issued_append (before new : List Effect) : issued before (before ++ new) = new := by
  simp [issued]

theorem issued_self (before : List Effect) : issued before before = [] := by
  simp [issued]

theorem loadDataFailed_log (message : JSString) (st : Tracker) :
    (loadDataFailed message st).log = st.log ++ [.consoleError message] := rfl

theorem loadData_log (resp : DataResponse) (st : Tracker) :
    (loadData resp st).log = st.log ++ loadDataEffects resp := by
  cases resp with
  | success data columns total =>
    simp [loadData, loadDataRun, loadDataEffects, hideLoading, renderTable_log, updateStats,
      updateFilteredCount, hideError, showLoading]
  | failure message =>
    cases message <;>
      simp only [loadData, loadDataRun, loadDataEffects, loadDataFailed_log, hideError,
        showLoading, List.append_assoc, List.singleton_append]
  | thrown message =>
    simp only [loadData, loadDataRun, loadDataEffects, loadDataFailed_log, hideError,
      showLoading, List.append_assoc, List.singleton_append]

theorem handleEditSubmit_log_of_changes (row : Record) (entries : List (JSString × JSString))
    (resp : ApiResponse) (reload : DataResponse) (st : Tracker)
    (hrow : st.currentEditingRow = some row) (hne : computeUpdates row entries ≠ []) :
    ∃ more, (handleEditSubmit entries resp reload st).log
      = st.log ++ Effect.fetch "PUT".toList "/api/update-model".toList
          (some (.updateModel (getProp row "S.No".toList) (computeUpdates row entries)))
          :: more := by
  have hlen : (computeUpdates row entries).length ≠ 0 := by
    simpa [List.length_eq_zero] using hne
  cases resp with
  | success message =>
    refine ⟨.alert ("Success: ".toList ++ message) :: loadDataEffects reload, ?_⟩
    simp only [handleEditSubmit, hrow, hlen, if_false, loadData_log]
    simp [closeEditModal]
  | failure error =>
    exact ⟨[.alert ("Error: ".toList ++ error)], by simp [handleEditSubmit, hrow, hlen]⟩
  | thrown message =>
    exact ⟨[.consoleError message, .alert ("Failed to update model: ".toList ++ message)],
      by simp [handleEditSubmit, hrow, hlen]⟩

theorem handleEditSubmit_of_no_changes (row : Record) (entries : List (JSString × JSString))
    (resp : ApiResponse) (reload : DataResponse) (st : Tracker)
    (hrow : st.currentEditingRow = some row) (hnil : computeUpdates row entries = []) :
    handleEditSubmit entries resp reload st
      = { st with log := st.log ++ [.alert "No changes to save".toList] } := by
  simp [handleEditSubmit, hrow, hnil]

/-! ## Delete confirmation: proofs -/

theorem confirmDelete_log_of_confirmed (row : Record) (resp : ApiResponse)
    (reload : DataResponse) (st : Tracker) (hrow : st.currentDeletingRow = some row)
    (hinput : st.deleteConfirmInput = "DELETE".toList) :
    ∃ more, (confirmDelete resp reload st).log = st.log ++ deleteRequest row :: more ∧
      sendsDelete more = false := by
  cases resp with
  | success message =>
    refine ⟨.alert ("Success: ".toList ++ message) :: loadDataEffects reload, ?_, ?_⟩
    · simp only [confirmDelete, hrow, hinput, ne_eq, not_true_eq_false, if_false,
        loadData_log]
      simp [closeDeleteModal]
    · cases reload with
      | success data columns total => simp [sendsDelete, loadDataEffects]
      | failure message => cases message <;> simp [sendsDelete, loadDataEffects]
      | thrown message => simp [sendsDelete, loadDataEffects]
  | failure error =>
    exact ⟨[.alert ("Error: ".toList ++ error)], by simp [confirmDelete, hrow, hinput],
      by simp [sendsDelete]⟩
  | thrown message =>
    exact ⟨[.consoleError message, .alert ("Failed to delete model: ".toList ++ message)],
      by simp [confirmDelete, hrow, hinput], by simp [sendsDelete]⟩

theorem confirmDelete_of_not_confirmed (resp : ApiResponse) (reload : DataResponse)
    (st : Tracker) (hinput : st.deleteConfirmInput ≠ "DELETE".toList) :
    confirmDelete resp reload st
      = match st.currentDeletingRow with
        | none => st
        | some _ => { st with log := st.log ++ [.alert "Please type DELETE to confirm".toList] } := by
  unfold confirmDelete
  cases st.currentDeletingRow with
  | none => rfl
  | some row => simp only [if_pos hinput]

theorem confirmDelete_of_not_pending (resp : ApiResponse) (reload : DataResponse)
    (st : Tracker) (hrow : st.currentDeletingRow = none) :
    confirmDelete resp reload st = st := by
  simp [confirmDelete, hrow]

/-- C6: `confirmDelete` sends the `DELETE` request to `/api/delete-model` exactly when a
row is pending deletion and the confirmation input holds the string `DELETE`; the request
then comes first and carries the serial number of the pending row.  For any other input,
`delete` included, the call issues no request and leaves the pending row as it was. -/
theorem confirmDelete_request_iff (resp : ApiResponse) (reload : DataResponse)
    (st : Tracker) :
    (sendsDelete (issued st.log (confirmDelete resp reload st).log) = true ↔
      st.currentDeletingRow ≠ none ∧ st.deleteConfirmInput = "DELETE".toList) ∧
    (∀ row, st.currentDeletingRow = some row → st.deleteConfirmInput = "DELETE".toList →
      (issued st.log (confirmDelete resp reload st).log).head? = some (deleteRequest row)) ∧
    (st.deleteConfirmInput ≠ "DELETE".toList →
      fetchCount (issued st.log (confirmDelete resp reload st).log) = 0 ∧
      (confirmDelete resp reload st).currentDeletingRow = st.currentDeletingRow) ∧
    fetchCount (issued [] (confirmDelete resp reload
      { currentDeletingRow := some [("S.No".toList, .num 4)],
        deleteConfirmInput := "delete".toList }).log) = 0 := by
  refine ⟨?_, ?_, ?_, ?_⟩
  · by_cases hinput : st.deleteConfirmInput = "DELETE".toList
    · cases hrow : st.currentDeletingRow with
      | none =>
        rw [confirmDelete_of_not_pending resp reload st hrow, issued_self]
        simp [sendsDelete]
      | some row =>
        obtain ⟨more, hmore, _⟩ :=
          confirmDelete_log_of_confirmed row resp reload st hrow hinput
        rw [hmore, issued_append]
        simp [sendsDelete, deleteRequest, hinput]
    · rw [confirmDelete_of_not_confirmed resp reload st hinput]
      cases st.currentDeletingRow with
      | none => simp [issued_self, sendsDelete, hinput]
      | some row =>
        simp [issued_append, sendsDelete]
        exact hinput
  · intro row hrow hinput
    obtain ⟨more, hmore, _⟩ := confirmDelete_log_of_confirmed row resp reload st hrow hinput
    rw [hmore, issued_append]
    rfl
  · intro hinput
    rw [confirmDelete_of_not_confirmed resp reload st hinput]
    cases hrow : st.currentDeletingRow with
    | none => simp [issued_self, fetchCount, hrow]
    | some row => simp [issued_append, fetchCount, hrow]
  · rw [confirmDelete_of_not_confirmed resp reload _ (by decide)]
    decide

theorem confirmDelete_request_iff_witness :
    (issued [] (confirmDelete (.success "gone".toList) (.thrown "offline".toList)
        { currentDeletingRow := some [("S.No".toList, .num 4)],
          deleteConfirmInput := "DELETE".toList }).log).head?
      = some (.fetch "DELETE".toList "/api/delete-model".toList
          (some (.deleteModel (some (.num 4))))) :=
  (confirmDelete_request_iff (.success "gone".toList) (.thrown "offline".toList)
      { currentDeletingRow := some [("S.No".toList, .num 4)],
        deleteConfirmInput := "DELETE".toList }).2.1
    [("S.No".toList, .num 4)] rfl rfl

/-! ## Add-field form: proofs -/

theorem includes_singleton (s : JSString) (c : Char) : includes s [c] = true ↔ c ∈ s := by
  unfold includes
  rw [decide_eq_true_iff]
  constructor
  · rintro ⟨a, b, h⟩
    rw [← h]
    simp
  · intro h
    obtain ⟨a, b, hab⟩ := List.mem_iff_append.mp h
    exact ⟨a, b, by simp [hab]⟩

theorem any_invalid_iff (name : JSString) :
    (invalidChars.any fun char => includes name [char]) = true ↔
      ∃ c ∈ invalidChars, c ∈ name := by
  rw [List.any_eq_true]
  constructor
  · rintro ⟨c, hc, h⟩
    exact ⟨c, hc, (includes_singleton name c).mp h⟩
  · rintro ⟨c, hc, h⟩
    exact ⟨c, hc, (includes_singleton name c).mpr h⟩

theorem jsLength_nil : jsLength [] = 0 := rfl

theorem loadCurrentFields_log (resp : DataResponse) (form : AddFieldForm) :
    (form.loadCurrentFields resp).log = form.log ++ loadCurrentFieldsEffects resp := by
  cases resp with
  | success data columns total => cases columns <;> rfl
  | failure message => rfl
  | thrown message => simp [AddFieldForm.loadCurrentFields, loadCurrentFieldsEffects]

theorem handleSubmit_accepted (resp : ApiResponse) (reload : DataResponse)
    (form : AddFieldForm) (h1 : trim form.fieldName ≠ [])
    (h2 : jsLength (trim form.fieldName) ≤ 50)
    (h3 : ∀ c ∈ invalidChars, c ∉ trim form.fieldName) :
    ∃ more, (form.handleSubmit resp reload).log
      = form.log ++ addFieldRequest (trim form.fieldName) :: more := by
  have h2n : ¬ jsLength (trim form.fieldName) > 50 := Nat.not_lt.mpr h2
  have h3n : ¬ (invalidChars.any fun char => includes (trim form.fieldName) [char]) = true := by
    rw [any_invalid_iff]
    rintro ⟨c, hc, hm⟩
    exact h3 c hc hm
  unfold AddFieldForm.handleSubmit
  simp only [h1, h2n, h3n, if_false]
  cases resp with
  | success message =>
    refine ⟨loadCurrentFieldsEffects reload, ?_⟩
    simp [AddFieldForm.showSuccess, loadCurrentFields_log]
  | failure error => exact ⟨[], by simp [AddFieldForm.showError]⟩
  | thrown message => exact ⟨[.consoleError message], by simp [AddFieldForm.showError]⟩

theorem handleSubmit_rejected (resp : ApiResponse) (reload : DataResponse)
    (form : AddFieldForm)
    (h : ¬ (trim form.fieldName ≠ [] ∧ jsLength (trim form.fieldName) ≤ 50 ∧
      ∀ c ∈ invalidChars, c ∉ trim form.fieldName)) :
    (form.handleSubmit resp reload).log = form.log ∧
    (form.handleSubmit resp reload).errorHidden = false ∧
    ((form.handleSubmit resp reload).errorText = "Field name cannot be empty!".toList ∨
     (form.handleSubmit resp reload).errorText
        = "Field name is too long (maximum 50 characters)".toList ∨
     (form.handleSubmit resp reload).errorText
        = "Field name contains invalid characters: /, \\, ?, *, [, ], :, ;".toList) := by
  unfold AddFieldForm.handleSubmit
  by_cases h1 : trim form.fieldName = []
  · simp only [h1, if_true]
    exact ⟨rfl, rfl, Or.inl rfl⟩
  · by_cases h2 : jsLength (trim form.fieldName) > 50
    · simp only [h1, h2, if_true, if_false]
      exact ⟨rfl, rfl, Or.inr (Or.inl rfl)⟩
    · by_cases h3 : (invalidChars.any fun char => includes (trim form.fieldName) [char]) = true
      · simp only [h1, h2, h3, if_true, if_false]
        exact ⟨rfl, rfl, Or.inr (Or.inr
          (show "Field name contains invalid characters: ".toList ++ invalidCharsText = _
            from by decide))⟩
      · exfalso
        apply h
        refine ⟨h1, Nat.not_lt.mp h2, fun c hc hm => h3 ?_⟩
        exact (any_invalid_iff _).mpr ⟨c, hc, hm⟩

theorem sendsAddField_request_cons (name : JSString) (more : List Effect) :
    sendsAddField (addFieldRequest name :: more) = true := by
  simp [sendsAddField, addFieldRequest]

theorem trim_sublist (s : JSString) : (trim s).Sublist s := by
  unfold trim trimEnd trimStart
  have h1 : ((s.dropWhile isWhiteSpace).reverse.dropWhile isWhiteSpace).Sublist
      (s.dropWhile isWhiteSpace).reverse := List.dropWhile_sublist _
  have h2 := h1.reverse
  rw [List.reverse_reverse] at h2
  exact h2.trans (List.dropWhile_sublist _)

theorem jsLength_le_of_sublist {s t : JSString} (h : s.Sublist t) : jsLength s ≤ jsLength t := by
  unfold jsLength
  induction h with
  | slnil => exact Nat.le_refl _
  | cons a _ ih =>
    rw [List.map_cons, List.sum_cons]
    exact Nat.le_trans ih (Nat.le_add_left _ _)
  | cons₂ a _ ih =>
    rw [List.map_cons, List.sum_cons, List.map_cons, List.sum_cons]
    exact Nat.add_le_add_left ih _

theorem mem_dropWhile_of_false (p : Char → Bool) (l : JSString) (c : Char) (hc : c ∈ l)
    (hp : p c = false) : c ∈ l.dropWhile p := by
  induction l with
  | nil => exact absurd hc (List.not_mem_nil c)
  | cons a l ih =>
    by_cases ha : p a = true
    · rw [List.dropWhile_cons_of_pos ha]
      rcases List.mem_cons.mp hc with h | h
      · rw [h, ha] at hp
        exact absurd hp (by simp)
      · exact ih h
    · rw [List.dropWhile_cons_of_neg ha]
      exact hc

theorem mem_trim_of_not_whiteSpace (s : JSString) (c : Char) (hc : c ∈ s)
    (hw : isWhiteSpace c = false) : c ∈ trim s := by
  unfold trim trimEnd trimStart
  rw [List.mem_reverse]
  apply mem_dropWhile_of_false _ _ _ _ hw
  rw [List.mem_reverse]
  exact mem_dropWhile_of_false _ _ _ hc hw

theorem not_whiteSpace_of_letter_or_digit (c : Char) (h : isLetterDigitSpace c = true)
    (hne : c ≠ ' ') : isWhiteSpace c = false := by
  have hn : c.toNat ≠ 32 := by
    intro h32
    apply hne
    rw [← Char.ofNat_toNat c, h32]
  simp only [isLetterDigitSpace, Bool.or_eq_true, Bool.and_eq_true, decide_eq_true_eq,
    beq_iff_eq] at h
  simp only [isWhiteSpace, Bool.or_eq_false_iff, Bool.and_eq_false_iff, beq_eq_false_iff_ne,
    decide_eq_false_iff_not, ne_eq]
  omega

theorem invalidChars_not_letterDigitSpace :
    ∀ c ∈ invalidChars, isLetterDigitSpace c = false := by
  decide

/-- C7 (as amended): `AddFieldForm.handleSubmit` sends the `POST /api/add-field` request
exactly when the trimmed field name is non-empty, has at most 50 characters and holds none
of the characters `/ \ ? * [ ] : ;`; otherwise it shows an inline error and issues nothing.
The name `a/b` is rejected and `Hot Wheels 2024` is accepted. -/
theorem addField_request_iff (resp : ApiResponse) (reload : DataResponse)
    (form : AddFieldForm) :
    (sendsAddField (issued form.log (form.handleSubmit resp reload).log) = true ↔
      (trim form.fieldName ≠ [] ∧ jsLength (trim form.fieldName) ≤ 50 ∧
        ∀ c ∈ invalidChars, c ∉ trim form.fieldName)) ∧
    (¬ (trim form.fieldName ≠ [] ∧ jsLength (trim form.fieldName) ≤ 50 ∧
        ∀ c ∈ invalidChars, c ∉ trim form.fieldName) →
      (form.handleSubmit resp reload).errorHidden = false ∧
      issued form.log (form.handleSubmit resp reload).log = []) ∧
    sendsAddField (issued []
      (AddFieldForm.handleSubmit resp reload { fieldName := "a/b".toList }).log) = false ∧
    sendsAddField (issued []
      (AddFieldForm.handleSubmit resp reload { fieldName := "Hot Wheels 2024".toList }).log)
      = true := by
  have hrej : ∀ f : AddFieldForm,
      ¬ (trim f.fieldName ≠ [] ∧ jsLength (trim f.fieldName) ≤ 50 ∧
        ∀ c ∈ invalidChars, c ∉ trim f.fieldName) →
      (f.handleSubmit resp reload).errorHidden = false ∧
      issued f.log (f.handleSubmit resp reload).log = [] := by
    intro f hf
    obtain ⟨hlog, hhidden, _⟩ := handleSubmit_rejected resp reload f hf
    exact ⟨hhidden, by rw [hlog, issued_self]⟩
  have hacc : ∀ f : AddFieldForm,
      (trim f.fieldName ≠ [] ∧ jsLength (trim f.fieldName) ≤ 50 ∧
        ∀ c ∈ invalidChars, c ∉ trim f.fieldName) →
      sendsAddField (issued f.log (f.handleSubmit resp reload).log) = true := by
    intro f hf
    obtain ⟨more, hmore⟩ := handleSubmit_accepted resp reload f hf.1 hf.2.1 hf.2.2
    rw [hmore, issued_append, sendsAddField_request_cons]
  refine ⟨⟨?_, hacc form⟩, hrej form, ?_,
    hacc { fieldName := "Hot Wheels 2024".toList } (by decide)⟩
  · intro hsent
    by_contra hno
    rw [(hrej form hno).2] at hsent
    exact absurd hsent (by decide)
  · rw [(hrej { fieldName := "a/b".toList } (by decide)).2]
    rfl

theorem addField_request_iff_witness :
    (AddFieldForm.handleSubmit (.success "added".toList) (.thrown [])
        { fieldName := "Scale 1:64".toList }).errorHidden = false ∧
    issued [] (AddFieldForm.handleSubmit (.success "added".toList) (.thrown [])
        { fieldName := "Scale 1:64".toList }).log = [] :=
  (addField_request_iff (.success "added".toList) (.thrown [])
    { fieldName := "Scale 1:64".toList }).2.1 (by decide)

/-- C7 (counterexample): the entered name `" "` is non-empty, has one character and holds
none of the rejected characters, yet `handleSubmit` sends no request and shows the error
`Field name cannot be empty!`. -/
theorem addField_blank_name_counterexample :
    (" ".toList ≠ [] ∧ jsLength " ".toList ≤ 50 ∧ ∀ c ∈ invalidChars, c ∉ " ".toList) ∧
    sendsAddField (issued [] (AddFieldForm.handleSubmit (.success "added".toList) (.thrown [])
      { fieldName := " ".toList }).log) = false ∧
    (AddFieldForm.handleSubmit (.success "added".toList) (.thrown [])
      { fieldName := " ".toList }).errorText = "Field name cannot be empty!".toList := by
  decide

/-- C8 (as amended): a field name whose trimmed form has more than 50 characters is
rejected with the error `Field name is too long (maximum 50 characters)` and no request;
an entered name of exactly 50 characters, all letters, digits or spaces and not all
spaces, is accepted. -/
theorem addField_length_limit (resp : ApiResponse) (reload : DataResponse)
    (form : AddFieldForm) :
    (50 < jsLength (trim form.fieldName) →
      (form.handleSubmit resp reload).errorText
        = "Field name is too long (maximum 50 characters)".toList ∧
      (form.handleSubmit resp reload).errorHidden = false ∧
      issued form.log (form.handleSubmit resp reload).log = []) ∧
    (jsLength form.fieldName = 50 → (∀ c ∈ form.fieldName, isLetterDigitSpace c = true) →
      (∃ c ∈ form.fieldName, c ≠ ' ') →
      sendsAddField (issued form.log (form.handleSubmit resp reload).log) = true) := by
  constructor
  · intro hlong
    have h1 : trim form.fieldName ≠ [] := by
      intro h
      rw [h, jsLength_nil] at hlong
      exact absurd hlong (by decide)
    have h2 : jsLength (trim form.fieldName) > 50 := hlong
    unfold AddFieldForm.handleSubmit
    simp only [h1, h2, if_true, if_false]
    exact ⟨rfl, rfl, issued_self _⟩
  · intro hlen hall ⟨c, hc, hne⟩
    have hw := not_whiteSpace_of_letter_or_digit c (hall c hc) hne
    have hmem := mem_trim_of_not_whiteSpace form.fieldName c hc hw
    have h1 : trim form.fieldName ≠ [] := List.ne_nil_of_mem hmem
    have h2 : jsLength (trim form.fieldName) ≤ 50 :=
      hlen ▸ jsLength_le_of_sublist (trim_sublist form.fieldName)
    have h3 : ∀ d ∈ invalidChars, d ∉ trim form.fieldName := by
      intro d hd hdm
      have := hall d ((trim_sublist form.fieldName).subset hdm)
      rw [invalidChars_not_letterDigitSpace d hd] at this
      exact absurd this (by decide)
    obtain ⟨more, hmore⟩ := handleSubmit_accepted resp reload form h1 h2 h3
    rw [hmore, issued_append, sendsAddField_request_cons]

theorem addField_length_limit_witness :
    (AddFieldForm.handleSubmit (.success "added".toList) (.thrown [])
        { fieldName := List.replicate 51 'a' }).errorText
      = "Field name is too long (maximum 50 characters)".toList ∧
    sendsAddField (issued [] (AddFieldForm.handleSubmit (.success "added".toList) (.thrown [])
        { fieldName := List.replicate 49 'a' ++ [' '] }).log) = true :=
  ⟨((addField_length_limit (.success "added".toList) (.thrown [])
      { fieldName := List.replicate 51 'a' }).1 (by decide)).1,
   (addField_length_limit (.success "added".toList) (.thrown [])
      { fieldName := List.replicate 49 'a' ++ [' '] }).2 (by decide) (by decide)
      ⟨'a', by decide, by decide⟩⟩

/-- C8 (counterexample): the entered name made of a space and fifty letters `a` has 51
characters, yet `handleSubmit` sends the request for its trimmed form and shows no error;
and the name made of fifty spaces, of exactly 50 characters, is not accepted. -/
theorem addField_entered_length_counterexample :
    (jsLength (' ' :: List.replicate 50 'a') = 51 ∧
      (issued [] (AddFieldForm.handleSubmit (.failure "exists".toList) (.thrown [])
        { fieldName := ' ' :: List.replicate 50 'a' }).log)
        = [addFieldRequest (List.replicate 50 'a')]) ∧
    (jsLength (List.replicate 50 ' ') = 50 ∧
      (∀ c ∈ List.replicate 50 ' ', isLetterDigitSpace c = true) ∧
      sendsAddField (issued [] (AddFieldForm.handleSubmit (.success "added".toList)
        (.thrown []) { fieldName := List.replicate 50 ' ' }).log) = false) := by
  decide

/-! ## Reading an export back: proofs -/

theorem intercalate_cons_cons (sep a b : JSString) (l : List JSString) :
    sep.intercalate (a :: b :: l) = a ++ sep ++ sep.intercalate (b :: l) := by
  simp [List.intercalate]

theorem intercalate_singleton (sep a : JSString) : sep.intercalate [a] = a := by
  simp [List.intercalate]

theorem parseCsvFrom_quoted_body (s field : JSString) (row : List JSString)
    (rows : List (List JSString)) (tail : JSString) :
    parseCsvFrom .quoted field row rows (doubleQuotes s ++ '"' :: tail)
      = parseCsvFrom .quoteSeen (s.reverse ++ field) row rows tail := by
  induction s generalizing field with
  | nil => simp [doubleQuotes, parseCsvFrom]
  | cons c cs ih =>
    by_cases hc : c = '"'
    · subst hc
      simp [doubleQuotes, parseCsvFrom, ih]
    · simp [doubleQuotes, parseCsvFrom, hc, ih]

theorem parseCsvFrom_cell (state : CsvState) (h : state.opens) (s field : JSString)
    (row : List JSString) (rows : List (List JSString)) (tail : JSString) :
    parseCsvFrom state field row rows ('"' :: doubleQuotes s ++ '"' :: tail)
      = parseCsvFrom .quoteSeen s.reverse row rows tail := by
  rcases h with h | h <;> subst h <;>
    simp [parseCsvFrom, parseCsvFrom_quoted_body]

theorem csvLine_singleton (c : JSString) : csvLine [c] = '"' :: doubleQuotes c ++ ['"'] := by
  simp [csvLine, List.intercalate]

theorem csvLine_cons (c : JSString) (cells : List JSString) (hne : cells ≠ []) :
    csvLine (c :: cells) = '"' :: doubleQuotes c ++ '"' :: ',' :: csvLine cells := by
  obtain ⟨d, l, rfl⟩ := List.exists_cons_of_ne_nil hne
  simp [csvLine, List.intercalate]

theorem csvEncode_singleton (l : List JSString) : csvEncode [l] = csvLine l := by
  simp [csvEncode, List.intercalate]

theorem csvEncode_cons (l : List JSString) (table : List (List JSString)) (hne : table ≠ []) :
    csvEncode (l :: table) = csvLine l ++ '\n' :: csvEncode table := by
  obtain ⟨m, t, rfl⟩ := List.exists_cons_of_ne_nil hne
  simp [csvEncode, List.intercalate]

theorem parseCsvFrom_line (state : CsvState) (h : state.opens) (init : List JSString)
    (last field : JSString) (row : List JSString) (rows : List (List JSString))
    (tail : JSString) :
    parseCsvFrom state field row rows (csvLine (init ++ [last]) ++ tail)
      = parseCsvFrom .quoteSeen last.reverse (init.reverse ++ row) rows tail := by
  induction init generalizing state field row with
  | nil =>
    rw [List.nil_append, csvLine_singleton]
    simpa using parseCsvFrom_cell state h last field row rows tail
  | cons c init ih =>
    rw [List.cons_append, csvLine_cons c (init ++ [last]) (by simp)]
    have hcell := parseCsvFrom_cell state h c field row rows
      (',' :: csvLine (init ++ [last]) ++ tail)
    have hstep : parseCsvFrom .quoteSeen c.reverse row rows
        (',' :: csvLine (init ++ [last]) ++ tail)
        = parseCsvFrom .fieldStart [] (c :: row) rows (csvLine (init ++ [last]) ++ tail) := by
      simp [parseCsvFrom]
    have hih := ih .fieldStart (Or.inr rfl) [] (c :: row)
    simp only [List.cons_append, List.append_assoc, List.reverse_cons,
      List.singleton_append] at hcell hstep hih ⊢
    rw [hcell, hstep, hih]
    rfl

theorem parseCsvFrom_table (table : List (List JSString)) (hne : table ≠ [])
    (hrows : ∀ l ∈ table, l ≠ []) (rows : List (List JSString)) :
    parseCsvFrom .recordStart [] [] rows (csvEncode table) = some (rows.reverse ++ table) := by
  induction table generalizing rows with
  | nil => exact absurd rfl hne
  | cons l table ih =>
    have hl : l ≠ [] := hrows l (List.mem_cons_self l table)
    have hsplit : l = l.dropLast ++ [l.getLast hl] := (List.dropLast_append_getLast hl).symm
    by_cases ht : table = []
    · subst ht
      rw [csvEncode_singleton, hsplit]
      have hline := parseCsvFrom_line .recordStart (Or.inl rfl) l.dropLast (l.getLast hl) []
        [] rows []
      rw [List.append_nil] at hline
      rw [hline]
      simp [parseCsvFrom]
    · rw [csvEncode_cons l table ht]
      have hline := parseCsvFrom_line .recordStart (Or.inl rfl) l.dropLast (l.getLast hl) []
        [] rows ('\n' :: csvEncode table)
      rw [← hsplit] at hline
      rw [hline]
      have hstep : parseCsvFrom .quoteSeen (l.getLast hl).reverse (l.dropLast.reverse ++ [])
          rows ('\n' :: csvEncode table)
          = parseCsvFrom .recordStart [] [] (l :: rows) (csvEncode table) := by
        simp [parseCsvFrom, List.dropLast_append_getLast]
      rw [hstep, ih ht (fun m hm => hrows m (List.mem_cons_of_mem l hm)) (l :: rows)]
      simp

/-- Reading back the CSV text of a table with at least one row and no empty row gives
the table. -/
theorem parseCsv_csvEncode (table : List (List JSString)) (hne : table ≠ [])
    (hrows : ∀ l ∈ table, l ≠ []) : parseCsv (csvEncode table) = some table := by
  unfold parseCsv
  rw [parseCsvFrom_table table hne hrows []]
  rfl

theorem doubleQuotes_of_no_quote (s : JSString) (h : '"' ∉ s) : doubleQuotes s = s := by
  induction s with
  | nil => rfl
  | cons c cs ih =>
    have hc : c ≠ '"' := fun hc => h (by simp [hc])
    have hcs : '"' ∉ cs := fun hm => h (List.mem_cons_of_mem c hm)
    simp [doubleQuotes, hc, ih hcs]

theorem specCsv_eq_csvEncode (columns : List JSString) (records : List Record)
    (hq : ∀ c ∈ columns, '"' ∉ c) :
    specCsv columns records = csvEncode (expectedTable columns records) := by
  have hheader : (columns.map fun s => '"' :: doubleQuotes s ++ ['"'])
      = columns.map fun s => "\"".toList ++ s ++ "\"".toList := by
    apply List.map_congr_left
    intro c hc
    simp [doubleQuotes_of_no_quote c (hq c hc)]
  simp only [specCsv, csvEncode, expectedTable, csvLine, List.map_cons, List.map_map, hheader]
  simp [csvLine, Function.comp_def]

theorem expectedTable_rows_ne_nil (columns : List JSString) (records : List Record)
    (hcols : columns ≠ []) : ∀ l ∈ expectedTable columns records, l ≠ [] := by
  intro l hl
  unfold expectedTable at hl
  rcases List.mem_cons.mp hl with h | h
  · exact h ▸ hcols
  · obtain ⟨r, _, rfl⟩ := List.mem_map.mp h
    simpa using hcols

/-- C2 (as amended): for a non-empty `filteredData` whose first record has at least one
column and no double quote in a column name, reading the text that `exportCSV` downloads
with the standard quoting rules gives the column names of the first record as the header,
and for each filtered record, in order, the row of the string forms of its values under
those columns, a null or missing value reading as the empty string; commas, line feeds and
double quotes inside the values come back unchanged. -/
theorem exportCSV_roundtrip (isoDate : JSString) (st : Tracker) (h : st.filteredData ≠ [])
    (hcols : keys (st.filteredData.head h) ≠ [])
    (hq : ∀ c ∈ keys (st.filteredData.head h), '"' ∉ c) :
    ∃ csv, (exportCSV isoDate st).log = st.log ++
        [.download ("diecast_collection_".toList ++ isoDate ++ ".csv".toList) csv] ∧
      parseCsv csv = some (expectedTable (keys (st.filteredData.head h)) st.filteredData) := by
  obtain ⟨first, rest, hfd⟩ := List.exists_cons_of_ne_nil h
  have hhead : st.filteredData.head h = first := by simp [hfd]
  rw [hhead] at hcols hq ⊢
  refine ⟨specCsv (keys first) (first :: rest), ?_, ?_⟩
  · rw [exportCSV_log_cons isoDate st first rest hfd]
  · rw [hfd, specCsv_eq_csvEncode (keys first) (first :: rest) hq]
    exact parseCsv_csvEncode _ (by simp [expectedTable])
      (expectedTable_rows_ne_nil (keys first) (first :: rest) hcols)

theorem exportCSV_roundtrip_witness :
    ∃ csv, (exportCSV "2024-05-01".toList
        { filteredData := [[("Model".toList, .str "He said \"hi\", ok".toList),
                            ("Year".toList, .num 1967)],
                           [("Model".toList, .null)]] }).log
        = [.download "diecast_collection_2024-05-01.csv".toList csv] ∧
      parseCsv csv = some [["Model".toList, "Year".toList],
                           ["He said \"hi\", ok".toList, "1967".toList],
                           [[], []]] :=
  exportCSV_roundtrip "2024-05-01".toList
    { filteredData := [[("Model".toList, .str "He said \"hi\", ok".toList),
                        ("Year".toList, .num 1967)],
                       [("Model".toList, .null)]] }
    (by decide) (by decide) (by decide)

/-- C2 (counterexample): the filtered view holds `{A: "1"}` and then `{A: "2", B: "3"}`.
The export has the one column `A`; read back, the row of the second record is `2` alone,
not the string forms `2` and `3` of that record's values. -/
theorem exportCSV_roundtrip_counterexample :
    (exportCSV "2024-05-01".toList
        { filteredData := [[("A".toList, .str "1".toList)],
                           [("A".toList, .str "2".toList), ("B".toList, .str "3".toList)]] }).log
      = [.download "diecast_collection_2024-05-01.csv".toList "\"A\"\n\"1\"\n\"2\"".toList] ∧
    parseCsv "\"A\"\n\"1\"\n\"2\"".toList
      = some [["A".toList], ["1".toList], ["2".toList]] ∧
    parseCsv "\"A\"\n\"1\"\n\"2\"".toList
      ≠ some (wholeRecords ["A".toList]
          [[("A".toList, .str "1".toList)],
           [("A".toList, .str "2".toList), ("B".toList, .str "3".toList)]]) := by
  decide

/-! ## Search after search -/

/-- On a cache whose field values are strings or numbers a second search filters the
cache again, whatever the first search left; no search changes the cache or the log. -/
theorem handleSearch_after_search_of_noNull (lower : JSString → JSString) (q1 q2 : JSString)
    (st : Tracker) (h : ∀ r ∈ st.currentData, noNull r) :
    (handleSearch lower q2 (handleSearch lower q1 st).state).state.filteredData
      = (handleSearch lower q2 st).state.filteredData ∧
    (handleSearch lower q2 (handleSearch lower q1 st).state).state.currentData
      = st.currentData ∧
    (handleSearch lower q2 (handleSearch lower q1 st).state).state.log = st.log := by
  refine ⟨?_, ?_, ?_⟩
  · rw [handleSearch_filteredData_eq lower q2 (handleSearch lower q1 st).state,
      handleSearch_filteredData_eq lower q2 st, handleSearch_currentData,
      filterRecords_noNull lower q2 st.currentData h]
  · rw [handleSearch_currentData, handleSearch_currentData]
  · rw [handleSearch_log, handleSearch_log]

/-- C11 (failing input): the cache holds `{A: "x", B: null}` and `{A: "y"}` and is shown
whole.  The search `x` keeps the first record.  The search `y` then throws a `TypeError`
on the null field and leaves that one record in `filteredData`, whereas the search `y`
alone, which throws as well, leaves the whole cache there. -/
theorem handleSearch_null_field_keeps_previous_result :
    (handleSearch asciiLower "x".toList
        { currentData := [[("A".toList, .str "x".toList), ("B".toList, .null)],
                          [("A".toList, .str "y".toList)]],
          filteredData := [[("A".toList, .str "x".toList), ("B".toList, .null)],
                           [("A".toList, .str "y".toList)]] })
      = { state :=
            { currentData := [[("A".toList, .str "x".toList), ("B".toList, .null)],
                              [("A".toList, .str "y".toList)]],
              filteredData := [[("A".toList, .str "x".toList), ("B".toList, .null)]],
              clearSearchShown := true, filteredCount := 1, tableShown := true,
              tableColumns := ["A".toList, "B".toList],
              tableRows := [["x".toList, []]] },
          thrown := none } ∧
    (handleSearch asciiLower "y".toList
        (handleSearch asciiLower "x".toList
          { currentData := [[("A".toList, .str "x".toList), ("B".toList, .null)],
                            [("A".toList, .str "y".toList)]],
            filteredData := [[("A".toList, .str "x".toList), ("B".toList, .null)],
                             [("A".toList, .str "y".toList)]] }).state).thrown
      = some .typeError ∧
    (handleSearch asciiLower "y".toList
        (handleSearch asciiLower "x".toList
          { currentData := [[("A".toList, .str "x".toList), ("B".toList, .null)],
                            [("A".toList, .str "y".toList)]],
            filteredData := [[("A".toList, .str "x".toList), ("B".toList, .null)],
                             [("A".toList, .str "y".toList)]] }).state).state.filteredData
      = [[("A".toList, .str "x".toList), ("B".toList, .null)]] ∧
    (handleSearch asciiLower "y".toList
        { currentData := [[("A".toList, .str "x".toList), ("B".toList, .null)],
                          [("A".toList, .str "y".toList)]],
          filteredData := [[("A".toList, .str "x".toList), ("B".toList, .null)],
                           [("A".toList, .str "y".toList)]] }).state.filteredData
      = [[("A".toList, .str "x".toList), ("B".toList, .null)],
         [("A".toList, .str "y".toList)]] := by
  decide

/-! ## Edit modal: proofs -/

theorem foldl_setFrom_step (l acc : List JSString) :
    l.foldl (fun seen c => if c ∈ seen then seen else seen ++ [c]) acc
      = acc ++ (firstOccurrences l).filter fun c => decide (c ∉ acc) := by
  induction l generalizing acc with
  | nil => simp [firstOccurrences]
  | cons a l ih =>
    rw [List.foldl_cons, firstOccurrences]
    by_cases ha : a ∈ acc
    · rw [if_pos ha, ih acc, List.filter_cons_of_neg (by simpa using ha), List.filter_filter]
      congr 1
      apply List.filter_congr
      intro x _
      by_cases hx : x ∈ acc
      · simp [hx]
      · have hxa : x ≠ a := fun h => hx (h ▸ ha)
        simp [hx, hxa]
    · rw [if_neg ha, ih (acc ++ [a]), List.filter_cons_of_pos (by simpa using ha),
        List.filter_filter, List.append_assoc, List.singleton_append]
      congr 2
      apply List.filter_congr
      intro x _
      by_cases hx : x ∈ acc
      · simp [hx]
      · by_cases hxa : x = a
        · simp [hxa]
        · simp [hx, hxa]

theorem setFrom_eq_firstOccurrences (l : List JSString) : setFrom l = firstOccurrences l := by
  unfold setFrom
  rw [foldl_setFrom_step]
  simp

theorem mem_firstOccurrences (l : List JSString) (c : JSString) :
    c ∈ firstOccurrences l ↔ c ∈ l := by
  induction l with
  | nil => simp [firstOccurrences]
  | cons a l ih =>
    rw [firstOccurrences, List.mem_cons, List.mem_cons, List.mem_filter, ih]
    by_cases hca : c = a
    · simp [hca]
    · simp [hca]

theorem nodup_firstOccurrences (l : List JSString) : (firstOccurrences l).Nodup := by
  induction l with
  | nil => simp [firstOccurrences]
  | cons a l ih =>
    rw [firstOccurrences, List.nodup_cons]
    exact ⟨by simp [List.mem_filter], ih.filter _⟩

theorem firstOccurrences_append (a b : List JSString) :
    firstOccurrences (a ++ b)
      = firstOccurrences a ++ (firstOccurrences b).filter fun c => decide (c ∉ a) := by
  induction a with
  | nil => simp [firstOccurrences]
  | cons x a ih =>
    rw [List.cons_append, firstOccurrences, firstOccurrences, ih, List.filter_append,
      List.filter_filter, List.cons_append]
    congr 2
    apply List.filter_congr
    intro c _
    by_cases hcx : c = x
    · simp [hcx]
    · by_cases hca : c ∈ a
      · simp [hcx, hca]
      · simp [hcx, hca]

theorem prefill_eq_stringForm (value : Option Value) : prefill value = stringForm value := by
  cases value with
  | none => rfl
  | some v => cases v <;> rfl

theorem editInputs_names (columns : List JSString) (row : Record) :
    (editInputs columns row).map (fun f => f.name)
      = (firstOccurrences (columns ++ keys row)).filter
          fun c => !isBlank c && decide (c ≠ "S.No".toList) := by
  unfold editInputs
  rw [setFrom_eq_firstOccurrences]
  generalize firstOccurrences (columns ++ keys row) = l
  generalize "S.No".toList = sno
  induction l with
  | nil => rfl
  | cons c l ih =>
    by_cases hb : isBlank c = true
    · simpa [List.filter_cons, hb] using ih
    · by_cases hs : c = sno
      · subst hs
        simpa [List.filter_cons, hb, List.filterMap_cons] using ih
      · simpa [List.filter_cons, hb, hs, List.filterMap_cons] using ih

/-! ## Identifiers: proofs -/

theorem collapseSpaceRuns_cons_of_not_whiteSpace (c : Char) (cs : JSString)
    (hc : isWhiteSpace c = false) :
    collapseSpaceRuns (c :: cs) = c :: collapseSpaceRuns cs := by
  cases cs with
  | nil => simp [collapseSpaceRuns, hc]
  | cons d rest => simp [collapseSpaceRuns, hc]

theorem replaceSpaceRunsFrom_eq (s : JSString) :
    replaceSpaceRunsFrom false s = collapseSpaceRuns s ∧
    ∀ c, isWhiteSpace c = true →
      '_' :: replaceSpaceRunsFrom true s = collapseSpaceRuns (c :: s) := by
  induction s with
  | nil =>
    refine ⟨rfl, fun c hc => ?_⟩
    simp [replaceSpaceRunsFrom, collapseSpaceRuns, hc]
  | cons d rest ih =>
    by_cases hd : isWhiteSpace d = true
    · refine ⟨?_, fun c hc => ?_⟩
      · rw [← ih.2 d hd]
        simp [replaceSpaceRunsFrom, hd]
      · rw [collapseSpaceRuns, if_pos hc, if_pos hd, ← ih.2 d hd]
        simp [replaceSpaceRunsFrom, hd]
    · have hd1 : isWhiteSpace d = false := by simpa using hd
      refine ⟨?_, fun c hc => ?_⟩
      · rw [collapseSpaceRuns_cons_of_not_whiteSpace d rest hd1, ← ih.1]
        simp [replaceSpaceRunsFrom, hd1]
      · rw [collapseSpaceRuns, if_pos hc, if_neg hd,
          collapseSpaceRuns_cons_of_not_whiteSpace d rest hd1, ← ih.1]
        simp [replaceSpaceRunsFrom, hd1]

theorem char_le_iff (a b : Char) : a ≤ b ↔ a.toNat ≤ b.toNat := by
  rw [Char.le_def]
  exact Iff.rfl

theorem char_eq_of_toNat_eq (a b : Char) (h : a.toNat = b.toNat) : a = b := by
  rw [← Char.ofNat_toNat a, ← Char.ofNat_toNat b, h]

theorem isIdChar_of_isWordOrHyphen (c : Char) (h : isWordOrHyphen c = true) : isIdChar c := by
  simp only [isWordOrHyphen, Bool.or_eq_true, Bool.and_eq_true, decide_eq_true_eq,
    beq_iff_eq] at h
  unfold isIdChar
  simp only [char_le_iff]
  rcases h with (((h | h) | h) | h) | h
  · exact Or.inl h
  · exact Or.inr (Or.inl h)
  · exact Or.inr (Or.inr (Or.inl h))
  · exact Or.inr (Or.inr (Or.inr (Or.inl (char_eq_of_toNat_eq c '_' h))))
  · exact Or.inr (Or.inr (Or.inr (Or.inr (char_eq_of_toNat_eq c '-' h))))

theorem not_whiteSpace_of_isWordOrHyphen (c : Char) (h : isWordOrHyphen c = true) :
    isWhiteSpace c = false := by
  simp only [isWordOrHyphen, Bool.or_eq_true, Bool.and_eq_true, decide_eq_true_eq,
    beq_iff_eq] at h
  simp only [isWhiteSpace, Bool.or_eq_false_iff, Bool.and_eq_false_iff, beq_eq_false_iff_ne,
    decide_eq_false_iff_not, ne_eq]
  omega

/-- C19: for every column name the id that `showEditModal` derives is `edit-` followed by
the name with each run of white space replaced by one underscore and every character
other than an ASCII letter, a digit, an underscore or a hyphen deleted; what follows the
prefix holds only such characters, none of them white space. -/
theorem safeId_valid (column : JSString) :
    safeId column = "edit-".toList ++ (collapseSpaceRuns column).filter isWordOrHyphen ∧
    (∀ ch ∈ (collapseSpaceRuns column).filter isWordOrHyphen,
      isIdChar ch ∧ isWhiteSpace ch = false) ∧
    (∀ ch, isIdChar ch → isWordOrHyphen ch = true) := by
  refine ⟨?_, ?_, ?_⟩
  · unfold safeId replaceSpaceRuns
    rw [(replaceSpaceRunsFrom_eq column).1]
  · intro ch hch
    have h := (List.mem_filter.mp hch).2
    exact ⟨isIdChar_of_isWordOrHyphen ch h, not_whiteSpace_of_isWordOrHyphen ch h⟩
  · intro ch hch
    unfold isIdChar at hch
    simp only [char_le_iff] at hch
    simp only [isWordOrHyphen, Bool.or_eq_true, Bool.and_eq_true, decide_eq_true_eq,
      beq_iff_eq]
    rcases hch with h | h | h | h | h
    · exact Or.inl (Or.inl (Or.inl (Or.inl h)))
    · exact Or.inl (Or.inl (Or.inl (Or.inr h)))
    · exact Or.inl (Or.inl (Or.inr h))
    · exact Or.inl (Or.inr (by rw [h]; rfl))
    · exact Or.inr (by rw [h]; rfl)

/-! ## Add-model form: proofs -/

theorem addModel_handleSubmit_rejected (resp : ApiResponse) (form : AddModelForm)
    (h : ¬ (trim form.modelName ≠ [] ∧ form.series ≠ [] ∧ form.subseriesDisabled = false ∧
      form.subseries ≠ [])) :
    form.handleSubmit resp = form.showError "Please fill in all required fields.".toList := by
  unfold AddModelForm.handleSubmit AddModelForm.submittedSubseries
  by_cases hd : form.subseriesDisabled = true
  · simp [hd]
  · have hd1 : form.subseriesDisabled = false := by simpa using hd
    have h1 : trim form.modelName = [] ∨ form.series = [] ∨ form.subseries = [] := by
      by_contra hno
      simp only [not_or] at hno
      exact h ⟨hno.1, hno.2.1, hd1, hno.2.2⟩
    simp only [hd1, Bool.false_eq_true, if_false, if_pos h1]

theorem addModel_handleSubmit_accepted (resp : ApiResponse) (form : AddModelForm)
    (h1 : trim form.modelName ≠ []) (h2 : form.series ≠ [])
    (h3 : form.subseriesDisabled = false) (h4 : form.subseries ≠ []) :
    ∃ more, (form.handleSubmit resp).log
      = form.log ++ addModelRequest (trim form.modelName) form.series form.subseries :: more ∧
      sendsAddModel more = false := by
  have hno : ¬ (trim form.modelName = [] ∨ form.series = [] ∨ form.subseries = []) := by
    simp [h1, h2, h4]
  unfold AddModelForm.handleSubmit AddModelForm.submittedSubseries
  simp only [h3, Bool.false_eq_true, if_false, if_neg hno]
  cases resp with
  | success message =>
    exact ⟨[], by simp [AddModelForm.showSuccess, AddModelForm.resetForm], rfl⟩
  | failure error =>
    exact ⟨[.consoleError (if error = [] then "Failed to add model".toList else error)],
      by simp [AddModelForm.showError], by simp [sendsAddModel]⟩
  | thrown message =>
    exact ⟨[.consoleError message], by simp [AddModelForm.showError], by simp [sendsAddModel]⟩

/-- C17 (as amended): `AddModelForm.handleSubmit` sends the `POST /api/add-model` request
exactly when the model name is non-empty after trimming and the submitted series and
subseries are non-empty as they stand, a disabled subseries selector submitting nothing;
the request carries the trimmed name and the two values unchanged.  Otherwise it shows
`Please fill in all required fields.` and issues nothing. -/
theorem addModel_request_iff (resp : ApiResponse) (form : AddModelForm) :
    (sendsAddModel (issued form.log (form.handleSubmit resp).log) = true ↔
      (trim form.modelName ≠ [] ∧ form.series ≠ [] ∧ form.subseriesDisabled = false ∧
        form.subseries ≠ [])) ∧
    ((trim form.modelName ≠ [] ∧ form.series ≠ [] ∧ form.subseriesDisabled = false ∧
        form.subseries ≠ []) →
      (issued form.log (form.handleSubmit resp).log).head?
        = some (addModelRequest (trim form.modelName) form.series form.subseries)) ∧
    (¬ (trim form.modelName ≠ [] ∧ form.series ≠ [] ∧ form.subseriesDisabled = false ∧
        form.subseries ≠ []) →
      (form.handleSubmit resp).errorText = "Please fill in all required fields.".toList ∧
      (form.handleSubmit resp).errorHidden = false ∧
      issued form.log (form.handleSubmit resp).log = []) := by
  have hacc : (trim form.modelName ≠ [] ∧ form.series ≠ [] ∧ form.subseriesDisabled = false ∧
        form.subseries ≠ []) →
      (issued form.log (form.handleSubmit resp).log).head?
        = some (addModelRequest (trim form.modelName) form.series form.subseries) := by
    intro h
    obtain ⟨more, hmore, _⟩ := addModel_handleSubmit_accepted resp form h.1 h.2.1 h.2.2.1 h.2.2.2
    rw [hmore, issued_append]
    rfl
  have hrej : ¬ (trim form.modelName ≠ [] ∧ form.series ≠ [] ∧ form.subseriesDisabled = false ∧
        form.subseries ≠ []) →
      (form.handleSubmit resp).errorText = "Please fill in all required fields.".toList ∧
      (form.handleSubmit resp).errorHidden = false ∧
      issued form.log (form.handleSubmit resp).log = [] := by
    intro h
    rw [addModel_handleSubmit_rejected resp form h]
    exact ⟨rfl, rfl, issued_self _⟩
  refine ⟨⟨?_, ?_⟩, hacc, hrej⟩
  · intro hsent
    by_contra hno
    rw [(hrej hno).2.2] at hsent
    exact absurd hsent (by decide)
  · intro h
    obtain ⟨more, hmore, _⟩ := addModel_handleSubmit_accepted resp form h.1 h.2.1 h.2.2.1 h.2.2.2
    rw [hmore, issued_append]
    simp [sendsAddModel, addModelRequest]

theorem addModel_request_iff_witness :
    (issued [] (AddModelForm.handleSubmit (.success "added".toList)
        { modelName := " Mustang ".toList, series := "Mainline".toList,
          subseries := "Muscle".toList, subseriesDisabled := false }).log).head?
      = some (.fetch "POST".toList "/api/add-model".toList
          (some (.addModel "Mustang".toList "Mainline".toList "Muscle".toList))) :=
  ((addModel_request_iff (.success "added".toList)
      { modelName := " Mustang ".toList, series := "Mainline".toList,
        subseries := "Muscle".toList, subseriesDisabled := false }).2.1 (by decide)).trans
    (by decide)

/-- C17 (counterexample): the model name is `Mustang`, the chosen series is `" "` and the
chosen subseries is `Muscle`.  The series is empty after trimming, yet `handleSubmit`
sends the request, with the series `" "` in its body. -/
theorem addModel_blank_series_counterexample :
    trim " ".toList = [] ∧
    (AddModelForm.handleSubmit (.failure "unknown series".toList)
        { modelName := "Mustang".toList, series := " ".toList,
          subseries := "Muscle".toList, subseriesDisabled := false }).log
      = [.fetch "POST".toList "/api/add-model".toList
          (some (.addModel "Mustang".toList " ".toList "Muscle".toList)),
         .consoleError "unknown series".toList] := by
  decide

/-- C18: for a loaded options map and a selected series of that map, `handleSeriesChange`
sets the subseries selector to the placeholder `Select Subseries...` followed by the
subseries names of that series, in their order, and enables it; for the empty selection
the selector holds only the placeholder `Select Series first...` and is disabled. -/
theorem handleSeriesChange_options (form : AddModelForm) (series : SeriesMap)
    (selected : JSString) (subs : List JSString) :
    (form.dropdownOptions = some series → selected ≠ [] → series.get selected = some subs →
      (form.handleSeriesChange selected).state.subseriesOptions
        = { value := [], text := "Select Subseries...".toList } ::
            subs.map (fun sub => { value := sub, text := sub }) ∧
      (form.handleSeriesChange selected).state.subseriesDisabled = false ∧
      (form.handleSeriesChange selected).thrown = none) ∧
    ((form.handleSeriesChange []).state.subseriesOptions
        = [{ value := [], text := "Select Series first...".toList }] ∧
      (form.handleSeriesChange []).state.subseriesDisabled = true ∧
      (form.handleSeriesChange []).thrown = none) := by
  refine ⟨?_, rfl, rfl, rfl⟩
  intro hopts hsel hget
  unfold AddModelForm.handleSeriesChange
  simp [hsel, hopts, hget]

theorem handleSeriesChange_options_witness :
    ((AddModelForm.loadDropdownOptions
        (.success [("Mainline".toList, ["Muscle".toList, "Exotics".toList]),
                   ("Premium".toList, ["Boulevard".toList])]) {}).handleSeriesChange
        "Mainline".toList).state.subseriesOptions
      = [{ value := [], text := "Select Subseries...".toList },
         { value := "Muscle".toList, text := "Muscle".toList },
         { value := "Exotics".toList, text := "Exotics".toList }] :=
  ((handleSeriesChange_options
      (AddModelForm.loadDropdownOptions
        (.success [("Mainline".toList, ["Muscle".toList, "Exotics".toList]),
                   ("Premium".toList, ["Boulevard".toList])]) {})
      [("Mainline".toList, ["Muscle".toList, "Exotics".toList]),
       ("Premium".toList, ["Boulevard".toList])]
      "Mainline".toList ["Muscle".toList, "Exotics".toList]).1 rfl (by decide) (by decide)).1

/-! ## Preorders page: the ETA cell, proofs -/

theorem utf16Units_pos (c : Char) : 1 ≤ utf16Units c := by
  unfold utf16Units
  split <;> decide

theorem takeUnits_zero (s : JSString) : takeUnits 0 s = [] := by
  cases s with
  | nil => rfl
  | cons c cs =>
    have h := utf16Units_pos c
    simp only [takeUnits]
    rw [if_neg (by omega)]

theorem takeUnits_of_jsLength_le (n : Nat) (s : JSString) (h : jsLength s ≤ n) :
    takeUnits n s = s := by
  induction s generalizing n with
  | nil => cases n <;> rfl
  | cons c cs ih =>
    have hlen : jsLength (c :: cs) = utf16Units c + jsLength cs := by
      simp [jsLength]
    rw [hlen] at h
    simp only [takeUnits]
    rw [if_pos (by omega), ih (n - utf16Units c) (by omega)]

theorem isDigit_facts (c : Char) (h : isDigit c = true) : utf16Units c = 1 ∧ c ≠ '-' := by
  simp only [isDigit, Bool.and_eq_true, decide_eq_true_eq] at h
  constructor
  · unfold utf16Units
    rw [if_pos (by omega)]
  · intro hc
    rw [hc] at h
    exact absurd h (by decide)

theorem twoDigits_month (k : Nat) (hk : k < 12) :
    ∃ m1 m2, twoDigits (k + 1) = [m1, m2] ∧ isDigit m1 = true ∧ isDigit m2 = true ∧
      monthName (some [m1, m2]) = monthNames.get? k := by
  interval_cases k <;> exact ⟨_, _, rfl, by decide, by decide, by decide⟩

theorem etaText_str (s : JSString) (hs : s ≠ []) :
    etaText (some (.str s))
      = if matchesYearMonth (etaMonth s) = true then
          .ok (partText (monthName ((splitOn '-' (etaMonth s)).get? 1)) ++ " ".toList ++
            partText ((splitOn '-' (etaMonth s)).get? 0))
        else .ok (etaMonth s) := by
  simp only [etaText, if_neg hs]

theorem etaText_year_month (year rest : JSString) (k : Nat) (hy : year.length = 4)
    (hd : ∀ c ∈ year, isDigit c = true) (hk : k < 12) :
    matchesYearMonth (etaMonth (year ++ '-' :: twoDigits (k + 1) ++ rest)) = true ∧
    etaText (some (.str (year ++ '-' :: twoDigits (k + 1) ++ rest)))
      = .ok (monthNames.getD k [] ++ ' ' :: year) := by
  obtain ⟨m1, m2, hm, hm1, hm2, hname⟩ := twoDigits_month k hk
  match year, hy, hd with
  | [a, b, c, d], _, hd =>
    have ha := isDigit_facts a (hd a (by simp))
    have hb := isDigit_facts b (hd b (by simp))
    have hc := isDigit_facts c (hd c (by simp))
    have hdd := isDigit_facts d (hd d (by simp))
    have h1 := isDigit_facts m1 hm1
    have h2 := isDigit_facts m2 hm2
    have hda := hd a (by simp)
    have hdb := hd b (by simp)
    have hdc := hd c (by simp)
    have hddd := hd d (by simp)
    have hdash : utf16Units '-' = 1 := by decide
    have hmonth : etaMonth ([a, b, c, d] ++ '-' :: [m1, m2] ++ rest)
        = [a, b, c, d, '-', m1, m2] := by
      have hlen : jsLength ([a, b, c, d] ++ '-' :: [m1, m2] ++ rest) = 7 + jsLength rest := by
        simp [jsLength, ha.1, hb.1, hc.1, hdd.1, h1.1, h2.1, hdash]
        omega
      unfold etaMonth
      rw [if_pos (by omega)]
      simp [takeUnits, ha.1, hb.1, hc.1, hdd.1, h1.1, h2.1, hdash, takeUnits_zero]
    have hsplit : splitOn '-' [a, b, c, d, '-', m1, m2] = [[a, b, c, d], [m1, m2]] := by
      simp [splitOn, ha.2, hb.2, hc.2, hdd.2, h1.2, h2.2]
    have hname' : monthName (some [m1, m2]) = some (monthNames.getD k []) := by
      rw [hname]
      interval_cases k <;> rfl
    have hmatch : matchesYearMonth [a, b, c, d, '-', m1, m2] = true := by
      simp [matchesYearMonth, hda, hdb, hdc, hddd, hm1, hm2]
    rw [hm]
    refine ⟨by rw [hmonth]; exact hmatch, ?_⟩
    rw [etaText_str _ (by simp), hmonth, if_pos hmatch]
    simp [hsplit, hname', partText]

theorem getStatusClass_str (rt : Runtime) (s : JSString) :
    ∃ statusClass, getStatusClass rt (.str s) = .ok statusClass := by
  simp only [getStatusClass]
  by_cases h1 : rt.toLowerCase s = "delivered".toList
  · exact ⟨_, if_pos h1⟩
  · by_cases h2 : rt.toLowerCase s = "shipped".toList
    · exact ⟨_, by rw [if_neg h1, if_pos h2]⟩
    · exact ⟨_, by rw [if_neg h1, if_neg h2]⟩

theorem getStatusClass_of_textStatus (rt : Runtime) (preorder : Record)
    (h : textStatus preorder = true) :
    ∃ statusClass, getStatusClass rt
      (orDefault (getProp preorder "Delivery Status".toList) (.str "Pending".toList))
        = .ok statusClass := by
  unfold textStatus at h
  cases hs : getProp preorder "Delivery Status".toList with
  | none => exact getStatusClass_str rt _
  | some v =>
    rw [hs] at h
    cases v with
    | str s =>
      by_cases ht : truthy (some (Value.str s)) = true
      · simp only [orDefault, ht, if_true]
        exact getStatusClass_str rt _
      · simp only [orDefault, ht]
        exact getStatusClass_str rt _
    | num n =>
      have hn : n = 0 := by simpa using h
      subst hn
      exact getStatusClass_str rt _
    | null => exact getStatusClass_str rt _

theorem renderRow_eta (rt : Runtime) (preorder : Record) (eta : JSString)
    (hstatus : textStatus preorder = true)
    (heta : etaText (getProp preorder "ETA".toList) = .ok eta) :
    ∃ row, renderRow rt preorder = .ok row ∧ row.eta = eta := by
  obtain ⟨statusClass, hcls⟩ := getStatusClass_of_textStatus rt preorder hstatus
  unfold renderRow
  simp only [hcls, heta]
  exact ⟨_, rfl, rfl⟩

/-- C14 (as amended): for a preorder whose ETA starts with four digits, a hyphen and the
two digits of a month from `01` to `12`, the row that `renderPreorders` builds, the status
of the preorder being text, shows `<ThreeLetterMonth> <Year>` in its ETA cell: the name of
that month out of `Jan` … `Dec`, a space, and the four digits. -/
theorem etaCell_year_month (rt : Runtime) (preorder : Record) (year rest : JSString)
    (k : Nat) (hy : year.length = 4) (hd : ∀ c ∈ year, isDigit c = true) (hk : k < 12)
    (heta : getProp preorder "ETA".toList
      = some (.str (year ++ '-' :: twoDigits (k + 1) ++ rest)))
    (hstatus : textStatus preorder = true) :
    matchesYearMonth (etaMonth (year ++ '-' :: twoDigits (k + 1) ++ rest)) = true ∧
    ∃ row, renderRow rt preorder = .ok row ∧
      row.eta = monthNames.getD k [] ++ ' ' :: year := by
  obtain ⟨hmatch, htext⟩ := etaText_year_month year rest k hy hd hk
  exact ⟨hmatch, renderRow_eta rt preorder _ hstatus (heta ▸ htext)⟩

theorem etaCell_year_month_witness :
    ∃ row, renderRow asciiRuntime
        [("S.No".toList, .num 3), ("Seller".toList, .str "Tarmac".toList),
         ("ETA".toList, .str "2025-03-15".toList)] = .ok row ∧
      row.eta = "Mar 2025".toList :=
  (etaCell_year_month asciiRuntime
    [("S.No".toList, .num 3), ("Seller".toList, .str "Tarmac".toList),
     ("ETA".toList, .str "2025-03-15".toList)]
    "2025".toList "-15".toList 2 rfl (by decide) (by decide)
    (by decide) (by decide)).2

/-- C14 (counterexample): the ETA `2024-13` is four digits, a hyphen and two digits, and
the ETA cell of its row reads `undefined 2024`: no month name is selected. -/
theorem etaCell_month_13_counterexample :
    matchesYearMonth (etaMonth "2024-13".toList) = true ∧
    renderRow asciiRuntime [("S.No".toList, .num 1), ("ETA".toList, .str "2024-13".toList)]
      = .ok { serial := "1".toList, seller := "N/A".toList, models := "N/A".toList,
              eta := "undefined 2024".toList, totalPrice := "N/A".toList,
              poAmount := "N/A".toList, onArrival := "N/A".toList,
              dropdownClass := "status-dropdown status-pending".toList,
              dataSerial := "1".toList, dropdownValue := "Pending".toList,
              dropdownDisabled := false } ∧
    "undefined".toList ∉ monthNames := by
  decide

/-! ## Preorders page: statistics and reloads, proofs -/

theorem loadStatistics_log (rt : Runtime) (resp : StatsResponse) (st : Preorders) :
    (loadStatistics rt resp st).log = st.log ++ loadStatisticsEffects resp := by
  cases resp <;> simp [loadStatistics, loadStatisticsEffects, renderStatistics]

theorem loadPreorders_log (rt : Runtime) (resp : PreordersResponse) (st : Preorders) :
    (loadPreorders rt resp st).log = st.log ++ loadPreordersEffects rt resp := by
  cases resp with
  | success data =>
    simp only [loadPreorders, loadPreordersEffects, renderPreorders]
    cases renderRows rt data with
    | error e => simp [loadPreordersFailed, Preorders.showError]
    | ok rows => simp
  | failure error =>
    simp [loadPreorders, loadPreordersEffects, loadPreordersFailed, Preorders.showError]
  | thrown message =>
    simp [loadPreorders, loadPreordersEffects, loadPreordersFailed, Preorders.showError]

theorem loadPreordersEffects_no_body (rt : Runtime) (resp : PreordersResponse) :
    (loadPreordersEffects rt resp).filter hasBody = [] := by
  cases resp with
  | success data =>
    simp only [loadPreordersEffects]
    cases renderRows rt data <;> simp [hasBody]
  | failure error => simp [loadPreordersEffects, hasBody]
  | thrown message => simp [loadPreordersEffects, hasBody]

theorem loadStatisticsEffects_no_body (resp : StatsResponse) :
    (loadStatisticsEffects resp).filter hasBody = [] := by
  cases resp <;> simp [loadStatisticsEffects, hasBody]

/-- C16: when the statistics request fails, by a `success: false` answer or by a
transport or parse error, `loadStatistics` renders the panel of the snapshot whose six
fields are 0: the count reads `0` and each of the five amounts is the rupee sign before
the formatted amount 0; the preorder list and the rows rendered from it stay as they
were. -/
theorem loadStatistics_failure_zero (rt : Runtime) (message : JSString) (st : Preorders) :
    ((loadStatistics rt (.failure message) st).statsPanel = some (statsPanelOf rt zeroStats) ∧
      (loadStatistics rt (.failure message) st).preorders = st.preorders ∧
      (loadStatistics rt (.failure message) st).tbody = st.tbody) ∧
    ((loadStatistics rt (.thrown message) st).statsPanel = some (statsPanelOf rt zeroStats) ∧
      (loadStatistics rt (.thrown message) st).preorders = st.preorders ∧
      (loadStatistics rt (.thrown message) st).tbody = st.tbody) ∧
    statsPanelOf rt zeroStats
      = { totalPreorders := "0".toList,
          totalValue := "₹".toList ++ rt.localeAmount (.num 0),
          poAmount := "₹".toList ++ rt.localeAmount (.num 0),
          onArrival := "₹".toList ++ rt.localeAmount (.num 0),
          paymentDone := "₹".toList ++ rt.localeAmount (.num 0),
          paymentRemaining := "₹".toList ++ rt.localeAmount (.num 0) } ∧
    zeroStats
      = { total_preorders := some (.num 0), total_value := some (.num 0),
          total_po_amount := some (.num 0), total_on_arrival := some (.num 0),
          payment_done := some (.num 0), payment_remaining := some (.num 0) } := by
  refine ⟨⟨rfl, rfl, rfl⟩, ⟨rfl, rfl, rfl⟩, ?_, rfl⟩
  simp [statsPanelOf, zeroStats, orDefault, truthy, formatAmount, templateText]
  decide

/-! ## Preorders page: the form, proofs -/

theorem preorders_handleSubmit_rejected (rt : Runtime) (resp : ApiResponse)
    (reloadList : PreordersResponse) (reloadStats : StatsResponse) (st : Preorders)
    (h : trim st.seller = [] ∨ trim st.models = []) :
    st.handleSubmit rt resp reloadList reloadStats
      = st.showError "Please fill in all required fields (Seller and Models).".toList := by
  unfold Preorders.handleSubmit
  rw [if_pos h]

theorem preorders_handleSubmit_log (rt : Runtime) (resp : ApiResponse)
    (reloadList : PreordersResponse) (reloadStats : StatsResponse) (st : Preorders)
    (h1 : trim st.seller ≠ []) (h2 : trim st.models ≠ []) :
    ∃ more, (st.handleSubmit rt resp reloadList reloadStats).log
      = st.log ++ submitRequest st :: more ∧ more.filter hasBody = [] := by
  have hno : ¬ (trim st.seller = [] ∨ trim st.models = []) := by simp [h1, h2]
  unfold Preorders.handleSubmit
  rw [if_neg hno]
  cases resp with
  | success message =>
    refine ⟨loadPreordersEffects rt reloadList ++ loadStatisticsEffects reloadStats, ?_, ?_⟩
    · simp [loadStatistics_log, loadPreorders_log, closeModal, Preorders.resetForm,
        Preorders.showSuccess]
    · rw [List.filter_append, loadPreordersEffects_no_body, loadStatisticsEffects_no_body]
      rfl
  | failure error =>
    exact ⟨[.consoleError (if error = [] then "Failed to save preorder".toList else error)],
      by simp [requestFailed, Preorders.showError], by simp [hasBody]⟩
  | thrown message =>
    exact ⟨[.consoleError message], by simp [requestFailed, Preorders.showError],
      by simp [hasBody]⟩

theorem hasBody_submitRequest (st : Preorders) : hasBody (submitRequest st) = true := by
  unfold submitRequest
  split <;> rfl

/-- C20: with a seller and models that are non-empty after trimming, the preorder form's
`handleSubmit` sends first, and as its only request with a body, `POST /api/preorders`
when the hidden serial field is empty and `PUT /api/preorders/<serial>` when it holds a
serial; the body is the same in both cases.  With an empty seller or empty models it
issues nothing. -/
theorem preorders_handleSubmit_request (rt : Runtime) (resp : ApiResponse)
    (reloadList : PreordersResponse) (reloadStats : StatsResponse) (st : Preorders) :
    (trim st.seller ≠ [] → trim st.models ≠ [] →
      (issued st.log (st.handleSubmit rt resp reloadList reloadStats).log).head?
        = some (submitRequest st) ∧
      (issued st.log (st.handleSubmit rt resp reloadList reloadStats).log).filter hasBody
        = [submitRequest st]) ∧
    (st.editSerial = [] →
      submitRequest st = .fetch "POST".toList "/api/preorders".toList (some (submitBody st))) ∧
    (st.editSerial ≠ [] →
      submitRequest st
        = .fetch "PUT".toList ("/api/preorders/".toList ++ st.editSerial)
            (some (submitBody st))) ∧
    (∀ serial, submitBody { st with editSerial := serial } = submitBody st) ∧
    (trim st.seller = [] ∨ trim st.models = [] →
      issued st.log (st.handleSubmit rt resp reloadList reloadStats).log = []) := by
  refine ⟨?_, ?_, ?_, fun _ => rfl, ?_⟩
  · intro h1 h2
    obtain ⟨more, hmore, hbody⟩ := preorders_handleSubmit_log rt resp reloadList reloadStats st h1 h2
    rw [hmore, issued_append]
    refine ⟨rfl, ?_⟩
    rw [List.filter_cons_of_pos (hasBody_submitRequest st), hbody]
  · intro h
    unfold submitRequest
    rw [if_pos h]
  · intro h
    unfold submitRequest
    rw [if_neg h]
  · intro h
    rw [preorders_handleSubmit_rejected rt resp reloadList reloadStats st h]
    exact issued_self _

theorem preorders_handleSubmit_request_witness :
    (issued [] (Preorders.handleSubmit asciiRuntime (.success "saved".toList) (.success [])
        (.thrown "offline".toList)
        { editSerial := "7".toList, seller := " Tarmac ".toList, models := "Civic".toList,
          eta := "2025-03".toList }).log).filter hasBody
      = [.fetch "PUT".toList "/api/preorders/7".toList
          (some (.preorder (.str "Tarmac".toList) (.str "Civic".toList)
            (.str "2025-03".toList) .null .null .null (.str "Pending".toList)))] :=
  ((preorders_handleSubmit_request asciiRuntime (.success "saved".toList) (.success [])
      (.thrown "offline".toList)
      { editSerial := "7".toList, seller := " Tarmac ".toList, models := "Civic".toList,
        eta := "2025-03".toList }).1 (by decide) (by decide)).2.trans (by decide)

/-! ## Preorders page: status change -/

/-- C13 (failing input): one preorder with the status `Pending` is loaded, so its dropdown
shows `Pending`.  The user picks `Shipped` and the update request fails, by a
`success: false` answer or by a transport error.  When `updateStatus` is done the dropdown
shows `Shipped`, not the `Pending` it showed before the change: the value that
`updateStatus` reads as the original one, and restores, is already the picked one.  The
stored preorder still has the status `Pending`. -/
theorem selectStatus_failure_not_reverted :
    shownAt 0 (loadPreorders asciiRuntime
      (.success [[("S.No".toList, .num 1), ("Seller".toList, .str "Tarmac".toList),
                  ("Models".toList, .str "Civic".toList),
                  ("Delivery Status".toList, .str "Pending".toList)]]) {})
      = some "Pending".toList ∧
    shownAt 0 (selectStatus asciiRuntime 0 "Shipped".toList (.failure "server down".toList)
      (.thrown []) (.thrown [])
      (loadPreorders asciiRuntime
        (.success [[("S.No".toList, .num 1), ("Seller".toList, .str "Tarmac".toList),
                    ("Models".toList, .str "Civic".toList),
                    ("Delivery Status".toList, .str "Pending".toList)]]) {})).state
      = some "Shipped".toList ∧
    shownAt 0 (selectStatus asciiRuntime 0 "Shipped".toList (.thrown "offline".toList)
      (.thrown []) (.thrown [])
      (loadPreorders asciiRuntime
        (.success [[("S.No".toList, .num 1), ("Seller".toList, .str "Tarmac".toList),
                    ("Models".toList, .str "Civic".toList),
                    ("Delivery Status".toList, .str "Pending".toList)]]) {})).state
      = some "Shipped".toList ∧
    (selectStatus asciiRuntime 0 "Shipped".toList (.failure "server down".toList)
      (.thrown []) (.thrown [])
      (loadPreorders asciiRuntime
        (.success [[("S.No".toList, .num 1), ("Seller".toList, .str "Tarmac".toList),
                    ("Models".toList, .str "Civic".toList),
                    ("Delivery Status".toList, .str "Pending".toList)]]) {})).state.errorText
      = "Failed to update status: server down".toList ∧
    (selectStatus asciiRuntime 0 "Shipped".toList (.failure "server down".toList)
      (.thrown []) (.thrown [])
      (loadPreorders asciiRuntime
        (.success [[("S.No".toList, .num 1), ("Seller".toList, .str "Tarmac".toList),
                    ("Models".toList, .str "Civic".toList),
                    ("Delivery Status".toList, .str "Pending".toList)]]) {})).state.preorders
      = [[("S.No".toList, .num 1), ("Seller".toList, .str "Tarmac".toList),
          ("Models".toList, .str "Civic".toList),
          ("Delivery Status".toList, .str "Pending".toList)]] := by
  decide

/-! ## Loading: proofs -/

theorem renderTable_loadingShown (data : List Record) (columns : Option (List JSString))
    (st : Tracker) : (renderTable data columns st).loadingShown = st.loadingShown := by
  unfold renderTable
  cases data <;> rfl

/-! ## Export of an empty view -/

/-- C23: when `filteredData` is empty, whatever the cache holds, `exportCSV` changes
nothing but the log, to which it adds the one notice `No data to export`: no CSV is built
and no download is triggered. -/
theorem exportCSV_empty (isoDate : JSString) (st : Tracker) (h : st.filteredData = []) :
    exportCSV isoDate st = { st with log := st.log ++ [.alert "No data to export".toList] } ∧
    issued st.log (exportCSV isoDate st).log = [.alert "No data to export".toList] ∧
    downloads (issued st.log (exportCSV isoDate st).log) = false := by
  have hlog : exportCSV isoDate st
      = { st with log := st.log ++ [.alert "No data to export".toList] } := by
    simp only [exportCSV, h]
  rw [hlog]
  simp only [issued_append]
  exact ⟨trivial, trivial, by decide⟩

theorem exportCSV_empty_witness :
    exportCSV "2024-05-01".toList
        { currentData := [[("Model".toList, .str "Civic".toList)]], filteredData := [] }
      = { currentData := [[("Model".toList, .str "Civic".toList)]], filteredData := [],
          log := [.alert "No data to export".toList] } :=
  (exportCSV_empty "2024-05-01".toList
    { currentData := [[("Model".toList, .str "Civic".toList)]], filteredData := [] } rfl).1

/-! ## Cell values -/

/-- C24: `formatCellValue` shows null and `undefined` as the empty string, an object as
its JSON text, and every other value as its string form, a function as its source text;
on the own values of a record, and on everything that a property read of a record gives,
it is the function that `renderTable` applies, `JSON.stringify` giving `{}` for
`Object.prototype`. -/
theorem formatCellValue_policy {ω : Type} (stringify : ω → JSString) :
    formatAnyCellValue stringify .null = [] ∧
    formatAnyCellValue stringify .undefined = [] ∧
    (∀ o, formatAnyCellValue stringify (.object o) = stringify o) ∧
    (∀ s, formatAnyCellValue stringify (.string s) = s) ∧
    (∀ n, formatAnyCellValue stringify (.number n) = numberToString n) ∧
    formatAnyCellValue stringify (.boolean true) = "true".toList ∧
    formatAnyCellValue stringify (.boolean false) = "false".toList ∧
    (∀ value, formatCellValue value = formatAnyCellValue stringify (AnyValue.ofProp value)) ∧
    (∀ source, formatAnyCellValue stringify (.function source) = source) ∧
    (∀ proto, stringify proto = "\x7b\x7d".toList → ∀ read : Read,
      read.formatCellValue = formatAnyCellValue stringify (read.toAny proto)) ∧
    (∀ (data : List Record) (columns : List JSString) (st : Tracker), data ≠ [] →
      (renderTable data (some columns) st).tableRows
        = data.map fun row => columns.map fun c => (readProp row c).formatCellValue) := by
  refine ⟨rfl, rfl, fun _ => rfl, fun _ => rfl, fun _ => rfl, rfl, rfl, ?_, fun _ => rfl,
    ?_, ?_⟩
  · intro value
    cases value with
    | none => rfl
    | some v => cases v <;> rfl
  · intro proto hproto read
    cases read with
    | own v => cases v <;> rfl
    | method name => rfl
    | prototype => exact hproto.symm
    | undefined => rfl
  · intro data columns st hdata
    cases data with
    | nil => exact absurd rfl hdata
    | cons first rest => rfl

/-! ## Search: null fields and blank queries -/

/-- C25 (failing input): the cache holds the one record `{A: null}` and the query is `x`.
`handleSearch` throws a `TypeError`, and `filteredData` stays as it was. -/
theorem handleSearch_null_field_throws :
    (handleSearch asciiLower "x".toList
        { currentData := [[("A".toList, .null)]], filteredData := [[("A".toList, .null)]] })
      = { state := { currentData := [[("A".toList, .null)]],
                     filteredData := [[("A".toList, .null)]], clearSearchShown := true },
          thrown := some .typeError } := by
  decide

/-- C28: a query that is empty after trimming makes `handleSearch` show the whole cache,
without an error; a query that is not blank is matched as typed, white space at its ends
included: on a cache whose field values are strings or numbers the records kept are those
with a field value holding the untrimmed lower-cased query.  So the query ` x` does not
find the value `x`. -/
theorem handleSearch_blank_query (lower : JSString → JSString) (q : JSString) (st : Tracker) :
    (trim q = [] →
      (handleSearch lower q st).state.filteredData = st.currentData ∧
      (handleSearch lower q st).thrown = none) ∧
    (trim q ≠ [] → (∀ r ∈ st.currentData, noNull r) →
      (handleSearch lower q st).state.filteredData
        = st.currentData.filter (specMatches lower q)) ∧
    (handleSearch asciiLower " x".toList
        { currentData := [[("A".toList, .str "x".toList)]] }).state.filteredData = [] ∧
    (handleSearch asciiLower "x".toList
        { currentData := [[("A".toList, .str "x".toList)]] }).state.filteredData
      = [[("A".toList, .str "x".toList)]] := by
  refine ⟨?_, ?_, by decide, by decide⟩
  · intro hq
    constructor
    · rw [handleSearch_filteredData_eq, if_pos hq]
    · unfold handleSearch
      rw [if_pos hq]
  · intro hq hnull
    rw [handleSearch_filteredData_eq, if_neg hq, filterRecords_noNull lower q st.currentData hnull]

theorem handleSearch_blank_query_witness :
    (handleSearch asciiLower " \t ".toList
        { currentData := [[("A".toList, .str "x".toList)], [("A".toList, .null)]] }
      ).state.filteredData
      = [[("A".toList, .str "x".toList)], [("A".toList, .null)]] :=
  ((handleSearch_blank_query asciiLower " \t ".toList
    { currentData := [[("A".toList, .str "x".toList)], [("A".toList, .null)]] }).1
    (by decide)).1

/-! ## Identifiers that collide -/

/-- C30: the derived id is not injective: `A B` and `A_B` both give `edit-A_B`, and `A/B`
and `AB` both give `edit-AB`; for the declared columns `A B` and `A_B` the edit form has
two inputs of different names and the same id. -/
theorem safeId_not_injective :
    "A B".toList ≠ "A_B".toList ∧ isBlank "A B".toList = false ∧ isBlank "A_B".toList = false ∧
    safeId "A B".toList = safeId "A_B".toList ∧
    "A/B".toList ≠ "AB".toList ∧ isBlank "A/B".toList = false ∧ isBlank "AB".toList = false ∧
    safeId "A/B".toList = safeId "AB".toList ∧
    (showEditModal [("S.No".toList, .num 1)]
        { columns := ["S.No".toList, "A B".toList, "A_B".toList] }).editFields
      = [{ id := "edit-A_B".toList, name := "A B".toList, value := [] },
         { id := "edit-A_B".toList, name := "A_B".toList, value := [] }] := by
  decide

/-! ## CSV export: the cells of each line, proofs -/

theorem csvText_eq_csvCells (first : Record) (filteredData : List Record) :
    csvText first filteredData
      = join "\n".toList ((csvCells first filteredData).map (join ",".toList)) := by
  unfold csvText csvCells
  simp only [foldl_push_eq_map, List.map_cons, List.map_map, List.singleton_append]
  rfl

theorem csvCell_empty (value : Option Value)
    (h : value = none ∨ value = some .null ∨ value = some (.str [])) :
    csvCell value = "\"\"".toList := by
  rcases h with h | h | h <;> subst h <;> rfl

/-! ## Preorders page: deletion, proofs -/

theorem sendsDeleteRequest_reloads (rt : Runtime) (reloadList : PreordersResponse)
    (reloadStats : StatsResponse) :
    sendsDeleteRequest (loadPreordersEffects rt reloadList ++ loadStatisticsEffects reloadStats)
      = false := by
  have h1 : sendsDeleteRequest (loadPreordersEffects rt reloadList) = false := by
    cases reloadList with
    | success data =>
      simp only [loadPreordersEffects]
      cases renderRows rt data <;> simp [sendsDeleteRequest]
    | failure error => simp [loadPreordersEffects, sendsDeleteRequest]
    | thrown message => simp [loadPreordersEffects, sendsDeleteRequest]
  have h2 : sendsDeleteRequest (loadStatisticsEffects reloadStats) = false := by
    cases reloadStats <;> simp [loadStatisticsEffects, sendsDeleteRequest]
  unfold sendsDeleteRequest at h1 h2 ⊢
  rw [List.any_append, h1, h2]
  rfl

/-- What `deletePreorder` adds to the log: nothing for an unknown preorder, the first
question alone when it is declined, both questions when the second is declined, and both
questions followed by the request when both dialogs are accepted. -/
theorem deletePreorder_log (rt : Runtime) (serialNumber : JSString) (accept1 accept2 : Bool)
    (resp : ApiResponse) (reloadList : PreordersResponse) (reloadStats : StatsResponse)
    (st : Preorders) :
    (st.preorders.find? (fun p => decide
        (templateText (getProp p "S.No".toList) = serialText (parseInt serialNumber))) = none →
      deletePreorder rt serialNumber accept1 accept2 resp reloadList reloadStats st = st) ∧
    (∀ preorder, st.preorders.find? (fun p => decide
        (templateText (getProp p "S.No".toList) = serialText (parseInt serialNumber)))
          = some preorder →
      ∃ more, sendsDeleteRequest more = false ∧
        issued st.log
            (deletePreorder rt serialNumber accept1 accept2 resp reloadList reloadStats st).log
          = if accept1 = false then [.confirm (deleteQuestion (parseInt serialNumber) preorder)]
            else if accept2 = false then
              [.confirm (deleteQuestion (parseInt serialNumber) preorder), .confirm finalQuestion]
            else
              .confirm (deleteQuestion (parseInt serialNumber) preorder) ::
                .confirm finalQuestion ::
                deletePreorderRequest (parseInt serialNumber) :: more) := by
  constructor
  · intro hfind
    simp only [deletePreorder, hfind]
  · intro preorder hfind
    cases accept1 with
    | false =>
      refine ⟨[], rfl, ?_⟩
      simp only [deletePreorder, hfind]
      simp [issued]
    | true =>
      cases accept2 with
      | false =>
        refine ⟨[], rfl, ?_⟩
        simp only [deletePreorder, hfind]
        simp [issued]
      | true =>
        cases resp with
        | success message =>
          refine ⟨loadPreordersEffects rt reloadList ++ loadStatisticsEffects reloadStats,
            sendsDeleteRequest_reloads rt reloadList reloadStats, ?_⟩
          simp only [deletePreorder, hfind]
          simp [issued, loadStatistics_log, loadPreorders_log, Preorders.showSuccess]
        | failure error =>
          refine ⟨[.consoleError
              (if error = [] then "Failed to delete preorder".toList else error)],
            by simp [sendsDeleteRequest], ?_⟩
          simp only [deletePreorder, hfind]
          simp [issued, requestFailed, Preorders.showError]
        | thrown message =>
          refine ⟨[.consoleError message], by simp [sendsDeleteRequest], ?_⟩
          simp only [deletePreorder, hfind]
          simp [issued, requestFailed, Preorders.showError]

/-! ## Preorders page: the dropdown during a status change, proofs -/

theorem findDropdown_getElem (dataSerial : JSString) (rows : List PreorderRow) (index : Nat)
    (dropdown : PreorderRow) (h : findDropdown dataSerial rows = some (index, dropdown)) :
    rows[index]? = some dropdown := by
  induction rows generalizing index with
  | nil => simp [findDropdown] at h
  | cons row rows ih =>
    unfold findDropdown at h
    by_cases hrow : row.dataSerial = dataSerial
    · rw [if_pos hrow] at h
      cases h
      simp
    · rw [if_neg hrow] at h
      cases hrest : findDropdown dataSerial rows with
      | none => rw [hrest] at h; cases h
      | some found =>
        obtain ⟨i, r⟩ := found
        rw [hrest] at h
        cases h
        simpa using ih i hrest

theorem modifyRow_getElem (f : PreorderRow → PreorderRow) (index : Nat)
    (rows : List PreorderRow) : (modifyRow f index rows)[index]? = rows[index]?.map f := by
  induction rows generalizing index with
  | nil => simp [modifyRow]
  | cons row rows ih =>
    cases index with
    | zero => simp [modifyRow]
    | succ i => simpa [modifyRow] using ih i

theorem modifyRow_length (f : PreorderRow → PreorderRow) (index : Nat)
    (rows : List PreorderRow) : (modifyRow f index rows).length = rows.length := by
  induction rows generalizing index with
  | nil => simp [modifyRow]
  | cons row rows ih =>
    cases index with
    | zero => simp [modifyRow]
    | succ i => simpa [modifyRow] using ih i

theorem renderRow_enabled (rt : Runtime) (preorder : Record) (row : PreorderRow)
    (h : renderRow rt preorder = .ok row) : row.dropdownDisabled = false := by
  unfold renderRow at h
  simp only at h
  split at h
  · cases h
  · split at h
    · cases h
    · cases h
      rfl

theorem renderRows_enabled (rt : Runtime) (data : List Record) (rows : List PreorderRow)
    (h : renderRows rt data = .ok rows) : ∀ row ∈ rows, row.dropdownDisabled = false := by
  induction data generalizing rows with
  | nil =>
    simp only [renderRows] at h
    cases h
    simp
  | cons p ps ih =>
    unfold renderRows at h
    cases hrow : renderRow rt p with
    | error e => rw [hrow] at h; cases h
    | ok row =>
      cases hrest : renderRows rt ps with
      | error e => rw [hrow, hrest] at h; cases h
      | ok rest =>
        rw [hrow, hrest] at h
        cases h
        intro r hr
        rcases List.mem_cons.mp hr with hr | hr
        · rw [hr]; exact renderRow_enabled rt p row hrow
        · exact ih rest hrest r hr

theorem loadStatistics_tbody (rt : Runtime) (resp : StatsResponse) (st : Preorders) :
    (loadStatistics rt resp st).tbody = st.tbody := by
  cases resp <;> rfl

/-- The table after `loadPreorders`: the rows it had, or the rows rendered from the
answer. -/
theorem loadPreorders_tbody (rt : Runtime) (resp : PreordersResponse) (st : Preorders) :
    (loadPreorders rt resp st).tbody = st.tbody ∨
    ∃ data, resp = .success data ∧ renderRows rt data = .ok (loadPreorders rt resp st).tbody := by
  cases resp with
  | success data =>
    cases hrows : renderRows rt data with
    | error e =>
      left
      simp [loadPreorders, renderPreorders, hrows, loadPreordersFailed, Preorders.showError]
    | ok rows =>
      right
      exact ⟨data, rfl, by simp [loadPreorders, renderPreorders, hrows]⟩
  | failure error => left; rfl
  | thrown message => left; rfl

/-- The dropdown at `index` is enabled in the state `statusSettled` ends in, whatever the
answers were. -/
theorem statusSettled_enabled (rt : Runtime) (index : Nat) (originalValue newStatus : JSString)
    (resp : ApiResponse) (reloadList : PreordersResponse) (reloadStats : StatsResponse)
    (st : Preorders) (row : PreorderRow)
    (h : (statusSettled rt index originalValue newStatus resp reloadList reloadStats
      st).tbody[index]? = some row) : row.dropdownDisabled = false := by
  have hfailed : ∀ message : JSString,
      (modifyRow (fun row => { row with dropdownDisabled := false }) index
        (modifyRow (fun row => { row with dropdownValue := originalValue }) index
          (requestFailed "Failed to update status: ".toList message st).tbody))[index]?
        = some row → row.dropdownDisabled = false := by
    intro message hm
    rw [modifyRow_getElem] at hm
    cases hget : (modifyRow (fun row => { row with dropdownValue := originalValue }) index
        (requestFailed "Failed to update status: ".toList message st).tbody)[index]? with
    | none => rw [hget] at hm; cases hm
    | some r =>
      rw [hget] at hm
      cases hm
      rfl
  cases resp with
  | success message =>
    obtain ⟨statusClass, hclass⟩ := getStatusClass_str rt newStatus
    simp only [statusSettled, hclass] at h
    rw [loadStatistics_tbody] at h
    rcases loadPreorders_tbody rt reloadList
        { st with
          tbody := modifyRow (fun row => { row with dropdownDisabled := false }) index
            (modifyRow
              (fun row => { row with dropdownClass := "status-dropdown ".toList ++ statusClass })
              index st.tbody) } with hsame | ⟨data, _, hrows⟩
    · rw [hsame] at h
      simp only at h
      rw [modifyRow_getElem] at h
      cases hget : (modifyRow (fun row =>
          { row with dropdownClass := "status-dropdown ".toList ++ statusClass })
          index st.tbody)[index]? with
      | none => rw [hget] at h; cases h
      | some r =>
        rw [hget] at h
        cases h
        rfl
    · obtain ⟨hlt, hrow⟩ := List.getElem?_eq_some_iff.mp h
      exact renderRows_enabled rt data _ hrows row (hrow ▸ List.getElem_mem hlt)
  | failure error => exact hfailed _ h
  | thrown message => exact hfailed _ h

/-- The table keeps its length through `statusSettled`, unless a successful update was
followed by a list reload that rendered the table anew. -/
theorem statusSettled_tbody (rt : Runtime) (index : Nat) (originalValue newStatus : JSString)
    (resp : ApiResponse) (reloadList : PreordersResponse) (reloadStats : StatsResponse)
    (st : Preorders) :
    (statusSettled rt index originalValue newStatus resp reloadList reloadStats
      st).tbody.length = st.tbody.length ∨
    ∃ message data, resp = .success message ∧ reloadList = .success data ∧
      renderRows rt data = .ok (statusSettled rt index originalValue newStatus resp reloadList
        reloadStats st).tbody := by
  cases resp with
  | success message =>
    obtain ⟨statusClass, hclass⟩ := getStatusClass_str rt newStatus
    simp only [statusSettled, hclass]
    rw [loadStatistics_tbody]
    rcases loadPreorders_tbody rt reloadList
        { st with
          tbody := modifyRow (fun row => { row with dropdownDisabled := false }) index
            (modifyRow
              (fun row => { row with dropdownClass := "status-dropdown ".toList ++ statusClass })
              index st.tbody) } with hsame | ⟨data, hdata, hrows⟩
    · left
      rw [hsame]
      simp only [modifyRow_length]
    · right
      exact ⟨message, data, rfl, hdata, hrows⟩
  | failure error =>
    left
    simp [statusSettled, modifyRow_length, requestFailed, Preorders.showError]
  | thrown message =>
    left
    simp [statusSettled, modifyRow_length, requestFailed, Preorders.showError]

/-! ## Preorders page: the body of a status change, proofs -/

theorem sentAs_orDefault (stored : Option Value) (fallback : Value) :
    sentAs stored fallback (orDefault stored fallback) := by
  constructor
  · intro h
    cases stored with
    | none => cases h
    | some v => simp only [orDefault, h, if_true]
  · intro h
    rcases h with h | h | h <;> subst h <;> rfl

/-- The effects of `updateStatus` on a known preorder whose dropdown is on the page start
with the request. -/
theorem updateStatus_log (rt : Runtime) (serialNumber newStatus : JSString)
    (resp : ApiResponse) (reloadList : PreordersResponse) (reloadStats : StatsResponse)
    (st : Preorders) (n : Int) (preorder : Record) (index : Nat) (dropdown : PreorderRow)
    (hserial : parseInt serialNumber = some n)
    (hknown : st.preorders.find? (sameSerial (some n)) = some preorder)
    (hdropdown : findDropdown (numberToString n) st.tbody = some (index, dropdown)) :
    ∃ more, issued st.log
        (updateStatus rt serialNumber newStatus resp reloadList reloadStats st).state.log
      = statusRequest n preorder newStatus :: more := by
  simp only [updateStatus, hserial, hknown, hdropdown]
  cases resp with
  | success message =>
    obtain ⟨statusClass, hclass⟩ := getStatusClass_str rt newStatus
    refine ⟨loadPreordersEffects rt reloadList ++ loadStatisticsEffects reloadStats, ?_⟩
    simp only [statusSettled, hclass]
    simp [issued, statusInFlight, loadStatistics_log, loadPreorders_log]
  | failure error =>
    exact ⟨[.consoleError (if error = [] then "Failed to update status".toList else error)],
      by simp [statusSettled, issued, statusInFlight, requestFailed, Preorders.showError]⟩
  | thrown message =>
    exact ⟨[.consoleError message],
      by simp [statusSettled, issued, statusInFlight, requestFailed, Preorders.showError]⟩

/-- C27 (counterexample): the stored preorder `1` has the empty text as its ETA and no
amounts.  A change of its status to `Shipped` sends the body with `eta: null`, which is
not the stored ETA: the body is built with `preorder.ETA || null`. -/
theorem updateStatus_empty_eta_counterexample :
    getProp [("S.No".toList, .num 1), ("Seller".toList, .str "Tarmac".toList),
             ("Models".toList, .str "Civic".toList), ("ETA".toList, .str [])] "ETA".toList
      = some (.str []) ∧
    issued
      (loadPreorders asciiRuntime
        (.success [[("S.No".toList, .num 1), ("Seller".toList, .str "Tarmac".toList),
                    ("Models".toList, .str "Civic".toList), ("ETA".toList, .str [])]]) {}).log
      (updateStatus asciiRuntime "1".toList "Shipped".toList (.thrown "offline".toList)
        (.thrown []) (.thrown [])
        (loadPreorders asciiRuntime
          (.success [[("S.No".toList, .num 1), ("Seller".toList, .str "Tarmac".toList),
                      ("Models".toList, .str "Civic".toList), ("ETA".toList, .str [])]])
          {})).state.log
      = [.fetch "PUT".toList "/api/preorders/1".toList
          (some (.preorder (.str "Tarmac".toList) (.str "Civic".toList) .null .null .null
            .null (.str "Shipped".toList))),
         .consoleError "offline".toList] := by
  decide

/-- C27 (amended): a call of `updateStatus` on a known preorder whose dropdown is on the
page first sends `PUT /api/preorders/<serial>` with a body whose `delivery_status` is the
new status.  Each other field of the body is the stored value when that value is truthy;
a missing, null or empty seller or models is sent as the empty text, and a missing, null
or empty ETA or amount is sent as null. -/
theorem updateStatus_body (rt : Runtime) (serialNumber newStatus : JSString)
    (resp : ApiResponse) (reloadList : PreordersResponse) (reloadStats : StatsResponse)
    (st : Preorders) (n : Int) (preorder : Record) (index : Nat) (dropdown : PreorderRow)
    (hserial : parseInt serialNumber = some n)
    (hknown : st.preorders.find? (sameSerial (some n)) = some preorder)
    (hdropdown : findDropdown (numberToString n) st.tbody = some (index, dropdown)) :
    ∃ seller models eta totalPrice poAmount onArrival more,
      issued st.log
          (updateStatus rt serialNumber newStatus resp reloadList reloadStats st).state.log
        = .fetch "PUT".toList ("/api/preorders/".toList ++ numberToString n)
            (some (.preorder seller models eta totalPrice poAmount onArrival
              (.str newStatus))) :: more ∧
      sentAs (getProp preorder "Seller".toList) (.str []) seller ∧
      sentAs (getProp preorder "Models".toList) (.str []) models ∧
      sentAs (getProp preorder "ETA".toList) .null eta ∧
      sentAs (getProp preorder "Total Price".toList) .null totalPrice ∧
      sentAs (getProp preorder "PO Amount".toList) .null poAmount ∧
      sentAs (getProp preorder "On Arrival Amount".toList) .null onArrival := by
  obtain ⟨more, hmore⟩ := updateStatus_log rt serialNumber newStatus resp reloadList
    reloadStats st n preorder index dropdown hserial hknown hdropdown
  exact ⟨_, _, _, _, _, _, more, hmore, sentAs_orDefault _ _, sentAs_orDefault _ _,
    sentAs_orDefault _ _, sentAs_orDefault _ _, sentAs_orDefault _ _, sentAs_orDefault _ _⟩

theorem updateStatus_body_witness :
    ∃ seller models eta totalPrice poAmount onArrival more,
      issued
          (loadPreorders asciiRuntime
            (.success [[("S.No".toList, .num 7), ("Seller".toList, .str "Tarmac".toList),
                        ("ETA".toList, .str "2025-03".toList),
                        ("Total Price".toList, .num 1500)]]) {}).log
          (updateStatus asciiRuntime "7".toList "Delivered".toList (.failure [])
            (.thrown []) (.thrown [])
            (loadPreorders asciiRuntime
              (.success [[("S.No".toList, .num 7), ("Seller".toList, .str "Tarmac".toList),
                          ("ETA".toList, .str "2025-03".toList),
                          ("Total Price".toList, .num 1500)]]) {})).state.log
        = .fetch "PUT".toList ("/api/preorders/".toList ++ numberToString 7)
            (some (.preorder seller models eta totalPrice poAmount onArrival
              (.str "Delivered".toList))) :: more ∧
      sentAs (getProp [("S.No".toList, .num 7), ("Seller".toList, .str "Tarmac".toList),
                       ("ETA".toList, .str "2025-03".toList),
                       ("Total Price".toList, .num 1500)] "Seller".toList) (.str []) seller ∧
      sentAs (getProp [("S.No".toList, .num 7), ("Seller".toList, .str "Tarmac".toList),
                       ("ETA".toList, .str "2025-03".toList),
                       ("Total Price".toList, .num 1500)] "Models".toList) (.str []) models ∧
      sentAs (getProp [("S.No".toList, .num 7), ("Seller".toList, .str "Tarmac".toList),
                       ("ETA".toList, .str "2025-03".toList),
                       ("Total Price".toList, .num 1500)] "ETA".toList) .null eta ∧
      sentAs (getProp [("S.No".toList, .num 7), ("Seller".toList, .str "Tarmac".toList),
                       ("ETA".toList, .str "2025-03".toList),
                       ("Total Price".toList, .num 1500)] "Total Price".toList) .null
        totalPrice ∧
      sentAs (getProp [("S.No".toList, .num 7), ("Seller".toList, .str "Tarmac".toList),
                       ("ETA".toList, .str "2025-03".toList),
                       ("Total Price".toList, .num 1500)] "PO Amount".toList) .null poAmount ∧
      sentAs (getProp [("S.No".toList, .num 7), ("Seller".toList, .str "Tarmac".toList),
                       ("ETA".toList, .str "2025-03".toList),
                       ("Total Price".toList, .num 1500)] "On Arrival Amount".toList) .null
        onArrival :=
  updateStatus_body asciiRuntime "7".toList "Delivered".toList (.failure []) (.thrown [])
    (.thrown [])
    (loadPreorders asciiRuntime
      (.success [[("S.No".toList, .num 7), ("Seller".toList, .str "Tarmac".toList),
                  ("ETA".toList, .str "2025-03".toList),
                  ("Total Price".toList, .num 1500)]]) {})
    7 [("S.No".toList, .num 7), ("Seller".toList, .str "Tarmac".toList),
       ("ETA".toList, .str "2025-03".toList), ("Total Price".toList, .num 1500)] 0
    { serial := "7".toList, seller := "Tarmac".toList, models := "N/A".toList,
      eta := "Mar 2025".toList, totalPrice := "₹1500".toList, poAmount := "N/A".toList,
      onArrival := "N/A".toList, dropdownClass := "status-dropdown status-pending".toList,
      dataSerial := "7".toList, dropdownValue := "Pending".toList }
    (by decide) (by decide) (by decide)

/-! ## Property reads: proofs -/

theorem readProp_of_not_inherited (row : Record) (column : JSString)
    (h : isInherited column = false) :
    readProp row column
      = match getProp row column with
        | some v => .own v
        | none => .undefined := by
  unfold isInherited at h
  simp only [Bool.or_eq_false_iff, decide_eq_false_iff_not] at h
  obtain ⟨⟨h1, h2⟩, h3⟩ := h
  unfold readProp
  cases getProp row column with
  | some v => rfl
  | none => simp only [if_neg h1, if_neg h2, if_neg h3]

/-- The property names that the preorders page and the two request bodies of the home
page read are not names of members of `Object.prototype`: for them `getProp` is the
read. -/
theorem fixed_names_not_inherited :
    ∀ c ∈ ["S.No".toList, "Seller".toList, "Models".toList, "ETA".toList,
        "Total Price".toList, "PO Amount".toList, "On Arrival Amount".toList,
        "Delivery Status".toList],
      isInherited c = false ∧
      ∀ row : Record, readProp row c
        = match getProp row c with
          | some v => .own v
          | none => .undefined := by
  intro c hc
  have h : isInherited c = false := by
    revert c
    decide
  exact ⟨h, fun row => readProp_of_not_inherited row c h⟩

theorem readProp_congr (r1 r2 : Record) (column : JSString)
    (h : getProp r1 column = getProp r2 column) : readProp r1 column = readProp r2 column := by
  unfold readProp
  rw [h]

theorem readProp_stringForm_of_not_inherited (row : Record) (column : JSString)
    (h : isInherited column = false) :
    (readProp row column).stringForm = stringForm (getProp row column) := by
  rw [readProp_of_not_inherited row column h]
  cases getProp row column <;> rfl

theorem readProp_prefill_of_not_inherited (row : Record) (column : JSString)
    (h : isInherited column = false) :
    (readProp row column).prefill = stringForm (getProp row column) := by
  rw [readProp_of_not_inherited row column h]
  cases getProp row column with
  | none => rfl
  | some v => exact prefill_eq_stringForm (some v)

theorem readProp_csvCell_of_not_inherited (row : Record) (column : JSString)
    (h : isInherited column = false) :
    (readProp row column).csvCell = csvCell (getProp row column) := by
  rw [readProp_of_not_inherited row column h]
  cases getProp row column <;> rfl

theorem stripLineBreaks_of_clean (s : JSString) (h : hasLineBreak s = false) :
    stripLineBreaks s = s := by
  unfold stripLineBreaks
  unfold hasLineBreak at h
  rw [List.filter_eq_self]
  intro c hc
  have := List.any_eq_false.mp h c hc
  simpa using this

/-! ## CSV export: the columns of the first record -/

/-- C29 (counterexample): the filtered view holds `{constructor: "x", A: "1"}` and then
`{A: "2"}`.  The second record has no key `constructor`, yet its cell under that column is
not empty: the read `row['constructor']` finds the function `Object` that every record
inherits, and its source text is exported. -/
theorem exportCSV_inherited_key_counterexample :
    getProp [("A".toList, .str "2".toList)] "constructor".toList = none ∧
    (exportCSV "2024-05-01".toList
        { filteredData := [[("constructor".toList, .str "x".toList),
                            ("A".toList, .str "1".toList)],
                           [("A".toList, .str "2".toList)]] }).log
      = [.download "diecast_collection_2024-05-01.csv".toList
          ("\"constructor\",\"A\"\n\"x\",\"1\"\n" ++
            "\"function Object() \x7b [native code] \x7d\",\"2\"").toList] := by
  decide

/-- C29 (as amended): for a non-empty `filteredData` the text that `exportCSV` downloads is
made of lines of cells, joined by commas and line feeds, whose columns are the keys of the
first record alone: every line has as many cells as the first record has keys; the cells
of a record depend only on what it holds under those keys, so a key that only a later
record has is not exported; and under a key that is not the name of a member of
`Object.prototype`, a record that lacks the key gives the empty cell `""`, as a null or
empty-string value does. -/
theorem exportCSV_columns_of_first (isoDate : JSString) (st : Tracker) (first : Record)
    (rest : List Record) (h : st.filteredData = first :: rest) :
    (exportCSV isoDate st).log = st.log ++
      [.download ("diecast_collection_".toList ++ isoDate ++ ".csv".toList)
        (join "\n".toList ((csvCells first (first :: rest)).map (join ",".toList)))] ∧
    (csvCells first (first :: rest)).length = (first :: rest).length + 1 ∧
    (∀ line ∈ csvCells first (first :: rest), line.length = (keys first).length) ∧
    (∀ r1 r2 : Record, (∀ c ∈ keys first, getProp r1 c = getProp r2 c) →
      csvCells first [r1] = csvCells first [r2]) ∧
    (∀ (r : Record) (c : JSString), isInherited c = false →
      getProp r c = none ∨ getProp r c = some .null ∨ getProp r c = some (.str []) →
      (readProp r c).csvCell = "\"\"".toList) := by
  refine ⟨?_, ?_, ?_, ?_, ?_⟩
  · simp only [exportCSV, h, csvText_eq_csvCells]
  · simp [csvCells]
  · intro line hline
    unfold csvCells at hline
    rcases List.mem_cons.mp hline with hl | hl
    · rw [hl, List.length_map]
    · obtain ⟨row, _, rfl⟩ := List.mem_map.mp hl
      rw [List.length_map]
  · intro r1 r2 hsame
    unfold csvCells
    simp only [List.map_cons, List.map_nil, List.cons.injEq, true_and, and_true]
    apply List.map_congr_left
    intro c hc
    rw [readProp_congr r1 r2 c (hsame c hc)]
  · intro r c hc hempty
    rw [readProp_csvCell_of_not_inherited r c hc]
    exact csvCell_empty _ hempty

theorem exportCSV_columns_of_first_witness :
    (exportCSV "2024-05-01".toList
        { filteredData := [[("A".toList, .str "1".toList), ("B".toList, .null)],
                           [("A".toList, .str "2".toList), ("C".toList, .str "3".toList)]] }).log
      = [.download "diecast_collection_2024-05-01.csv".toList
          "\"A\",\"B\"\n\"1\",\"\"\n\"2\",\"\"".toList] :=
  (exportCSV_columns_of_first "2024-05-01".toList
    { filteredData := [[("A".toList, .str "1".toList), ("B".toList, .null)],
                       [("A".toList, .str "2".toList), ("C".toList, .str "3".toList)]] }
    [("A".toList, .str "1".toList), ("B".toList, .null)]
    [[("A".toList, .str "2".toList), ("C".toList, .str "3".toList)]] rfl).1.trans (by decide)

/-! ## Edit modal: the inputs -/

theorem editInputs_fields (columns : List JSString) (row : Record) :
    ∀ f ∈ editInputs columns row,
      f.value = stripLineBreaks (readProp row f.name).prefill ∧ f.id = safeId f.name := by
  intro f hf
  unfold editInputs at hf
  rw [List.mem_filterMap] at hf
  obtain ⟨column, _, hcol⟩ := hf
  split at hcol
  · exact absurd hcol (by simp)
  · have h := Option.some.inj hcol
    subst h
    exact ⟨rfl, rfl⟩

/-- C12 (counterexample): the record `{S.No: 1, Notes: "line1\nline2"}` is edited.  The
input `Notes` holds `line1line2`, not the string form of the record's value: the input is
of type `text`, which drops the line feed from the value assigned to it. -/
theorem showEditModal_line_break_counterexample :
    (showEditModal [("S.No".toList, .num 1), ("Notes".toList, .str "line1\nline2".toList)]
        {}).editFields
      = [{ id := "edit-Notes".toList, name := "Notes".toList, value := "line1line2".toList }] ∧
    stringForm (getProp [("S.No".toList, .num 1), ("Notes".toList, .str "line1\nline2".toList)]
        "Notes".toList) = "line1\nline2".toList := by
  decide

/-- C12 (as amended): `showEditModal` builds one input of type `text` per distinct column
name of the declared columns and of the record's own keys that is neither blank nor
`S.No`: the declared columns come first, then the keys only the row has, each name once.
An input carries its column as name and holds what `row[column]` gives through `String`,
without its line breaks; for a column that is not the name of a member of
`Object.prototype` that is the string form of the record's value without its line breaks,
the empty string when the value is null or missing. -/
theorem showEditModal_inputs (row : Record) (st : Tracker) :
    (showEditModal row st).editFields.map (fun f => f.name)
      = (firstOccurrences st.columns ++
          (firstOccurrences (keys row)).filter fun c => decide (c ∉ st.columns)).filter
          (fun c => !isBlank c && decide (c ≠ "S.No".toList)) ∧
    ((showEditModal row st).editFields.map fun f => f.name).Nodup ∧
    (∀ c, c ∈ (showEditModal row st).editFields.map (fun f => f.name) ↔
      (c ∈ st.columns ∨ c ∈ keys row) ∧ isBlank c = false ∧ c ≠ "S.No".toList) ∧
    (∀ f ∈ (showEditModal row st).editFields,
      f.value = stripLineBreaks (readProp row f.name).prefill ∧ f.id = safeId f.name) ∧
    (∀ f ∈ (showEditModal row st).editFields, isInherited f.name = false →
      f.value = stripLineBreaks (stringForm (getProp row f.name))) := by
  have hfields : (showEditModal row st).editFields = editInputs st.columns row := rfl
  rw [hfields, editInputs_names, firstOccurrences_append]
  refine ⟨rfl, (nodup_firstOccurrences _ |>.append ?_ ?_).filter _, ?_,
    editInputs_fields st.columns row, ?_⟩
  · exact (nodup_firstOccurrences _).filter _
  · intro c hc1 hc2
    rw [mem_firstOccurrences] at hc1
    rw [List.mem_filter] at hc2
    exact absurd hc1 (by simpa using hc2.2)
  · intro c
    rw [← firstOccurrences_append, List.mem_filter, mem_firstOccurrences, List.mem_append]
    simp
  · intro f hf hname
    rw [(editInputs_fields st.columns row f hf).1, readProp_prefill_of_not_inherited row _ hname]

/-! ## Edit diff: the update set -/

theorem setOwn_of_not_mem (obj : List (JSString × JSString)) (key value : JSString)
    (h : key ∉ obj.map Prod.fst) : setOwn obj key value = obj ++ [(key, value)] := by
  induction obj with
  | nil => rfl
  | cons kv rest ih =>
    obtain ⟨k, v⟩ := kv
    have hk : k ≠ key := fun hk => h (by simp [hk])
    have hrest : key ∉ rest.map Prod.fst := fun hm => h (by simp at hm ⊢; exact Or.inr hm)
    simp [setOwn, hk, ih hrest]

theorem diffStep_of_not_mem (row : Record) (acc : List (JSString × JSString))
    (e : JSString × JSString) (h : e.1 ∉ acc.map Prod.fst) :
    diffStep row acc e = if entryChanged row e = true then acc ++ [(e.1, trim e.2)] else acc := by
  unfold diffStep entryChanged isBlank setProp
  generalize "S.No".toList = sno
  generalize "__proto__".toList = proto
  by_cases h1 : e.1 = sno
  · simp [h1]
  · by_cases h2 : e.1 = []
    · simp [h2]
    · by_cases h3 : trim e.1 = []
      · simp [h3]
      · by_cases h4 : trim e.2 = oldValue row e.1
        · simp [h1, h2, h3, h4]
        · by_cases h5 : e.1 = proto
          · simp [h1, h2, h3, h4, h5]
          · simp [h1, h2, h3, h4, h5, setOwn_of_not_mem acc e.1 (trim e.2) h]

theorem foldl_diffStep_of_nodup (row : Record) (entries : List (JSString × JSString))
    (acc : List (JSString × JSString)) (hnd : (entries.map Prod.fst).Nodup)
    (hacc : ∀ e ∈ entries, e.1 ∉ acc.map Prod.fst) :
    entries.foldl (diffStep row) acc
      = acc ++ (entries.filter (entryChanged row)).map fun e => (e.1, trim e.2) := by
  induction entries generalizing acc with
  | nil => simp
  | cons e es ih =>
    have he : e.1 ∉ acc.map Prod.fst := hacc e (List.mem_cons_self e es)
    rw [List.map_cons, List.nodup_cons] at hnd
    rw [List.foldl_cons, diffStep_of_not_mem row acc e he]
    have hes : ∀ x ∈ es, x.1 ∉ acc.map Prod.fst := fun x hx =>
      hacc x (List.mem_cons_of_mem e hx)
    by_cases hc : entryChanged row e = true
    · have hacc1 : ∀ x ∈ es, x.1 ∉ (acc ++ [(e.1, trim e.2)]).map Prod.fst := by
        intro x hx hm
        rw [List.map_append, List.mem_append] at hm
        rcases hm with hm | hm
        · exact hes x hx hm
        · simp at hm
          exact hnd.1 (hm ▸ List.mem_map_of_mem Prod.fst hx)
      simp [hc, ih _ hnd.2 hacc1, List.filter_cons]
    · simp [hc, ih _ hnd.2 hes, List.filter_cons]

theorem computeUpdates_of_nodup (row : Record) (entries : List (JSString × JSString))
    (hnd : (entries.map Prod.fst).Nodup) :
    computeUpdates row entries
      = (entries.filter (entryChanged row)).map fun e => (e.1, trim e.2) := by
  unfold computeUpdates
  rw [foldl_diffStep_of_nodup row entries [] hnd (by simp)]
  simp

theorem oldValue_of_not_inherited (row : Record) (name : JSString)
    (h : isInherited name = false) :
    oldValue row name = trim (stringForm (getProp row name)) := by
  unfold oldValue
  rw [readProp_of_not_inherited row name h]
  cases getProp row name with
  | none => rfl
  | some v => cases v <;> rfl

theorem ne_proto_of_not_inherited (name : JSString) (h : isInherited name = false) :
    name ≠ "__proto__".toList := by
  unfold isInherited at h
  simp only [Bool.or_eq_false_iff, decide_eq_false_iff_not] at h
  exact h.1.1

theorem formEntries_names (form : List EditInput) :
    (formEntries form).map Prod.fst = form.map fun f => f.name := by
  unfold formEntries
  rw [List.map_map]
  rfl

theorem editInputs_names_nodup (columns : List JSString) (row : Record) :
    ((editInputs columns row).map fun f => f.name).Nodup := by
  rw [editInputs_names]
  exact (nodup_firstOccurrences _).filter _

theorem editInputs_name_facts (columns : List JSString) (row : Record) (name : JSString)
    (h : name ∈ (editInputs columns row).map fun f => f.name) :
    isBlank name = false ∧ name ≠ "S.No".toList := by
  rw [editInputs_names, List.mem_filter] at h
  simpa using h.2

/-- C4 (counterexample): the record `{S.No: 1, A: "1"}` is edited while the declared
columns are `A` and `constructor`.  The form `showEditModal` builds has the inputs `A` and
`constructor`, the second filled with the source text of the inherited function `Object`.
The user clears that input and submits.  The record has no value under `constructor`, so
its old value counts as the empty string and equals the new one, yet the update set is
`{constructor: ""}` and the request is sent. -/
theorem handleEditSubmit_inherited_name_counterexample :
    (editModel [("S.No".toList, .num 1), ("A".toList, .str "1".toList)]
        { columns := ["A".toList, "constructor".toList] }).editFields
      = [{ id := "edit-A".toList, name := "A".toList, value := "1".toList },
         { id := "edit-constructor".toList, name := "constructor".toList,
           value := "function Object() \x7b [native code] \x7d".toList }] ∧
    getProp [("S.No".toList, .num 1), ("A".toList, .str "1".toList)] "constructor".toList
      = none ∧
    trim [] = trim (stringForm
      (getProp [("S.No".toList, .num 1), ("A".toList, .str "1".toList)] "constructor".toList)) ∧
    (handleEditSubmit
        (formEntries
          [{ id := "edit-A".toList, name := "A".toList, value := "1".toList },
           { id := "edit-constructor".toList, name := "constructor".toList, value := [] }])
        (.failure "busy".toList) (.thrown [])
        (editModel [("S.No".toList, .num 1), ("A".toList, .str "1".toList)]
          { columns := ["A".toList, "constructor".toList] })).log
      = [.fetch "PUT".toList "/api/update-model".toList
          (some (.updateModel (some (.num 1)) [("constructor".toList, [])])),
         .alert "Error: busy".toList] := by
  decide

/-- C4 (as amended): the record `row` is being edited and the form is submitted with the
inputs that `showEditModal` built for it, whatever values they hold.  Among the names
that are not names of members of `Object.prototype`, the update set holds exactly the
submitted columns whose trimmed new value differs from the trimmed string form of the
record's old value, a null or missing old value counting as the empty string, each mapped
to its trimmed new value.  Every entry of the update set is a submitted column with its
trimmed value, `S.No` is never one, and no name occurs twice.  A non-empty update set is
sent first, keyed by `record['S.No']`.  For `{A: "1", B: "2"}` and `{A: "1", B: "3"}` the
update set is `{B: "3"}`. -/
theorem handleEditSubmit_update_set (row : Record) (columns : List JSString)
    (form : List EditInput) (resp : ApiResponse) (reload : DataResponse) (st : Tracker)
    (hrow : st.currentEditingRow = some row)
    (hform : form.map (fun f => f.name) = (editInputs columns row).map fun f => f.name) :
    (∀ name value, isInherited name = false →
      ((name, value) ∈ computeUpdates row (formEntries form) ↔
        ∃ f ∈ form, f.name = name ∧ value = trim f.value ∧
          trim f.value ≠ trim (stringForm (getProp row name)))) ∧
    (∀ name value, (name, value) ∈ computeUpdates row (formEntries form) →
      name ≠ "S.No".toList ∧ ∃ f ∈ form, f.name = name ∧ value = trim f.value) ∧
    ((computeUpdates row (formEntries form)).map Prod.fst).Nodup ∧
    (computeUpdates row (formEntries form) ≠ [] →
      (issued st.log (handleEditSubmit (formEntries form) resp reload st).log).head?
        = some (.fetch "PUT".toList "/api/update-model".toList
            (some (.updateModel (getProp row "S.No".toList)
              (computeUpdates row (formEntries form)))))) ∧
    computeUpdates [("A".toList, .str "1".toList), ("B".toList, .str "2".toList)]
        [("A".toList, "1".toList), ("B".toList, "3".toList)]
      = [("B".toList, "3".toList)] := by
  have hnd : ((formEntries form).map Prod.fst).Nodup := by
    rw [formEntries_names, hform]
    exact editInputs_names_nodup columns row
  have hfacts : ∀ f ∈ form, isBlank f.name = false ∧ f.name ≠ "S.No".toList := by
    intro f hf
    apply editInputs_name_facts columns row
    rw [← hform]
    exact List.mem_map_of_mem _ hf
  have hmem : ∀ name value, (name, value) ∈ computeUpdates row (formEntries form) ↔
      ∃ f ∈ form, entryChanged row (f.name, f.value) = true ∧ f.name = name ∧
        trim f.value = value := by
    intro name value
    rw [computeUpdates_of_nodup row _ hnd]
    simp only [formEntries, List.mem_map, List.mem_filter, Prod.mk.injEq]
    constructor
    · rintro ⟨e, ⟨⟨f, hf, rfl⟩, hch⟩, h1, h2⟩
      exact ⟨f, hf, hch, h1, h2⟩
    · rintro ⟨f, hf, hch, h1, h2⟩
      exact ⟨(f.name, f.value), ⟨⟨f, hf, rfl⟩, hch⟩, h1, h2⟩
  refine ⟨?_, ?_, ?_, ?_, by decide⟩
  · intro name value hname
    rw [hmem]
    constructor
    · rintro ⟨f, hf, hch, h1, h2⟩
      refine ⟨f, hf, h1, h2.symm, ?_⟩
      unfold entryChanged at hch
      simp only [Bool.and_eq_true, decide_eq_true_eq] at hch
      rw [← oldValue_of_not_inherited row name hname, ← h1]
      exact hch.1.2
    · rintro ⟨f, hf, h1, h2, h3⟩
      refine ⟨f, hf, ?_, h1, h2.symm⟩
      obtain ⟨hb, hs⟩ := hfacts f hf
      unfold entryChanged
      simp only [Bool.and_eq_true, decide_eq_true_eq, Bool.not_eq_true']
      refine ⟨⟨⟨hs, hb⟩, ?_⟩, ?_⟩
      · rw [h1, oldValue_of_not_inherited row name hname]
        exact h3
      · rw [h1]
        exact ne_proto_of_not_inherited name hname
  · intro name value hin
    obtain ⟨f, hf, _, h1, h2⟩ := (hmem name value).mp hin
    exact ⟨h1 ▸ (hfacts f hf).2, f, hf, h1, h2.symm⟩
  · rw [computeUpdates_of_nodup row _ hnd, List.map_map]
    have hsub : (List.map (Prod.fst ∘ fun e : JSString × JSString => (e.1, trim e.2))
        ((formEntries form).filter (entryChanged row))).Sublist
        ((formEntries form).map Prod.fst) := by
      have : (Prod.fst ∘ fun e : JSString × JSString => (e.1, trim e.2)) = Prod.fst := rfl
      rw [this]
      exact (List.filter_sublist _).map _
    exact hnd.sublist hsub
  · intro hne
    obtain ⟨more, hmore⟩ :=
      handleEditSubmit_log_of_changes row (formEntries form) resp reload st hrow hne
    rw [hmore, issued_append]
    rfl

theorem handleEditSubmit_update_set_witness :
    (issued [] (handleEditSubmit
        [("A".toList, "1".toList), ("B".toList, " 3 ".toList)] (.failure "busy".toList)
        (.thrown [])
        { currentEditingRow := some [("S.No".toList, .num 7), ("A".toList, .str "1".toList),
            ("B".toList, .str "2".toList)] }).log).head?
      = some (.fetch "PUT".toList "/api/update-model".toList
          (some (.updateModel (some (.num 7)) [("B".toList, "3".toList)]))) :=
  ((handleEditSubmit_update_set
      [("S.No".toList, .num 7), ("A".toList, .str "1".toList), ("B".toList, .str "2".toList)]
      []
      [{ id := "edit-A".toList, name := "A".toList, value := "1".toList },
       { id := "edit-B".toList, name := "B".toList, value := " 3 ".toList }]
      (.failure "busy".toList) (.thrown [])
      { currentEditingRow := some [("S.No".toList, .num 7), ("A".toList, .str "1".toList),
          ("B".toList, .str "2".toList)] } rfl (by decide)).2.2.2.1 (by decide)).trans
    (by decide)

/-! ## Edit diff: the unchanged form -/

theorem oldValue_eq_trim_prefill (row : Record) (name : JSString) :
    oldValue row name = trim (readProp row name).prefill := by
  unfold oldValue
  cases readProp row name with
  | own v => cases v <;> rfl
  | method fn => rfl
  | prototype => rfl
  | undefined => rfl

theorem diffStep_prefilled (row : Record) (acc : List (JSString × JSString))
    (e : JSString × JSString) (he : e.2 = (readProp row e.1).prefill) :
    diffStep row acc e = acc := by
  unfold diffStep
  simp [he, oldValue_eq_trim_prefill]

theorem foldl_diffStep_prefilled (row : Record) (entries : List (JSString × JSString))
    (acc : List (JSString × JSString))
    (h : ∀ e ∈ entries, e.2 = (readProp row e.1).prefill) :
    entries.foldl (diffStep row) acc = acc := by
  induction entries with
  | nil => rfl
  | cons e es ih =>
    rw [List.foldl_cons, diffStep_prefilled row acc e (h e (List.mem_cons_self e es))]
    exact ih fun x hx => h x (List.mem_cons_of_mem e hx)

theorem editInputs_name_mem (columns : List JSString) (row : Record) (f : EditInput)
    (hf : f ∈ editInputs columns row) : f.name ∈ columns ++ keys row := by
  have h : f.name ∈ (editInputs columns row).map fun f => f.name := List.mem_map_of_mem _ hf
  rw [editInputs_names, List.mem_filter, mem_firstOccurrences] at h
  exact h.1

theorem formEntries_editInputs_prefilled (columns : List JSString) (row : Record)
    (hclean : ∀ c ∈ columns ++ keys row, hasLineBreak (readProp row c).prefill = false) :
    ∀ e ∈ formEntries (editInputs columns row), e.2 = (readProp row e.1).prefill := by
  intro e he
  unfold formEntries at he
  rw [List.mem_map] at he
  obtain ⟨f, hf, rfl⟩ := he
  show f.value = (readProp row f.name).prefill
  rw [(editInputs_fields columns row f hf).1]
  exact stripLineBreaks_of_clean _ (hclean f.name (editInputs_name_mem columns row f hf))

/-- C5 (counterexample): the record `{S.No: 1, Notes: "line1\nline2"}` is edited and the
form is submitted as `showEditModal` filled it.  The input `Notes` holds `line1line2`,
since an input of type `text` drops the line feed, so the diff is `{Notes: "line1line2"}`
and the update request is sent. -/
theorem handleEditSubmit_line_break_counterexample :
    (editModel [("S.No".toList, .num 1), ("Notes".toList, .str "line1\nline2".toList)]
        {}).editFields
      = [{ id := "edit-Notes".toList, name := "Notes".toList, value := "line1line2".toList }] ∧
    computeUpdates [("S.No".toList, .num 1), ("Notes".toList, .str "line1\nline2".toList)]
        (formEntries
          (editModel [("S.No".toList, .num 1), ("Notes".toList, .str "line1\nline2".toList)]
            {}).editFields)
      = [("Notes".toList, "line1line2".toList)] ∧
    (handleEditSubmit
        (formEntries
          (editModel [("S.No".toList, .num 1), ("Notes".toList, .str "line1\nline2".toList)]
            {}).editFields)
        (.failure "busy".toList) (.thrown [])
        (editModel [("S.No".toList, .num 1), ("Notes".toList, .str "line1\nline2".toList)]
          {})).log
      = [.fetch "PUT".toList "/api/update-model".toList
          (some (.updateModel (some (.num 1)) [("Notes".toList, "line1line2".toList)])),
         .alert "Error: busy".toList] := by
  decide

/-- C5 (as amended): when none of the values that `showEditModal` fills the form with
holds a line feed or a carriage return, the form submitted exactly as it was filled gives
an empty diff, whatever the record and the declared columns; and whenever the diff is
empty `handleEditSubmit` changes nothing but the log, to which it adds the one notice
`No changes to save`: no request is issued. -/
theorem handleEditSubmit_unchanged_form (row : Record) (resp : ApiResponse)
    (reload : DataResponse) (st : Tracker)
    (hclean : ∀ c ∈ st.columns ++ keys row,
      hasLineBreak (readProp row c).prefill = false) :
    computeUpdates row (formEntries (editModel row st).editFields) = [] ∧
    handleEditSubmit (formEntries (editModel row st).editFields) resp reload (editModel row st)
      = { editModel row st with
          log := (editModel row st).log ++ [.alert "No changes to save".toList] } ∧
    ∀ (entries : List (JSString × JSString)) (st1 : Tracker),
      st1.currentEditingRow = some row → computeUpdates row entries = [] →
      handleEditSubmit entries resp reload st1
        = { st1 with log := st1.log ++ [.alert "No changes to save".toList] } := by
  have h1 : computeUpdates row (formEntries (editModel row st).editFields) = [] :=
    foldl_diffStep_prefilled row _ [] (formEntries_editInputs_prefilled st.columns row hclean)
  exact ⟨h1, handleEditSubmit_of_no_changes row _ resp reload _ rfl h1,
    fun entries st1 hrow hnil => handleEditSubmit_of_no_changes row entries resp reload st1 hrow hnil⟩

theorem handleEditSubmit_unchanged_form_witness :
    handleEditSubmit
        (formEntries (editModel [("S.No".toList, .num 3),
            ("Model".toList, .str " Mustang ".toList), ("Year".toList, .num 1967)]
          { columns := ["Model".toList, "Colour".toList] }).editFields)
        (.success "saved".toList) (.thrown [])
        (editModel [("S.No".toList, .num 3),
            ("Model".toList, .str " Mustang ".toList), ("Year".toList, .num 1967)]
          { columns := ["Model".toList, "Colour".toList] })
      = { editModel [("S.No".toList, .num 3),
            ("Model".toList, .str " Mustang ".toList), ("Year".toList, .num 1967)]
          { columns := ["Model".toList, "Colour".toList] } with
          log := [.alert "No changes to save".toList] } :=
  (handleEditSubmit_unchanged_form
      [("S.No".toList, .num 3), ("Model".toList, .str " Mustang ".toList),
        ("Year".toList, .num 1967)]
      (.success "saved".toList) (.thrown [])
      { columns := ["Model".toList, "Colour".toList] } (by decide)).2.1

/-! ## Preorders page: the ETA cell of a text that is no year and month -/

theorem takeUnits_append (pre rest : JSString) :
    takeUnits (jsLength pre) (pre ++ rest) = pre := by
  induction pre with
  | nil => exact takeUnits_zero rest
  | cons c cs ih =>
    have hlen : jsLength (c :: cs) = utf16Units c + jsLength cs := by
      simp [jsLength]
    rw [hlen, List.cons_append]
    cases hrest : cs ++ rest with
    | nil =>
      have hcs : cs = [] := (List.append_eq_nil.mp hrest).1
      subst hcs
      simp [takeUnits, jsLength]
    | cons d ds =>
      rw [← hrest]
      unfold takeUnits
      rw [if_pos (Nat.le_add_right _ _), Nat.add_sub_cancel_left, ih]

/-- C15 (failing input): the stored ETA is `December 2025`, which does not match the
year-month pattern; each of its characters is one code unit and it holds no markup.  The
ETA cell of the row reads `Decembe`, the first seven characters, not the stored ETA: the
fallback of the cell returns `etaMonth`, the text cut for the pattern test, instead of
the ETA itself. -/
theorem etaCell_truncated :
    matchesYearMonth (etaMonth "December 2025".toList) = false ∧
    matchesYearMonth "December 2025".toList = false ∧
    "December 2025".toList.all (fun c => utf16Units c == 1) = true ∧
    holdsMarkup "December 2025".toList = false ∧
    renderRow asciiRuntime
        [("S.No".toList, .num 1), ("ETA".toList, .str "December 2025".toList)]
      = .ok { serial := "1".toList, seller := "N/A".toList, models := "N/A".toList,
              eta := "Decembe".toList, totalPrice := "N/A".toList,
              poAmount := "N/A".toList, onArrival := "N/A".toList,
              dropdownClass := "status-dropdown status-pending".toList,
              dataSerial := "1".toList, dropdownValue := "Pending".toList,
              dropdownDisabled := false } ∧
    (loadPreorders asciiRuntime
        (.success [[("S.No".toList, .num 1), ("ETA".toList, .str "December 2025".toList)]])
        {}).tbody.map (fun row => row.eta) = ["Decembe".toList] := by
  decide

/-! ## Loading: the indicator -/

/-- C22: while the request of `loadData` is in flight the loading indicator is shown, and
the request is the only effect so far; for a success answer, a `success: false` answer
and a transport or parse failure alike, `loadData` ends without throwing and with the
indicator hidden; after a success answer the cache is the data of the answer and
`filteredData` equals the cache. -/
theorem loadData_clears_loading (resp : DataResponse) (st : Tracker) :
    (∃ inFlight, (loadDataRun resp st).pending = some inFlight ∧
      inFlight.loadingShown = true ∧
      issued st.log inFlight.log = [.fetch "GET".toList "/api/data".toList none]) ∧
    (loadDataRun resp st).thrown = none ∧
    (loadDataRun resp st).state.loadingShown = false ∧
    loadData resp st = (loadDataRun resp st).state ∧
    (∀ data columns total,
      (loadDataRun (.success data columns total) st).state.currentData = data ∧
      (loadDataRun (.success data columns total) st).state.filteredData = data) := by
  refine ⟨⟨_, rfl, rfl, ?_⟩, rfl, ?_, rfl, ?_⟩
  · simp [issued, hideError, showLoading]
  · cases resp <;> rfl
  · intro data columns total
    simp [loadDataRun, hideLoading, renderTable_currentData, renderTable_filteredData,
      updateStats, updateFilteredCount]

/-! ## Preorders page: two confirmations before a deletion -/

/-- C21: `deletePreorder` sends a `DELETE` request exactly when the preorder is known and
both `confirm` dialogs are accepted.  The effects then start with the first question, the
second question, whose text is `Final confirmation: Type "DELETE" to confirm deletion.`,
and the request `DELETE /api/preorders/<serial>`, in this order, and no other `DELETE`
request follows.  For an unknown preorder, or when either dialog is declined, no request
is sent. -/
theorem deletePreorder_request_iff (rt : Runtime) (serialNumber : JSString)
    (accept1 accept2 : Bool) (resp : ApiResponse) (reloadList : PreordersResponse)
    (reloadStats : StatsResponse) (st : Preorders) :
    (sendsDeleteRequest (issued st.log
        (deletePreorder rt serialNumber accept1 accept2 resp reloadList reloadStats st).log)
        = true ↔
      (∃ preorder, st.preorders.find? (fun p => decide
        (templateText (getProp p "S.No".toList) = serialText (parseInt serialNumber)))
          = some preorder) ∧ accept1 = true ∧ accept2 = true) ∧
    (∀ preorder, st.preorders.find? (fun p => decide
        (templateText (getProp p "S.No".toList) = serialText (parseInt serialNumber)))
          = some preorder → accept1 = true → accept2 = true →
      ∃ more, sendsDeleteRequest more = false ∧
        issued st.log
            (deletePreorder rt serialNumber accept1 accept2 resp reloadList reloadStats st).log
          = .confirm (deleteQuestion (parseInt serialNumber) preorder) ::
              .confirm finalQuestion ::
              .fetch "DELETE".toList
                ("/api/preorders/".toList ++ serialText (parseInt serialNumber)) none ::
              more) ∧
    finalQuestion = "Final confirmation: Type \"DELETE\" to confirm deletion.".toList := by
  obtain ⟨hnone, hsome⟩ :=
    deletePreorder_log rt serialNumber accept1 accept2 resp reloadList reloadStats st
  refine ⟨?_, ?_, rfl⟩
  · cases hfind : st.preorders.find? (fun p => decide
        (templateText (getProp p "S.No".toList) = serialText (parseInt serialNumber))) with
    | none =>
      rw [hnone hfind, issued_self]
      constructor
      · intro h
        cases h
      · rintro ⟨⟨preorder, hp⟩, _, _⟩
        cases hp
    | some preorder =>
      obtain ⟨more, hmore, hlog⟩ := hsome preorder hfind
      rw [hlog]
      cases accept1 with
      | false =>
        constructor
        · intro h
          simp [sendsDeleteRequest] at h
        · rintro ⟨_, h, _⟩
          cases h
      | true =>
        cases accept2 with
        | false =>
          constructor
          · intro h
            simp [sendsDeleteRequest] at h
          · rintro ⟨_, _, h⟩
            cases h
        | true =>
          constructor
          · intro _
            exact ⟨⟨preorder, rfl⟩, rfl, rfl⟩
          · intro _
            simp [sendsDeleteRequest, deletePreorderRequest]
  · intro preorder hfind h1 h2
    subst h1 h2
    obtain ⟨more, hmore, hlog⟩ := hsome preorder hfind
    exact ⟨more, hmore, by simpa [deletePreorderRequest] using hlog⟩

theorem deletePreorder_request_iff_witness :
    sendsDeleteRequest (issued [] (deletePreorder asciiRuntime "1".toList true true
        (.failure "locked".toList) (.thrown []) (.thrown [])
        { preorders := [[("S.No".toList, .num 1), ("Seller".toList, .str "Tarmac".toList),
                         ("Models".toList, .str "Civic".toList)]] }).log) = true ∧
    issued [] (deletePreorder asciiRuntime "1".toList true true (.failure "locked".toList)
        (.thrown []) (.thrown [])
        { preorders := [[("S.No".toList, .num 1), ("Seller".toList, .str "Tarmac".toList),
                         ("Models".toList, .str "Civic".toList)]] }).log
      = [.confirm ("Are you sure you want to delete preorder #1?\n\nSeller: Tarmac\n" ++
            "Models: Civic\n\nThis action cannot be undone.").toList,
         .confirm "Final confirmation: Type \"DELETE\" to confirm deletion.".toList,
         .fetch "DELETE".toList "/api/preorders/1".toList none,
         .consoleError "locked".toList] ∧
    sendsDeleteRequest (deletePreorder asciiRuntime "1".toList true false
        (.failure "locked".toList) (.thrown []) (.thrown [])
        { preorders := [[("S.No".toList, .num 1), ("Seller".toList, .str "Tarmac".toList),
                         ("Models".toList, .str "Civic".toList)]] }).log = false :=
  ⟨(deletePreorder_request_iff asciiRuntime "1".toList true true (.failure "locked".toList)
      (.thrown []) (.thrown [])
      { preorders := [[("S.No".toList, .num 1), ("Seller".toList, .str "Tarmac".toList),
                       ("Models".toList, .str "Civic".toList)]] }).1.mpr
      ⟨⟨[("S.No".toList, .num 1), ("Seller".toList, .str "Tarmac".toList),
          ("Models".toList, .str "Civic".toList)], by decide⟩, rfl, rfl⟩,
    by decide, by decide⟩

/-! ## Preorders page: the dropdown during a status change -/

/-- C26: a call of `updateStatus` on a known preorder whose dropdown is on the page.
While its request is in flight the dropdown is disabled, and the request is the only
effect so far.  Whatever the answer (success, `success: false` or a transport error) and
whatever the answers to the reloads, `updateStatus` ends without throwing and the dropdown
at that place is enabled; the table still has that place unless a successful update was
followed by a reload that rendered the table anew, and every row of a table rendered anew
is enabled. -/
theorem updateStatus_dropdown_disabled_then_enabled (rt : Runtime)
    (serialNumber newStatus : JSString) (resp : ApiResponse) (reloadList : PreordersResponse)
    (reloadStats : StatsResponse) (st : Preorders) (n : Int) (preorder : Record)
    (index : Nat) (dropdown : PreorderRow)
    (hserial : parseInt serialNumber = some n)
    (hknown : st.preorders.find? (sameSerial (some n)) = some preorder)
    (hdropdown : findDropdown (numberToString n) st.tbody = some (index, dropdown)) :
    (∃ inFlight,
      (updateStatus rt serialNumber newStatus resp reloadList reloadStats st).pending
        = some inFlight ∧
      inFlight.tbody[index]? = some { dropdown with dropdownDisabled := true } ∧
      issued st.log inFlight.log = [statusRequest n preorder newStatus]) ∧
    (updateStatus rt serialNumber newStatus resp reloadList reloadStats st).thrown = none ∧
    (∀ row, (updateStatus rt serialNumber newStatus resp reloadList reloadStats
        st).state.tbody[index]? = some row → row.dropdownDisabled = false) ∧
    ((∃ row, (updateStatus rt serialNumber newStatus resp reloadList reloadStats
        st).state.tbody[index]? = some row) ∨
      ∃ message data, resp = .success message ∧ reloadList = .success data ∧
        renderRows rt data = .ok (updateStatus rt serialNumber newStatus resp reloadList
          reloadStats st).state.tbody ∧
        ∀ row ∈ (updateStatus rt serialNumber newStatus resp reloadList reloadStats
          st).state.tbody, row.dropdownDisabled = false) := by
  have hget := findDropdown_getElem _ _ _ _ hdropdown
  have hrun : updateStatus rt serialNumber newStatus resp reloadList reloadStats st
      = { state := statusSettled rt index dropdown.dropdownValue newStatus resp reloadList
            reloadStats (statusInFlight index n preorder newStatus st),
          thrown := none,
          pending := some (statusInFlight index n preorder newStatus st) } := by
    simp only [updateStatus, hserial, hknown, hdropdown]
  rw [hrun]
  refine ⟨⟨_, rfl, ?_, ?_⟩, rfl, ?_, ?_⟩
  · simp only [statusInFlight]
    rw [modifyRow_getElem, hget]
    rfl
  · simp [statusInFlight, issued]
  · intro row hrow
    exact statusSettled_enabled rt index _ newStatus resp reloadList reloadStats _ row hrow
  · rcases statusSettled_tbody rt index dropdown.dropdownValue newStatus resp reloadList
        reloadStats (statusInFlight index n preorder newStatus st) with hlen | ⟨m, d, h1, h2, h3⟩
    · left
      have hlt : index < st.tbody.length := by
        rcases List.getElem?_eq_some_iff.mp hget with ⟨hl, _⟩
        exact hl
      have hlt2 : index < (statusSettled rt index dropdown.dropdownValue newStatus resp
          reloadList reloadStats
          (statusInFlight index n preorder newStatus st)).tbody.length := by
        rw [hlen]
        simpa [statusInFlight, modifyRow_length] using hlt
      exact ⟨_, List.getElem?_eq_getElem hlt2⟩
    · right
      exact ⟨m, d, h1, h2, h3, renderRows_enabled rt d _ h3⟩

theorem updateStatus_dropdown_disabled_then_enabled_witness :
    (updateStatus asciiRuntime "1".toList "Shipped".toList (.thrown "offline".toList)
        (.thrown []) (.thrown [])
        (loadPreorders asciiRuntime
          (.success [[("S.No".toList, .num 1), ("Seller".toList, .str "Tarmac".toList)]])
          {})).pending.map (fun p => p.tbody.map fun row => row.dropdownDisabled)
      = some [true] ∧
    (updateStatus asciiRuntime "1".toList "Shipped".toList (.thrown "offline".toList)
        (.thrown []) (.thrown [])
        (loadPreorders asciiRuntime
          (.success [[("S.No".toList, .num 1), ("Seller".toList, .str "Tarmac".toList)]])
          {})).state.tbody.map (fun row => row.dropdownDisabled) = [false] ∧
    ∀ row, (updateStatus asciiRuntime "1".toList "Shipped".toList (.thrown "offline".toList)
        (.thrown []) (.thrown [])
        (loadPreorders asciiRuntime
          (.success [[("S.No".toList, .num 1), ("Seller".toList, .str "Tarmac".toList)]])
          {})).state.tbody[0]? = some row → row.dropdownDisabled = false :=
  ⟨by decide, by decide,
    (updateStatus_dropdown_disabled_then_enabled asciiRuntime "1".toList "Shipped".toList
      (.thrown "offline".toList) (.thrown []) (.thrown [])
      (loadPreorders asciiRuntime
        (.success [[("S.No".toList, .num 1), ("Seller".toList, .str "Tarmac".toList)]]) {})
      1 [("S.No".toList, .num 1), ("Seller".toList, .str "Tarmac".toList)] 0
      { serial := "1".toList, seller := "Tarmac".toList, models := "N/A".toList,
        eta := "N/A".toList, totalPrice := "N/A".toList, poAmount := "N/A".toList,
        onArrival := "N/A".toList, dropdownClass := "status-dropdown status-pending".toList,
        dataSerial := "1".toList, dropdownValue := "Pending".toList }
      (by decide) (by decide) (by decide)).2.2.1⟩

end DieCastTracker
